import Mathlib

/-!
# Instant-messaging session model (indra/newview/llimview.cpp)

A shallow embedding of the session registry `LLIMModel`, the session record
`LLIMModel::LLIMSession`, the identity resolver `LLIMMgr::computeSessionID`,
the session timeout timer, the splitting loop of `LLIMModel::sendMessage`, and
the session lifecycle manager `LLIMMgr` with the invitation responses of
`LLIncomingCallDialog` and the buffer of pending agent list updates, followed
by theorems about them.

Conventions of the embedding:

* objects that the C++ code mutates in place are passed and returned explicitly;
* calls into collaborators that live outside llimview.cpp (observers, signals,
  the message system, floaters, notifications, voice channels) are recorded,
  in call order, as `Event`s appended to the trace of the state; such a callee
  is taken not to call back into the registry while it runs;
* values read from collaborators (agent id, group membership, clock, settings,
  stored chat history) are fields of `ViewerEnv`, and those only the manager
  reads (mute list, friends, do-not-disturb, connection state) of `MgrEnv`;
* of the voice channel a record owns only the session id it is bound to is
  kept; the speaker manager of a record is not modelled;
* the counters `mNumUnread` and `mParticipantUnreadMessageCount` (S32 in the
  class declaration) are integers that every increment reduces to 32 bits, two's
  complement (`toS32`), as is the `int` counter of `getMessagesSilently`;
* a text is the list of its bytes; the U32 variables `pos`, `total` and the
  sums `pos + next_split` of the splitting loop are reduced to 32 bits
  (`toU32`);
* a dereference that the source makes without a test (`gAgent.getRegion()` in
  `processCallResponse`) gives no result (`none`) when the pointer is null.
-/

/-! ## Definitions -/

/-- A 128-bit identifier (`LLUUID`, sixteen bytes `mData`), held as the
big-endian number of its bytes, so that the byte-wise ordering of the class is
the ordering of `val` and the byte-wise exclusive or is the bitwise one. -/
structure LLUUID where
  val : Nat
  isLt : val < 2 ^ 128
deriving DecidableEq

/-- The identifier with the given number, reduced to 128 bits. -/
def LLUUID.ofNat (n : Nat) : LLUUID :=
  ⟨n % 2 ^ 128, Nat.mod_lt _ (by norm_num)⟩

/-- The null identifier `LLUUID::null`. -/
def LLUUID.null : LLUUID := ⟨0, by norm_num⟩

/-- The test `LLUUID::isNull`. -/
def LLUUID.isNull (u : LLUUID) : Bool := decide (u = LLUUID.null)

/-- The test `LLUUID::notNull`. -/
def LLUUID.notNull (u : LLUUID) : Bool := !u.isNull

/-- The operator `LLUUID::operator^`: exclusive or, byte by byte. -/
def LLUUID.xor (a b : LLUUID) : LLUUID :=
  ⟨a.val ^^^ b.val, Nat.xor_lt_two_pow a.isLt b.isLt⟩

/-- Modelled from the spec: the declaration of the wire dialog enumeration
`EInstantMessage` (llinstantmessage.h) is not among the sources. The
constructors are the dialog kinds that llimview.cpp names; every remaining wire
value is `IM_OTHER code`. -/
inductive EInstantMessage where
  | IM_NOTHING_SPECIAL
  | IM_GROUP_INVITATION
  | IM_INVENTORY_OFFERED
  | IM_SESSION_INVITE
  | IM_SESSION_P2P_INVITE
  | IM_SESSION_GROUP_START
  | IM_SESSION_CONFERENCE_START
  | IM_SESSION_SEND
  | IM_SESSION_LEAVE
  | IM_LURE_USER
  | IM_GODLIKE_LURE_USER
  | IM_FRIENDSHIP_OFFERED
  | IM_TYPING_START
  | IM_TYPING_STOP
  | IM_DO_NOT_DISTURB_AUTO_RESPONSE
  | IM_OTHER (code : Nat)
deriving DecidableEq

open EInstantMessage

/-- Modelled from the spec: the declaration of the session type tag
`LLIMModel::LLIMSession::SType` (llimview.h) is not among the sources. The
constructors are the four values that llimview.cpp assigns and tests. -/
inductive SType where
  | P2P_SESSION
  | GROUP_SESSION
  | ADHOC_SESSION
  | AVALINE_SESSION
deriving DecidableEq

/-- Modelled from the spec: the declaration of the close action of a session
(the type of `mCloseAction`, llimview.h) is not among the sources. The
constructors are the two values that llimview.cpp names; every remaining value
is `CLOSE_OTHER code`. -/
inductive SCloseAction where
  | CLOSE_DEFAULT
  | CLOSE_SNOOZE
  | CLOSE_OTHER (code : Nat)
deriving DecidableEq

/-- One entry of a stored chat transcript, as `addMessagesFromHistory` reads it
(the sender id already resolved). -/
structure HistoryLine where
  from_name : String
  from_id : LLUUID
  time : String
  text : String
deriving DecidableEq

/-- Everything the session model reads from outside llimview.cpp. -/
structure ViewerEnv where
  /-- The id of the logged-in agent, `gAgent.getID()` and `gAgentID`. -/
  gAgentID : LLUUID
  /-- The membership test `gAgent.isInGroup`. -/
  isInGroup : LLUUID → Bool
  /-- The id that the next `LLUUID::generate()` produces. -/
  generatedID : LLUUID
  /-- The query `LLVoiceClient::isParticipantAvatar`. -/
  isParticipantAvatar : LLUUID → Bool
  /-- The query `LLVoiceClient::isSessionCallBackPossible`. -/
  isSessionCallBackPossible : LLUUID → Bool
  /-- The query `LLVoiceClient::isSessionTextIMPossible`. -/
  isSessionTextIMPossible : LLUUID → Bool
  /-- Whether `gAgent.getRegion()` is non-null. -/
  hasRegion : Bool
  /-- The per-account setting `LogShowHistory`. -/
  LogShowHistory : Bool
  /-- The stored transcript `LLLogChat::loadChatHistory` yields for a file. -/
  loadChatHistory : String → List HistoryLine
  /-- The history file key `buildHistoryFileName` derives (name cache, MD5 and
  clock are outside the model): from name, ad-hoc flag, P2P flag, targets,
  other participant and session id. -/
  historyFileName : String → Bool → Bool → List LLUUID → LLUUID → LLUUID → String
  /-- The string `LLLogChat::timestamp(false)` at the time of the call. -/
  timestamp : String
  /-- The clock `LLDate::now()`, in seconds since the epoch. -/
  now : Int
  /-- The setting `FSShowIMInChatHistory`. -/
  FSShowIMInChatHistory : Bool
  /-- Whether `FSFloaterIM::findInstance` finds a floater for a session id. -/
  hasFloater : LLUUID → Bool
  /-- The constant `SYSTEM_FROM` (declared outside the sources). -/
  SYSTEM_FROM : String
  /-- The constant `INTERACTIVE_SYSTEM_FROM` (declared outside the sources). -/
  INTERACTIVE_SYSTEM_FROM : String
  /-- The localized string `no_session_message`. -/
  no_session_message : String

/-- The timeout of outgoing session initialization, in seconds. -/
def SESSION_INITIALIZATION_TIMEOUT : Nat := 30

/-- The identity resolver `LLIMMgr::computeSessionID(dialog, other_participant_id)`.
The second component tells whether the consistency warning was logged. -/
def LLIMMgr.computeSessionID (env : ViewerEnv) (dialog : EInstantMessage)
    (other_participant_id : LLUUID) : LLUUID × Bool :=
  let session_id : LLUUID :=
    if dialog = IM_SESSION_GROUP_START then
      other_participant_id
    else if dialog = IM_SESSION_CONFERENCE_START then
      env.generatedID
    else if dialog = IM_SESSION_INVITE then
      other_participant_id
    else
      let agent_id := env.gAgentID
      if other_participant_id = agent_id then agent_id
      else other_participant_id.xor agent_id
  (session_id, env.isInGroup session_id && decide (session_id ≠ other_participant_id))

/-- The value of a 32-bit signed integer (`S32`, `int`, two's complement) that
is given the integer `z`: `z` reduced modulo 2^32 into the range from -2^31 to
2^31 - 1. It is the conversion that the initialisation `int i = ...` of
`getMessagesSilently` performs, and the value that the increment of an `S32`
counter leaves (an increment past 2^31 - 1 wraps around). -/
def toS32 (z : Int) : Int :=
  (z + 2 ^ 31) % 2 ^ 32 - 2 ^ 31

/-- One entry of the message buffer `mMsgs`: the LLSD map that
`LLIMSession::addMessage` builds, with its keys as fields. -/
structure IMMessage where
  from_name : String
  from_id : LLUUID
  message : String
  time : String
  index : Int
  is_history : Bool
deriving DecidableEq

/-- The session record `LLIMModel::LLIMSession`. -/
structure LLIMSession where
  mSessionID : LLUUID
  mName : String
  mType : EInstantMessage
  mSessionType : SType
  mHasOfflineMessage : Bool
  mCloseAction : SCloseAction
  mParticipantLastMessageTime : Int
  mParticipantUnreadMessageCount : Int
  mNumUnread : Int
  mOtherParticipantID : LLUUID
  mInitialTargetIDs : List LLUUID
  /-- The message buffer, newest entry first. -/
  mMsgs : List IMMessage
  /-- The session id the owned voice channel is bound to. -/
  mVoiceChannelSessionID : LLUUID
  mSessionInitialized : Bool
  mCallBackEnabled : Bool
  mTextIMPossible : Bool
  mOtherParticipantIsAvatar : Bool
  mStartCallOnInitialize : Bool
  mStartedAsIMCall : Bool
  mIsDNDsend : Bool
  mHistoryFileName : String
deriving DecidableEq

/-- A call that leaves llimview.cpp, recorded in the trace. -/
inductive Event where
  /-- `LLIMSessionObserver::sessionAdded` delivered to one observer. -/
  | sessionAdded (observer : Nat) (session_id : LLUUID) (name : String)
      (other_participant_id : LLUUID) (has_offline_msg : Bool)
  /-- `LLIMSessionObserver::sessionRemoved` delivered to one observer. -/
  | sessionRemoved (observer : Nat) (session_id : LLUUID)
  /-- `LLIMSessionObserver::sessionIDUpdated` delivered to one observer. -/
  | sessionIDUpdated (observer : Nat) (old_session_id new_session_id : LLUUID)
  /-- The signal `mNewMsgSignal` fired with its argument map. -/
  | newMsgSignal (session_id : LLUUID) (num_unread participant_unread : Int)
      (message from_name : String) (from_id : LLUUID) (time : String)
      (session_type : SType) (is_announcement keyword_alert_performed : Bool)
  /-- The signal `mNoUnreadMsgsSignal` fired with its argument map. -/
  | noUnreadMsgsSignal (session_id : LLUUID) (num_unread participant_unread : Int)
  /-- The group start message sent by `sendStartSession`. -/
  | groupStartMessage (temp_session_id other_participant_id : LLUUID)
  /-- The conference start request of `sendStartSession`: posted to the
  ChatSessionRequest capability, or sent the deprecated way without a region. -/
  | conferenceStartRequest (temp_session_id other_participant_id : LLUUID)
      (agents : List LLUUID) (by_capability : Bool)
  /-- A `LLSessionTimeoutTimer` armed for a session id. -/
  | sessionTimeoutTimer (session_id : LLUUID) (timeout : Nat)
  /-- The notification `ChatterBoxSessionStartError` shown for a session. -/
  | sessionStartError (error_string : String) (session_id : LLUUID) (recipient : String)
  /-- `FSFloaterIM::sessionInitReplyReceived` on the floater of the old id. -/
  | floaterSessionInitReply (old_session_id new_session_id : LLUUID)
  /-- `LLIMMgr::startCall` on a session. -/
  | startCall (session_id : LLUUID)
  /-- `LLIMModel::logToFile` called for a transcript file. -/
  | logToFile (file_name from_name : String) (from_id : LLUUID) (text : String)
  /-- The message mirrored to the nearby chat floater by `addToHistory`. -/
  | nearbyChat (session_id : LLUUID) (from_name : String) (from_id : LLUUID)
      (text time : String)
  /-- `LLRecentPeople::add`. -/
  | recentPeopleAdd (id : LLUUID)
  /-- The asynchronous name lookup started for an incoming ad-hoc session. -/
  | adHocNameLookup (session_id other_participant_id : LLUUID)
  /-- `LLIMSessionObserver::sessionActivated` delivered to one observer. -/
  | sessionActivated (observer : Nat) (session_id : LLUUID) (name : String)
      (other_participant_id : LLUUID)
  /-- `LLIMSessionObserver::sessionVoiceOrIMStarted` delivered to one observer. -/
  | sessionVoiceOrIMStarted (observer : Nat) (session_id : LLUUID)
  /-- The network leave message `IM_SESSION_LEAVE` packed and sent by
  `sendLeaveSession`. -/
  | leaveSessionMessage (session_id other_participant_id : LLUUID)
  /-- The "accept invitation" request posted to the ChatSessionRequest
  capability. -/
  | acceptInvitationRequest (session_id : LLUUID)
  /-- The "decline invitation" request posted to the ChatSessionRequest
  capability. -/
  | declineInvitationRequest (session_id : LLUUID)
  /-- `LLVoiceClient::declineInvite` on a voice session handle. -/
  | declineVoiceInvite (session_handle : String)
  /-- `LLIMMgr::startCall` with direction incoming, on a session with a voice
  channel. -/
  | startIncomingCall (session_id : LLUUID)
  /-- `LLAvatarActions::startIM`. -/
  | startIM (id : LLUUID)
  /-- `LLVoiceChannelP2P::setSessionHandle` on the channel of a session. -/
  | setSessionHandle (session_id : LLUUID) (session_handle caller_uri : String)
  /-- `FSFloaterIM::initIMSession` followed by `reloadMessages`. -/
  | floaterInitIMSession (session_id : LLUUID)
  /-- `make_ui_sound`. -/
  | uiSound (name : String)
  /-- `reportToNearbyChat`. -/
  | reportToNearbyChat (text : String)
  /-- A system message added to the nearby chat floater by `addSystemMessage`. -/
  | nearbySystemMessage (text : String)
  /-- `send_do_not_disturb_message` to a caller. -/
  | doNotDisturbMessage (caller_id session_id : LLUUID)
  /-- The incoming call floater shown for an invitation. -/
  | showIncomingCall (session_id caller_id : LLUUID) (notify_box_type : String)
  /-- The name lookup started for an invitation without a caller name. -/
  | inviteNameLookup (session_id caller_id : LLUUID)
  /-- The conversation container floater shown for an offline message. -/
  | showIMContainer
deriving DecidableEq

/-- A `std::map` keyed by `LLUUID`, held as its entries in iteration order. -/
abbrev IdMap (α : Type) := List (LLUUID × α)

/-- The lookup `std::map::find`, as `get_if_there` uses it. -/
def IdMap.find {α : Type} : IdMap α → LLUUID → Option α
  | [], _ => none
  | (k, v) :: rest, key => if k = key then some v else IdMap.find rest key

/-- The assignment `m[key] = value`: replaces the value of an existing key,
otherwise inserts the entry at its place in key order. -/
def IdMap.set {α : Type} : IdMap α → LLUUID → α → IdMap α
  | [], key, value => [(key, value)]
  | (k, v) :: rest, key, value =>
    if key.val < k.val then (key, value) :: (k, v) :: rest
    else if key = k then (key, value) :: rest
    else (k, v) :: IdMap.set rest key value

/-- The removal `std::map::erase(key)`. -/
def IdMap.erase {α : Type} : IdMap α → LLUUID → IdMap α
  | [], _ => []
  | (k, v) :: rest, key =>
    if k = key then IdMap.erase rest key else (k, v) :: IdMap.erase rest key

/-- The state of the two singletons as far as the session model uses it: the
registry `LLIMModel::mId2SessionMap`, the observer list
`LLIMMgr::mSessionObservers` (each observer a number), and the trace of calls
made to collaborators, oldest first. -/
structure IMState where
  mId2SessionMap : IdMap LLIMSession
  mSessionObservers : List Nat
  events : List Event
deriving DecidableEq

/-- Appends calls to the trace. -/
def IMState.emit (st : IMState) (es : List Event) : IMState :=
  { st with events := st.events ++ es }

/-- The request `LLIMModel::sendStartSession`: whether a server round trip is
outstanding, and the messages sent. -/
def LLIMModel.sendStartSession (env : ViewerEnv) (temp_session_id other_participant_id : LLUUID)
    (ids : List LLUUID) (dialog : EInstantMessage) : Bool × List Event :=
  if dialog = IM_SESSION_GROUP_START then
    (true, [Event.groupStartMessage temp_session_id other_participant_id])
  else if dialog = IM_SESSION_CONFERENCE_START then
    (true, [Event.conferenceStartRequest temp_session_id other_participant_id ids env.hasRegion])
  else
    (false, [])

/-- The test `LLIMSession::isAdHoc`. -/
def LLIMSession.isAdHoc (env : ViewerEnv) (s : LLIMSession) : Bool :=
  decide (s.mType = IM_SESSION_CONFERENCE_START) ||
    (decide (s.mType = IM_SESSION_INVITE) && !env.isInGroup s.mSessionID)

/-- The test `LLIMSession::isP2P`. -/
def LLIMSession.isP2P (s : LLIMSession) : Bool :=
  decide (s.mType = IM_NOTHING_SPECIAL)

/-- Modelled from the spec: the inline accessor `isAdHocSessionType` of
llimview.h is not among the sources; the session type tag is ad-hoc. -/
def LLIMSession.isAdHocSessionType (s : LLIMSession) : Bool :=
  decide (s.mSessionType = SType.ADHOC_SESSION)

/-- Modelled from the spec: the inline accessor `isP2PSessionType` of
llimview.h is not among the sources; the session type tag is P2P. -/
def LLIMSession.isP2PSessionType (s : LLIMSession) : Bool :=
  decide (s.mSessionType = SType.P2P_SESSION)

/-- Modelled from the spec: the inline accessor `isGroupSessionType` of
llimview.h is not among the sources; the session type tag is group. -/
def LLIMSession.isGroupSessionType (s : LLIMSession) : Bool :=
  decide (s.mSessionType = SType.GROUP_SESSION)

/-- The method `LLIMSession::addMessage`: the new entry goes to the front of
the buffer and carries the buffer size before the push as its index. -/
def LLIMSession.addMessage (s : LLIMSession) (from_name : String) (from_id : LLUUID)
    (utf8_text time : String) (is_history : Bool) : LLIMSession :=
  { s with mMsgs :=
      { from_name := from_name, from_id := from_id, message := utf8_text, time := time,
        index := (s.mMsgs.length : Int), is_history := is_history } :: s.mMsgs }

/-- The method `LLIMSession::addMessagesFromHistory`. -/
def LLIMSession.addMessagesFromHistory (s : LLIMSession) : List HistoryLine → LLIMSession
  | [] => s
  | msg :: rest =>
    LLIMSession.addMessagesFromHistory
      (s.addMessage msg.from_name msg.from_id msg.text msg.time true) rest

/-- The method `LLIMSession::loadHistory`. -/
def LLIMSession.loadHistory (env : ViewerEnv) (s : LLIMSession) : LLIMSession :=
  let cleared : LLIMSession := { s with mMsgs := [] }
  if env.LogShowHistory then
    cleared.addMessagesFromHistory (env.loadChatHistory cleared.mHistoryFileName)
  else
    cleared

/-- The method `LLIMSession::buildHistoryFileName`, its result supplied by the
environment. -/
def LLIMSession.buildHistoryFileName (env : ViewerEnv) (s : LLIMSession) : LLIMSession :=
  { s with mHistoryFileName :=
      (env.historyFileName s.mName (s.isAdHoc env) s.isP2P s.mInitialTargetIDs
        s.mOtherParticipantID s.mSessionID) }

/-- The constructor `LLIMSession::LLIMSession`: the record built, and the calls
made while building it. -/
def LLIMSession.create (env : ViewerEnv) (session_id : LLUUID) (name : String)
    (type : EInstantMessage) (other_participant_id : LLUUID) (ids : List LLUUID)
    (voice has_offline_msg : Bool) : LLIMSession × List Event :=
  let p2pChannel : Bool := decide (type = IM_NOTHING_SPECIAL) || decide (type = IM_SESSION_P2P_INVITE)
  let isAvatar : Bool := if p2pChannel then env.isParticipantAvatar session_id else true
  let sessionType : SType :=
    if p2pChannel then
      (if !isAvatar then SType.AVALINE_SESSION else SType.P2P_SESSION)
    else
      (if env.isInGroup session_id then SType.GROUP_SESSION else SType.ADHOC_SESSION)
  let start := LLIMModel.sendStartSession env session_id other_participant_id ids type
  let s0 : LLIMSession :=
    { mSessionID := session_id
      mName := name
      mType := type
      mSessionType := sessionType
      mHasOfflineMessage := has_offline_msg
      mCloseAction := SCloseAction.CLOSE_DEFAULT
      mParticipantLastMessageTime := env.now
      mParticipantUnreadMessageCount := 0
      mNumUnread := 0
      mOtherParticipantID := other_participant_id
      mInitialTargetIDs := ids
      mMsgs := []
      mVoiceChannelSessionID := session_id
      mSessionInitialized := !start.1
      mCallBackEnabled :=
        if type = IM_NOTHING_SPECIAL then env.isSessionCallBackPossible session_id else true
      mTextIMPossible :=
        if type = IM_NOTHING_SPECIAL then env.isSessionTextIMPossible session_id else true
      mOtherParticipantIsAvatar := isAvatar
      mStartCallOnInitialize := false
      mStartedAsIMCall := voice
      mIsDNDsend := false
      mHistoryFileName := "" }
  let s1 := (s0.buildHistoryFileName env).loadHistory env
  let timer : List Event :=
    if start.1 then [Event.sessionTimeoutTimer session_id SESSION_INITIALIZATION_TIMEOUT] else []
  let lookup : List Event :=
    if s1.isAdHocSessionType && decide (type = IM_SESSION_INVITE) then
      [Event.adHocNameLookup session_id other_participant_id]
    else []
  (s1, start.2 ++ timer ++ lookup)

/-- The method `LLIMSession::sessionInitReplyReceived`. -/
def LLIMSession.sessionInitReplyReceived (s : LLIMSession) (new_session_id : LLUUID) :
    LLIMSession :=
  let s1 : LLIMSession := { s with mSessionInitialized := true }
  if new_session_id ≠ s1.mSessionID then
    { s1 with mSessionID := new_session_id, mVoiceChannelSessionID := new_session_id }
  else
    s1

/-- The lookup `LLIMModel::findIMSession`. -/
def LLIMModel.findIMSession (st : IMState) (session_id : LLUUID) : Option LLIMSession :=
  IdMap.find st.mId2SessionMap session_id

/-- The test `LLIMMgr::hasSession`. -/
def LLIMMgr.hasSession (st : IMState) (session_id : LLUUID) : Bool :=
  (LLIMModel.findIMSession st session_id).isSome

/-- The inner loop of `findAdHocIMSession`: each id of the request is removed
from the copy of the targets (all its occurrences) until the ids are used up or
the copy is empty. Returns the copy and the ids not yet visited. -/
def LLIMModel.adHocRemoveLoop : List LLUUID → List LLUUID → List LLUUID × List LLUUID
  | tmp_list, [] => (tmp_list, [])
  | tmp_list, id :: rest =>
    let tmp := tmp_list.filter (fun x => decide (x ≠ id))
    if tmp.isEmpty then (tmp, rest) else LLIMModel.adHocRemoveLoop tmp rest

/-- The body of the session loop of `findAdHocIMSession` for one record: the
record is returned by the loop. -/
def LLIMModel.adHocMatches (env : ViewerEnv) (session : LLIMSession) (ids : List LLUUID) : Bool :=
  if !session.isAdHoc env then false
  else if session.mInitialTargetIDs.length ≠ ids.length then false
  else
    let r := LLIMModel.adHocRemoveLoop session.mInitialTargetIDs ids
    r.1.isEmpty && r.2.isEmpty

/-- The session loop of `findAdHocIMSession`, over the registry in key order. -/
def LLIMModel.adHocScan (env : ViewerEnv) (ids : List LLUUID) :
    IdMap LLIMSession → Option LLIMSession
  | [] => none
  | (_, session) :: rest =>
    if LLIMModel.adHocMatches env session ids then some session
    else LLIMModel.adHocScan env ids rest

/-- The lookup `LLIMModel::findAdHocIMSession`. -/
def LLIMModel.findAdHocIMSession (env : ViewerEnv) (st : IMState) (ids : List LLUUID) :
    Option LLIMSession :=
  if ids.length = 0 then none
  else if st.mId2SessionMap.isEmpty then none
  else LLIMModel.adHocScan env ids st.mId2SessionMap

/-- The accessor `LLIMModel::getName`. -/
def LLIMModel.getName (env : ViewerEnv) (st : IMState) (session_id : LLUUID) : String :=
  match LLIMModel.findIMSession st session_id with
  | none => env.no_session_message
  | some session => session.mName

/-- The accessor `LLIMModel::getNumUnread`. -/
def LLIMModel.getNumUnread (st : IMState) (session_id : LLUUID) : Int :=
  match LLIMModel.findIMSession st session_id with
  | none => -1
  | some session => session.mNumUnread

/-- The accessor `LLIMModel::getOtherParticipantID`. -/
def LLIMModel.getOtherParticipantID (st : IMState) (session_id : LLUUID) : LLUUID :=
  match LLIMModel.findIMSession st session_id with
  | none => LLUUID.null
  | some session => session.mOtherParticipantID

/-- The fan-out `LLIMMgr::notifyObserverSessionAdded`: one delivery per
registered observer, in registration order. -/
def LLIMMgr.notifyObserverSessionAdded (st : IMState) (session_id : LLUUID) (name : String)
    (other_participant_id : LLUUID) (has_offline_msg : Bool) : IMState :=
  st.emit (st.mSessionObservers.map
    (fun o => Event.sessionAdded o session_id name other_participant_id has_offline_msg))

/-- The fan-out `LLIMMgr::notifyObserverSessionRemoved`. -/
def LLIMMgr.notifyObserverSessionRemoved (st : IMState) (session_id : LLUUID) : IMState :=
  st.emit (st.mSessionObservers.map (fun o => Event.sessionRemoved o session_id))

/-- The fan-out `LLIMMgr::notifyObserverSessionIDUpdated`. -/
def LLIMMgr.notifyObserverSessionIDUpdated (st : IMState)
    (old_session_id new_session_id : LLUUID) : IMState :=
  st.emit (st.mSessionObservers.map
    (fun o => Event.sessionIDUpdated o old_session_id new_session_id))

/-- The registration `LLIMMgr::addSessionObserver`. -/
def LLIMMgr.addSessionObserver (st : IMState) (observer : Nat) : IMState :=
  { st with mSessionObservers := st.mSessionObservers ++ [observer] }

/-- The removal `LLIMMgr::removeSessionObserver` (`std::list::remove`). -/
def LLIMMgr.removeSessionObserver (st : IMState) (observer : Nat) : IMState :=
  { st with mSessionObservers := st.mSessionObservers.filter (fun o => decide (o ≠ observer)) }

/-- The operation `LLIMModel::newSession` (the overload with the target ids). -/
def LLIMModel.newSession (env : ViewerEnv) (st : IMState) (session_id : LLUUID) (name : String)
    (type : EInstantMessage) (other_participant_id : LLUUID) (ids : List LLUUID)
    (voice has_offline_msg : Bool) : Bool × IMState :=
  if name = "" then
    (false, st)
  else if (LLIMModel.findIMSession st session_id).isSome then
    (false, st)
  else
    let built := LLIMSession.create env session_id name type other_participant_id ids voice
      has_offline_msg
    let st1 : IMState :=
      { st with mId2SessionMap := IdMap.set st.mId2SessionMap session_id built.1,
                events := st.events ++ built.2 }
    let session_name := LLIMModel.getName env st1 session_id
    (true, LLIMMgr.notifyObserverSessionAdded st1 session_id session_name other_participant_id
      has_offline_msg)

/-- The overload of `LLIMModel::newSession` without target ids: the other
participant is the only target. -/
def LLIMModel.newSessionP2P (env : ViewerEnv) (st : IMState) (session_id : LLUUID)
    (name : String) (type : EInstantMessage) (other_participant_id : LLUUID)
    (voice has_offline_msg : Bool) : Bool × IMState :=
  LLIMModel.newSession env st session_id name type other_participant_id [other_participant_id]
    voice has_offline_msg

/-- The operation `LLIMModel::clearSession`. -/
def LLIMModel.clearSession (st : IMState) (session_id : LLUUID) : Bool × IMState :=
  if (IdMap.find st.mId2SessionMap session_id).isNone then (false, st)
  else (true, { st with mId2SessionMap := IdMap.erase st.mId2SessionMap session_id })

/-- The operation `LLIMModel::processSessionInitializedReply`. -/
def LLIMModel.processSessionInitializedReply (env : ViewerEnv) (st : IMState)
    (old_session_id new_session_id : LLUUID) : IMState :=
  match LLIMModel.findIMSession st old_session_id with
  | none => st
  | some session =>
    let session1 := session.sessionInitReplyReceived new_session_id
    let map1 := IdMap.set st.mId2SessionMap old_session_id session1
    let map2 :=
      if old_session_id ≠ new_session_id then
        IdMap.set (IdMap.erase map1 old_session_id) new_session_id session1
      else map1
    let st1 : IMState := { st with mId2SessionMap := map2 }
    let st2 :=
      if env.hasFloater old_session_id then
        st1.emit [Event.floaterSessionInitReply old_session_id new_session_id]
      else st1
    let st3 :=
      if old_session_id ≠ new_session_id then
        LLIMMgr.notifyObserverSessionIDUpdated st2 old_session_id new_session_id
      else st2
    if session1.mStartCallOnInitialize then st3.emit [Event.startCall new_session_id] else st3

/-- The operation `LLIMModel::sendNoUnreadMessages`. -/
def LLIMModel.sendNoUnreadMessages (st : IMState) (session_id : LLUUID) : IMState :=
  match LLIMModel.findIMSession st session_id with
  | none => st
  | some session =>
    let session1 : LLIMSession :=
      { session with mNumUnread := 0, mParticipantUnreadMessageCount := 0 }
    let st1 : IMState :=
      { st with mId2SessionMap := IdMap.set st.mId2SessionMap session_id session1 }
    st1.emit [Event.noUnreadMsgsSignal session_id 0 session1.mParticipantUnreadMessageCount]

/-- The operation `LLIMModel::addToHistory`; the entry is not a history entry
(the default of the last parameter of `LLIMSession::addMessage`). -/
def LLIMModel.addToHistory (env : ViewerEnv) (st : IMState) (session_id : LLUUID)
    (from_name : String) (from_id : LLUUID) (utf8_text : String) (is_announcement : Bool) :
    Bool × IMState :=
  match LLIMModel.findIMSession st session_id with
  | none => (false, st)
  | some session =>
    let timestr := env.timestamp
    let session1 := session.addMessage from_name from_id utf8_text timestr false
    let st1 : IMState :=
      { st with mId2SessionMap := IdMap.set st.mId2SessionMap session_id session1 }
    if env.FSShowIMInChatHistory && !is_announcement then
      (true, st1.emit [Event.nearbyChat session_id from_name from_id utf8_text timestr])
    else
      (true, st1)

/-- The operation `LLIMModel::addMessageSilently`: the record appended to (none
for an unknown session id) and the state after. -/
def LLIMModel.addMessageSilently (env : ViewerEnv) (st : IMState) (session_id : LLUUID)
    (from_name : String) (from_id : LLUUID) (utf8_text : String)
    (log2file is_announcement : Bool) : Option LLIMSession × IMState :=
  match LLIMModel.findIMSession st session_id with
  | none => (none, st)
  | some _ =>
    let from_name1 :=
      if env.INTERACTIVE_SYSTEM_FROM = from_name then env.SYSTEM_FROM else from_name
    let st1 := (LLIMModel.addToHistory env st session_id from_name1 from_id utf8_text
      is_announcement).2
    let st2 :=
      if log2file && !is_announcement then
        st1.emit [Event.logToFile
          (match LLIMModel.findIMSession st1 session_id with
            | none => ""
            | some s => s.mHistoryFileName)
          from_name1 from_id utf8_text]
      else st1
    match LLIMModel.findIMSession st2 session_id with
    | none => (none, st2)
    | some session =>
      let session1 : LLIMSession :=
        { session with mNumUnread := toS32 (session.mNumUnread + 1) }
      let session2 : LLIMSession :=
        if (!(from_id.isNull || decide (from_id = env.gAgentID)
              || decide (env.SYSTEM_FROM = from_name)))
            || decide (env.INTERACTIVE_SYSTEM_FROM = from_name) then
          { session1 with
            mParticipantUnreadMessageCount :=
              toS32 (session1.mParticipantUnreadMessageCount + 1),
            mParticipantLastMessageTime := env.now }
        else session1
      (some session2,
        { st2 with mId2SessionMap := IdMap.set st2.mId2SessionMap session_id session2 })

/-- The operation `LLIMModel::addMessage`. -/
def LLIMModel.addMessage (env : ViewerEnv) (st : IMState) (session_id : LLUUID)
    (from_name : String) (from_id : LLUUID) (utf8_text : String)
    (log2file is_announcement keyword_alert_performed : Bool) : Bool × IMState :=
  match LLIMModel.addMessageSilently env st session_id from_name from_id utf8_text log2file
      is_announcement with
  | (none, st1) => (false, st1)
  | (some session, st1) =>
    let st2 :=
      if !from_id.isNull && (session.isP2PSessionType || session.isAdHocSessionType) then
        st1.emit [Event.recentPeopleAdd from_id]
      else st1
    (true, st2.emit [Event.newMsgSignal session_id session.mNumUnread
      session.mParticipantUnreadMessageCount utf8_text from_name from_id env.timestamp
      session.mSessionType is_announcement keyword_alert_performed])

/-- The error display `LLIMMgr::showSessionStartError`. -/
def LLIMMgr.showSessionStartError (env : ViewerEnv) (st : IMState) (error_string : String)
    (session_id : LLUUID) : IMState :=
  if !LLIMMgr.hasSession st session_id then st
  else st.emit [Event.sessionStartError error_string session_id
    (LLIMModel.getName env st session_id)]

/-- The callback `LLSessionTimeoutTimer::tick` of the timer armed for
`mSessionId`. -/
def LLSessionTimeoutTimer.tick (env : ViewerEnv) (st : IMState) (mSessionId : LLUUID) : IMState :=
  if mSessionId.isNull then st
  else
    match LLIMModel.findIMSession st mSessionId with
    | none => st
    | some session =>
      if !session.mSessionInitialized then
        LLIMMgr.showSessionStartError env st "session_initialization_timed_out_error" mSessionId
      else st

/-- The operation `LLIMMgr::autoStartCallOnStartup`. -/
def LLIMMgr.autoStartCallOnStartup (st : IMState) (session_id : LLUUID) : IMState :=
  match LLIMModel.findIMSession st session_id with
  | none => st
  | some session =>
    if session.mSessionInitialized then st.emit [Event.startCall session_id]
    else
      { st with mId2SessionMap :=
          IdMap.set st.mId2SessionMap session_id { session with mStartCallOnInitialize := true } }

/-- The inputs of one call of `LLIMModel::addMessage` besides session and
sender: the environment at the time of the call, the text and the flags. -/
structure MessageCall where
  env : ViewerEnv
  utf8_text : String
  log2file : Bool
  is_announcement : Bool
  keyword_alert_performed : Bool

/-- The state after a run of `LLIMModel::addMessage` calls, one per entry of
the list, all for one session and from one sender. -/
def LLIMModel.addMessagesFrom (st : IMState) (session_id : LLUUID) (from_name : String)
    (from_id : LLUUID) : List MessageCall → IMState
  | [] => st
  | c :: rest =>
    LLIMModel.addMessagesFrom
      (LLIMModel.addMessage c.env st session_id from_name from_id c.utf8_text c.log2file
        c.is_announcement c.keyword_alert_performed).2
      session_id from_name from_id rest

/-- The operations on the registry that the model covers, with their
arguments. -/
inductive RegistryOp where
  | newSession (session_id : LLUUID) (name : String) (type : EInstantMessage)
      (other_participant_id : LLUUID) (ids : List LLUUID) (voice has_offline_msg : Bool)
  | clearSession (session_id : LLUUID)
  | addMessage (session_id : LLUUID) (from_name : String) (from_id : LLUUID)
      (utf8_text : String) (log2file is_announcement keyword_alert_performed : Bool)
  | addMessageSilently (session_id : LLUUID) (from_name : String) (from_id : LLUUID)
      (utf8_text : String) (log2file is_announcement : Bool)
  | sendNoUnreadMessages (session_id : LLUUID)
  | processSessionInitializedReply (old_session_id new_session_id : LLUUID)
  | autoStartCallOnStartup (session_id : LLUUID)
  | timerTick (mSessionId : LLUUID)
  | addSessionObserver (observer : Nat)
  | removeSessionObserver (observer : Nat)
deriving DecidableEq

/-- The state after one operation, run in the given environment. -/
def RegistryOp.apply (env : ViewerEnv) (st : IMState) : RegistryOp → IMState
  | .newSession session_id name type other ids voice offline =>
    (LLIMModel.newSession env st session_id name type other ids voice offline).2
  | .clearSession session_id => (LLIMModel.clearSession st session_id).2
  | .addMessage session_id from_name from_id text log2file ann kw =>
    (LLIMModel.addMessage env st session_id from_name from_id text log2file ann kw).2
  | .addMessageSilently session_id from_name from_id text log2file ann =>
    (LLIMModel.addMessageSilently env st session_id from_name from_id text log2file ann).2
  | .sendNoUnreadMessages session_id => LLIMModel.sendNoUnreadMessages st session_id
  | .processSessionInitializedReply old new =>
    LLIMModel.processSessionInitializedReply env st old new
  | .autoStartCallOnStartup session_id => LLIMMgr.autoStartCallOnStartup st session_id
  | .timerTick mSessionId => LLSessionTimeoutTimer.tick env st mSessionId
  | .addSessionObserver observer => LLIMMgr.addSessionObserver st observer
  | .removeSessionObserver observer => LLIMMgr.removeSessionObserver st observer

/-- The state after a run of operations, each in the environment of its time. -/
def RegistryOp.run (st : IMState) : List (ViewerEnv × RegistryOp) → IMState
  | [] => st
  | (env, op) :: rest => RegistryOp.run (op.apply env st) rest

/-- Whether an operation is a session initialization reply. -/
def RegistryOp.isReply : RegistryOp → Bool
  | .processSessionInitializedReply _ _ => true
  | _ => false

/-- Modelled from the spec: the constant `MAX_MSG_BUF_SIZE` (llinstantmessage.h)
is not among the sources; 1024 is its value there. -/
def MAX_MSG_BUF_SIZE : Nat := 1024

/-- The value of a 32-bit unsigned integer (`U32`) that holds the number `n`:
sums of positions wrap around at 2^32, and a length is cut to its low 32 bits
when it is stored in a `U32`. -/
def toU32 (n : Nat) : Nat := n % 2 ^ 32

/-- The read `utf8_text[i]` of `LLIMModel::sendMessage`, the text held as the
list of its bytes: the byte at `i`, the terminating zero at the length of the
text, and none (a read outside the string) beyond it. -/
def LLIMModel.byteAt (utf8_text : List Nat) (i : Nat) : Option Nat :=
  if i ≤ utf8_text.length then some (utf8_text.getD i 0) else none

/-- The first inner loop of `LLIMModel::sendMessage`: `next_split` is counted
down from its start value while the byte at `pos + next_split`, a `U32` sum, is
not a space and `next_split` is positive; the byte is read before `next_split`
is tested. -/
def LLIMModel.scanSpace (utf8_text : List Nat) (pos : Nat) : Nat → Option Nat
  | 0 => (LLIMModel.byteAt utf8_text (toU32 pos)).map (fun _ => 0)
  | next_split + 1 =>
    match LLIMModel.byteAt utf8_text (toU32 (pos + (next_split + 1))) with
    | none => none
    | some b =>
      if b ≠ 32 then LLIMModel.scanSpace utf8_text pos next_split else some (next_split + 1)

/-- The second inner loop of `LLIMModel::sendMessage`: `next_split` is counted
down while the byte at `pos + next_split`, a `U32` sum, is a UTF-8 continuation
byte (from 0x80 up to, not including, 0xC0) and `next_split` is positive. -/
def LLIMModel.scanUtf8 (utf8_text : List Nat) (pos : Nat) : Nat → Option Nat
  | 0 => (LLIMModel.byteAt utf8_text (toU32 pos)).map (fun _ => 0)
  | next_split + 1 =>
    match LLIMModel.byteAt utf8_text (toU32 (pos + (next_split + 1))) with
    | none => none
    | some b =>
      if 128 ≤ b ∧ b < 192 then LLIMModel.scanUtf8 utf8_text pos next_split
      else some (next_split + 1)

/-- The value of `next_split` with which one round of the splitting loop of
`LLIMModel::sendMessage` cuts its chunk; none when a byte outside the string
is read. `total` is the length of the text stored in a `U32`, and the sum
`pos + next_split` of the test is a `U32` sum. -/
def LLIMModel.nextSplit (split : Nat) (utf8_text : List Nat) (pos : Nat) : Option Nat :=
  let total := toU32 utf8_text.length
  if toU32 (pos + split) > total then some (total - pos)
  else
    match LLIMModel.scanSpace utf8_text pos split with
    | none => none
    | some n1 =>
      match (if n1 = 0 then LLIMModel.scanUtf8 utf8_text pos split else some n1) with
      | none => none
      | some n2 => some (if n2 = 0 then split else n2)

/-- The splitting loop of `LLIMModel::sendMessage` from position `pos`, run for
at most `fuel` rounds: the chunks handed to `deliverMessage`, in delivery
order; none when the rounds do not suffice or a byte outside the string is
read. The loop runs while `pos` is below `total`, the length of the text
stored in a `U32`, and `pos += next_split` is a `U32` sum. -/
def LLIMModel.sendLoop (split : Nat) (utf8_text : List Nat) : Nat → Nat → Option (List (List Nat))
  | 0, pos => if pos < toU32 utf8_text.length then none else some []
  | fuel + 1, pos =>
    if pos < toU32 utf8_text.length then
      match LLIMModel.nextSplit split utf8_text pos with
      | none => none
      | some next_split =>
        (LLIMModel.sendLoop split utf8_text fuel (toU32 (pos + next_split))).map
          (fun rest => (utf8_text.drop pos).take next_split :: rest)
    else some []

/-- The chunks that `LLIMModel::sendMessage` hands to `deliverMessage` for a
text, in delivery order, the loop run for at most `fuel` rounds. -/
def LLIMModel.sendMessageChunks (fuel : Nat) (utf8_text : List Nat) : Option (List (List Nat)) :=
  LLIMModel.sendLoop (MAX_MSG_BUF_SIZE - 1) utf8_text fuel 0

/-! ### The session lifecycle manager -/

/-- Modelled from the spec: the structured payload type `LLSD` (llsd.h) is not
among the sources. The value kinds are the ones llimview.cpp builds and reads. -/
inductive LLSD where
  | undef
  | boolean (b : Bool)
  | integer (i : Int)
  | string (s : String)
  | uuid (u : LLUUID)
  | map (entries : List (String × LLSD))
  | array (items : List LLSD)

/-- Modelled from the spec: the declaration of `LLIMMgr::EInvitationType`
(llimview.h) is not among the sources. The constructors are the two values
llimview.cpp names; every remaining value is `INVITATION_TYPE_OTHER code`. -/
inductive EInvitationType where
  | INVITATION_TYPE_VOICE
  | INVITATION_TYPE_IMMEDIATE
  | INVITATION_TYPE_OTHER (code : Nat)
deriving DecidableEq

/-- Everything the lifecycle manager reads from outside llimview.cpp, on top of
what the registry reads. -/
structure MgrEnv extends ViewerEnv where
  /-- The test `LLMuteList::isLinden` on a name. -/
  isLinden : String → Bool
  /-- The test `LLMuteList::isMuted(id)`. -/
  isMuted : LLUUID → Bool
  /-- The test `LLMuteList::isMuted(id, LLMute::flagTextChat)`. -/
  isMutedTextChat : LLUUID → Bool
  /-- Whether `LLMuteList::getInstance()` is non-null. -/
  hasMuteList : Bool
  /-- The test `exoGroupMuteList::isMuted` on a session id. -/
  isGroupMuted : LLUUID → Bool
  /-- Whether `LLAvatarTracker::getBuddyInfo` is non-null for an id. -/
  isBuddy : LLUUID → Bool
  /-- The flag `gAgent.isDoNotDisturb()`. -/
  isDoNotDisturb : Bool
  /-- The flag `gAgent.isGodlike()`. -/
  isGodlike : Bool
  /-- The flag `gDisconnected`. -/
  gDisconnected : Bool
  /-- Whether `LLVoiceClient::getInstance()` is non-null. -/
  hasVoiceClient : Bool
  /-- The group name `gAgent.getGroupData` resolves for an id, if any. -/
  getGroupData : LLUUID → Option String
  /-- The display name `LLAvatarNameCache::get` has cached for an id, if any. -/
  avatarDisplayName : LLUUID → Option String
  /-- The complete name `LLAvatarNameCache::get` has cached for an id, if any. -/
  avatarCompleteName : LLUUID → Option String
  /-- Whether a voice channel exists for the id and its call has started. -/
  callStarted : LLUUID → Bool
  /-- Whether the floater of a session exists and does not have the focus. -/
  floaterWithoutFocus : LLUUID → Bool
  /-- The settings `VoiceCallsFriendsOnly`, `VoiceCallsRejectGroup`,
  `VoiceCallsRejectAdHoc` and `VoiceCallsRejectP2P`. -/
  VoiceCallsFriendsOnly : Bool
  VoiceCallsRejectGroup : Bool
  VoiceCallsRejectAdHoc : Bool
  VoiceCallsRejectP2P : Bool
  /-- The settings `FSReportMutedGroupChat`, `FSIgnoreAdHocSessions`,
  `FSReportIgnoredAdHocSession` and `FSOpenIMContainerOnOfflineMessage`. -/
  FSReportMutedGroupChat : Bool
  FSIgnoreAdHocSessions : Bool
  FSReportIgnoredAdHocSession : Bool
  FSOpenIMContainerOnOfflineMessage : Bool
  /-- The settings `PlayModeUISndNewIncomingIMSession`,
  `PlayModeUISndNewIncomingGroupIMSession` and
  `PlayModeUISndNewIncomingConfIMSession`. -/
  PlayModeUISndNewIncomingIMSession : Nat
  PlayModeUISndNewIncomingGroupIMSession : Nat
  PlayModeUISndNewIncomingConfIMSession : Nat
  /-- The setting `GroupSnoozeTime`, in seconds. -/
  GroupSnoozeTime : Int
  /-- The clock `LLTimer::getTotalSeconds()`, in whole seconds. -/
  totalSeconds : Int
  /-- The localized string `LLTrans::getString` yields for a name, arguments
  filled in. -/
  getString : String → String
  /-- The text about the parent estate that is shown to a godlike agent. -/
  bonusInfo : Nat → String
  /-- The transcript file name `addSystemMessage` derives for a user id. -/
  systemLogName : LLUUID → String

/-- The state of `LLIMMgr` together with the registry: the snooze table
`mSnoozedSessions` (session id to time, in seconds), and the buffers
`mPendingInvitations` and `mPendingAgentListUpdates` (LLSD maps keyed by the
string form of a session id, held here keyed by the id itself). -/
structure MgrState where
  im : IMState
  mSnoozedSessions : IdMap Int
  mPendingInvitations : IdMap LLSD
  mPendingAgentListUpdates : IdMap LLSD

/-- Appends calls to the trace of the registry state. -/
def MgrState.emit (st : MgrState) (es : List Event) : MgrState :=
  { st with im := st.im.emit es }

/-- The message `LLIMModel::sendLeaveSession`: sent only for a non-null
session id. -/
def LLIMModel.sendLeaveSession (session_id other_participant_id : LLUUID) : List Event :=
  if session_id.notNull then [Event.leaveSessionMessage session_id other_participant_id] else []

/-- The operation `LLIMMgr::clearPendingInvitation`. -/
def LLIMMgr.clearPendingInvitation (st : MgrState) (session_id : LLUUID) : MgrState :=
  if (IdMap.find st.mPendingInvitations session_id).isSome then
    { st with mPendingInvitations := IdMap.erase st.mPendingInvitations session_id }
  else st

/-- The operation `LLIMMgr::clearPendingAgentListUpdates`. -/
def LLIMMgr.clearPendingAgentListUpdates (st : MgrState) (session_id : LLUUID) : MgrState :=
  if (IdMap.find st.mPendingAgentListUpdates session_id).isSome then
    { st with mPendingAgentListUpdates := IdMap.erase st.mPendingAgentListUpdates session_id }
  else st

/-- The operation `LLIMMgr::removeSession`; none when the assertion
`llassert_always(hasSession(session_id))` fails. -/
def LLIMMgr.removeSession (st : MgrState) (session_id : LLUUID) : Option MgrState :=
  if !LLIMMgr.hasSession st.im session_id then none
  else
    let st1 := LLIMMgr.clearPendingInvitation st session_id
    let st2 := LLIMMgr.clearPendingAgentListUpdates st1 session_id
    let st3 : MgrState := { st2 with im := (LLIMModel.clearSession st2.im session_id).2 }
    some { st3 with im := LLIMMgr.notifyObserverSessionRemoved st3.im session_id }

/-- The operation `LLIMMgr::leaveSession`. The removal at its end cannot fail
its assertion, the session having just been found. -/
def LLIMMgr.leaveSession (st : MgrState) (session_id : LLUUID) : Bool × MgrState :=
  match LLIMModel.findIMSession st.im session_id with
  | none => (false, st)
  | some im_session =>
    let st1 : MgrState :=
      if im_session.isGroupSessionType &&
          decide (SCloseAction.CLOSE_SNOOZE = im_session.mCloseAction) then
        { st with mSnoozedSessions :=
            IdMap.set st.mSnoozedSessions session_id im_session.mParticipantLastMessageTime }
      else
        st.emit (LLIMModel.sendLeaveSession session_id im_session.mOtherParticipantID)
    match LLIMMgr.removeSession st1 session_id with
    | none => (true, st1)
    | some st2 => (true, st2)

/-- The session id `LLIMMgr::addMessage` works on: the one supplied, or the
computed one when the supplied id is null. -/
def LLIMMgr.resolveSessionID (env : MgrEnv) (session_id : LLUUID) (dialog : EInstantMessage)
    (other_participant_id : LLUUID) : LLUUID :=
  if session_id.isNull then
    (LLIMMgr.computeSessionID env.toViewerEnv dialog other_participant_id).1
  else session_id

/-- The restrict-to-friends test at the head of `LLIMMgr::addMessage`: the
initial value of `skip_message`. -/
def LLIMMgr.skipNonFriend (env : MgrEnv) (new_session_id : LLUUID) (from_name : String)
    (dialog : EInstantMessage) (other_participant_id : LLUUID) : Bool :=
  if env.VoiceCallsFriendsOnly && !env.isLinden from_name &&
      (decide (dialog = IM_NOTHING_SPECIAL) ||
        (decide (dialog = IM_SESSION_INVITE) && !env.isInGroup new_session_id)) then
    (!env.isBuddy other_participant_id) && !decide (other_participant_id = env.gAgentID)
  else false

/-- The sound played by `LLIMMgr::addMessage` after it has created a session. -/
def LLIMMgr.newSessionSound (env : MgrEnv) (dialog : EInstantMessage) (is_group_chat : Bool) :
    List Event :=
  if !env.isDoNotDisturb && decide (env.PlayModeUISndNewIncomingIMSession ≠ 0) &&
      decide (dialog = IM_NOTHING_SPECIAL) then
    [Event.uiSound "UISndNewIncomingIMSession"]
  else if !env.isDoNotDisturb && decide (env.PlayModeUISndNewIncomingGroupIMSession ≠ 0) &&
      decide (dialog ≠ IM_NOTHING_SPECIAL) && is_group_chat then
    [Event.uiSound "UISndNewIncomingGroupIMSession"]
  else if !env.isDoNotDisturb && decide (env.PlayModeUISndNewIncomingConfIMSession ≠ 0) &&
      decide (dialog ≠ IM_NOTHING_SPECIAL) && !is_group_chat then
    [Event.uiSound "UISndNewIncomingConfIMSession"]
  else []

/-- The sound played by `LLIMMgr::addMessage` for a session that existed: the
rest of the chain of alternatives; `session_id` is the id passed by the caller. -/
def LLIMMgr.existingSessionSound (env : MgrEnv) (session_id : LLUUID) (dialog : EInstantMessage)
    (is_group_chat : Bool) : List Event :=
  if !env.isDoNotDisturb && decide (env.PlayModeUISndNewIncomingIMSession = 2) &&
      decide (dialog = IM_NOTHING_SPECIAL) then
    [Event.uiSound "UISndNewIncomingIMSession"]
  else if !env.isDoNotDisturb && decide (env.PlayModeUISndNewIncomingGroupIMSession = 2) &&
      decide (dialog ≠ IM_NOTHING_SPECIAL) && is_group_chat then
    [Event.uiSound "UISndNewIncomingGroupIMSession"]
  else if !env.isDoNotDisturb && decide (env.PlayModeUISndNewIncomingConfIMSession = 2) &&
      decide (dialog ≠ IM_NOTHING_SPECIAL) && !is_group_chat then
    [Event.uiSound "UISndNewIncomingConfIMSession"]
  else if !env.isDoNotDisturb && decide (env.PlayModeUISndNewIncomingIMSession = 3) &&
      decide (dialog = IM_NOTHING_SPECIAL) then
    (if env.floaterWithoutFocus session_id then [Event.uiSound "UISndNewIncomingIMSession"]
     else [])
  else if !env.isDoNotDisturb && decide (env.PlayModeUISndNewIncomingGroupIMSession = 3) &&
      decide (dialog ≠ IM_NOTHING_SPECIAL) && is_group_chat then
    (if env.floaterWithoutFocus session_id then [Event.uiSound "UISndNewIncomingGroupIMSession"]
     else [])
  else if !env.isDoNotDisturb && decide (env.PlayModeUISndNewIncomingConfIMSession = 3) &&
      decide (dialog ≠ IM_NOTHING_SPECIAL) && !is_group_chat then
    (if env.floaterWithoutFocus session_id then [Event.uiSound "UISndNewIncomingConfIMSession"]
     else [])
  else []

/-- The end of `LLIMMgr::addMessage`, common to new and existing sessions: the
message is handed to the registry unless the sender is muted for text chat or
the message is skipped; then the container is shown for an offline message. -/
def LLIMMgr.addMessageTail (env : MgrEnv) (st : MgrState) (new_session_id : LLUUID)
    (from_name : String) (other_participant_id : LLUUID) (msg : String)
    (is_offline_msg is_announcement keyword_alert_performed skip_message : Bool) : MgrState :=
  let st1 : MgrState :=
    if !env.isMutedTextChat other_participant_id && !skip_message then
      { st with im := (LLIMModel.addMessage env.toViewerEnv st.im new_session_id from_name
          other_participant_id msg true is_announcement keyword_alert_performed).2 }
    else st
  if is_offline_msg && env.FSOpenIMContainerOnOfflineMessage then
    st1.emit [Event.showIMContainer]
  else st1

/-- The ingestion entry point `LLIMMgr::addMessage` (the parameters region id,
position and link_name are not used by its body). The result is none when the
call dereferences the null session pointer: the session was to be created but
its name was empty. -/
def LLIMMgr.addMessage (env : MgrEnv) (st : MgrState) (session_id target_id : LLUUID)
    (from_name msg : String) (is_offline_msg : Bool) (session_name : String)
    (dialog : EInstantMessage) (parent_estate_id : Nat)
    (is_announcement keyword_alert_performed : Bool) : Option MgrState :=
  let other_participant_id := target_id
  let new_session_id := LLIMMgr.resolveSessionID env session_id dialog other_participant_id
  let name_is_setted : Bool := decide (session_name ≠ "") && decide (session_name.utf8ByteSize > 1)
  let fixed_session_name := if name_is_setted then session_name else from_name
  let from_linden := env.isLinden from_name
  let skip_message :=
    LLIMMgr.skipNonFriend env new_session_id from_name dialog other_participant_id
  let new_session := !LLIMMgr.hasSession st.im new_session_id
  if new_session then
    let fixed_session_name1 :=
      match env.avatarDisplayName other_participant_id with
      | some display_name => if !name_is_setted then display_name else fixed_session_name
      | none => fixed_session_name
    if env.isGroupMuted new_session_id then
      let st1 :=
        if env.FSReportMutedGroupChat then
          st.emit [Event.reportToNearbyChat (env.getString "GroupChatMuteNotice")]
        else st
      let st2 := LLIMMgr.clearPendingInvitation st1 new_session_id
      let st3 := LLIMMgr.clearPendingAgentListUpdates st2 new_session_id
      some (st3.emit (LLIMModel.sendLeaveSession new_session_id other_participant_id))
    else if decide (IM_NOTHING_SPECIAL ≠ dialog) && decide (IM_SESSION_P2P_INVITE ≠ dialog) &&
        env.isInGroup new_session_id && env.isMuted other_participant_id && !from_linden then
      some st
    else
      let st1 : MgrState :=
        { st with im := (LLIMModel.newSessionP2P env.toViewerEnv st.im new_session_id
            fixed_session_name1 dialog other_participant_id false is_offline_msg).2 }
      match LLIMModel.findIMSession st1.im new_session_id with
      | none => none
      | some session =>
        let skip_message1 := skip_message && !session.isGroupSessionType
        let st2 := if skip_message1 then (LLIMMgr.leaveSession st1 new_session_id).2 else st1
        let st3 : MgrState :=
          if env.isGodlike then
            { st2 with im := (LLIMModel.addMessage env.toViewerEnv st2.im new_session_id from_name
                other_participant_id (env.bonusInfo parent_estate_id) true false false).2 }
          else st2
        if env.isMuted other_participant_id && !from_linden then
          some (LLIMMgr.leaveSession st3 new_session_id).2
        else
          let is_group_chat : Bool :=
            if dialog ≠ IM_NOTHING_SPECIAL then env.isInGroup new_session_id else false
          if decide (dialog ≠ IM_NOTHING_SPECIAL) && !is_group_chat &&
              env.FSIgnoreAdHocSessions && !from_linden then
            let st4 := (LLIMMgr.leaveSession st3 new_session_id).2
            if env.FSReportIgnoredAdHocSession then
              some (st4.emit [Event.reportToNearbyChat (env.getString "IgnoredAdHocSession")])
            else some st4
          else
            let st4 := st3.emit (LLIMMgr.newSessionSound env dialog is_group_chat)
            some (LLIMMgr.addMessageTail env st4 new_session_id from_name other_participant_id
              msg is_offline_msg is_announcement keyword_alert_performed skip_message1)
  else
    let is_group_chat : Bool :=
      if dialog ≠ IM_NOTHING_SPECIAL then env.isInGroup new_session_id else false
    let st1 := st.emit (LLIMMgr.existingSessionSound env session_id dialog is_group_chat)
    some (LLIMMgr.addMessageTail env st1 new_session_id from_name other_participant_id msg
      is_offline_msg is_announcement keyword_alert_performed skip_message)

/-- The operation `LLIMMgr::addSystemMessage`; of its arguments map only the
entry `user_id` is kept, the message text coming from the environment. The
call of `LLIMMgr::addMessage` takes the default arguments of its declaration
(no offline message, no session name, dialog `IM_NOTHING_SPECIAL`, estate 0). -/
def LLIMMgr.addSystemMessage (env : MgrEnv) (st : MgrState) (session_id : LLUUID)
    (message_name : String) (user_id : LLUUID) : Option MgrState :=
  if session_id.isNull then
    some (st.emit [Event.nearbySystemMessage (env.getString message_name)])
  else if LLIMMgr.hasSession st.im session_id then
    LLIMMgr.addMessage env st session_id LLUUID.null env.SYSTEM_FROM
      (env.getString (message_name ++ "-im")) false "" IM_NOTHING_SPECIAL 0 false false
  else
    some (st.emit [Event.logToFile (env.systemLogName user_id) env.SYSTEM_FROM LLUUID.null
      (env.getString (message_name ++ "-im"))])

/-- The operation `LLIMMgr::noteMutedUsers`: one system message in the session
when one of the ids is muted. -/
def LLIMMgr.noteMutedUsers (env : MgrEnv) (st : MgrState) (session_id : LLUUID)
    (ids : List LLUUID) : MgrState :=
  if !env.hasMuteList then st
  else if ids.any env.isMuted then
    { st with im := (LLIMModel.addMessage env.toViewerEnv st.im session_id env.SYSTEM_FROM
        LLUUID.null (env.getString "muted_message") true false false).2 }
  else st

/-- The fan-out `LLIMMgr::notifyObserverSessionActivated`. -/
def LLIMMgr.notifyObserverSessionActivated (st : IMState) (session_id : LLUUID) (name : String)
    (other_participant_id : LLUUID) : IMState :=
  st.emit (st.mSessionObservers.map
    (fun o => Event.sessionActivated o session_id name other_participant_id))

/-- The fan-out `LLIMMgr::notifyObserverSessionVoiceOrIMStarted`. -/
def LLIMMgr.notifyObserverSessionVoiceOrIMStarted (st : IMState) (session_id : LLUUID) :
    IMState :=
  st.emit (st.mSessionObservers.map (fun o => Event.sessionVoiceOrIMStarted o session_id))

/-- The operation `LLIMMgr::addSession` with the target ids and the floater
id: the id of the session and the state after. -/
def LLIMMgr.addSession (env : MgrEnv) (st : MgrState) (name : String) (dialog : EInstantMessage)
    (other_participant_id : LLUUID) (ids : List LLUUID) (voice : Bool) (floater_id : LLUUID) :
    LLUUID × MgrState :=
  if ids.isEmpty then (LLUUID.null, st)
  else if name = "" then (LLUUID.null, st)
  else
    let session_id0 := (LLIMMgr.computeSessionID env.toViewerEnv dialog other_participant_id).1
    let st1 :=
      if floater_id.notNull && env.hasFloater session_id0 then
        st.emit [Event.floaterInitIMSession session_id0]
      else st
    let new_session0 := (LLIMModel.findIMSession st1.im session_id0).isNone
    let ad_hoc_found : Option LLIMSession :=
      if new_session0 && decide (IM_SESSION_CONFERENCE_START = dialog) &&
          decide (ids.length ≠ 0) then
        LLIMModel.findAdHocIMSession env.toViewerEnv st1.im ids
      else none
    let new_session := match ad_hoc_found with
      | some _ => false
      | none => new_session0
    let session_id := match ad_hoc_found with
      | some found => found.mSessionID
      | none => session_id0
    if new_session then
      let st2 : MgrState :=
        { st1 with im := (LLIMModel.newSession env.toViewerEnv st1.im session_id name dialog
            other_participant_id ids voice false).2 }
      let st3 :=
        if dialog = IM_NOTHING_SPECIAL then LLIMMgr.noteMutedUsers env st2 session_id ids
        else st2
      (session_id,
        { st3 with im := LLIMMgr.notifyObserverSessionVoiceOrIMStarted st3.im session_id })
    else
      (session_id,
        { st1 with im := (LLIMMgr.notifyObserverSessionActivated st1.im session_id
            (LLIMModel.getName env.toViewerEnv st1.im session_id) other_participant_id) })

/-- The overload of `LLIMMgr::addSession` without target ids: the other
participant is the only target, and there is no floater id. -/
def LLIMMgr.addSessionTo (env : MgrEnv) (st : MgrState) (name : String)
    (dialog : EInstantMessage) (other_participant_id : LLUUID) (voice : Bool) :
    LLUUID × MgrState :=
  LLIMMgr.addSession env st name dialog other_participant_id [other_participant_id] voice
    LLUUID.null

/-- The operation `LLIMMgr::addP2PSession`: the session handle is set on the
voice channel of the session when that channel is a P2P channel. -/
def LLIMMgr.addP2PSession (env : MgrEnv) (st : MgrState) (name : String)
    (other_participant_id : LLUUID) (voice_session_handle caller_uri : String) :
    LLUUID × MgrState :=
  let r := LLIMMgr.addSessionTo env st name IM_NOTHING_SPECIAL other_participant_id true
  match LLIMModel.findIMSession r.2.im r.1 with
  | none => r
  | some session =>
    if decide (session.mType = IM_NOTHING_SPECIAL) ||
        decide (session.mType = IM_SESSION_P2P_INVITE) then
      (r.1, r.2.emit [Event.setSessionHandle r.1 voice_session_handle caller_uri])
    else r

/-- The operation `LLIMMgr::startCall` with direction incoming: nothing
happens when the session has no voice channel, that is, does not exist. -/
def LLIMMgr.startIncomingCall (st : MgrState) (session_id : LLUUID) : MgrState :=
  if LLIMMgr.hasSession st.im session_id then st.emit [Event.startIncomingCall session_id]
  else st

/-- The test `LLIMMgr::checkSnoozeExpiration`. -/
def LLIMMgr.checkSnoozeExpiration (env : MgrEnv) (st : MgrState) (session_id : LLUUID) : Bool :=
  match IdMap.find st.mSnoozedSessions session_id with
  | none => false
  | some snoozed => decide (snoozed + env.GroupSnoozeTime < env.totalSeconds)

/-- The test `LLIMMgr::isSnoozedSession`. -/
def LLIMMgr.isSnoozedSession (st : MgrState) (session_id : LLUUID) : Bool :=
  (IdMap.find st.mSnoozedSessions session_id).isSome

/-- The operation `LLIMMgr::restoreSnoozedSession`. -/
def LLIMMgr.restoreSnoozedSession (env : MgrEnv) (st : MgrState) (session_id : LLUUID) :
    Bool × MgrState :=
  match IdMap.find st.mSnoozedSessions session_id with
  | none => (false, st)
  | some _ =>
    let st1 : MgrState :=
      { st with mSnoozedSessions := IdMap.erase st.mSnoozedSessions session_id }
    match env.getGroupData session_id with
    | none => (false, st1)
    | some group_name =>
      let st2 := (LLIMMgr.addSessionTo env st1 group_name IM_SESSION_INVITE session_id false).2
      let st3 := st2.emit
        (LLIMModel.sendStartSession env.toViewerEnv session_id session_id []
          IM_SESSION_GROUP_START).2
      if !env.isDoNotDisturb && decide (env.PlayModeUISndNewIncomingGroupIMSession ≠ 0) then
        (true, st3.emit [Event.uiSound "UISndNewIncomingGroupIMSession"])
      else (true, st3)

/-- The payload of an invitation, as `inviteToSession` builds it and
`processCallResponse` reads it (an LLSD map in the source, its keys as fields). -/
structure InvitePayload where
  session_id : LLUUID
  session_name : String
  caller_id : LLUUID
  caller_name : String
  type : EInstantMessage
  inv_type : EInvitationType
  session_handle : String
  session_uri : String
  notify_box_type : String
  question_type : String
deriving DecidableEq

/-- The suffix of the name of an ad-hoc session. -/
def ADHOC_NAME_SUFFIX : String := " Conference"

/-- The session name `processCallResponse` uses on accept of a group or ad-hoc
invitation: an empty name is repaired from the group data or from the cached
name of the caller, when that is possible. -/
def LLIncomingCallDialog.correctSessionName (env : MgrEnv) (payload : InvitePayload) : String :=
  if payload.session_name = "" then
    if payload.type = IM_SESSION_CONFERENCE_START ∨ payload.type = IM_SESSION_GROUP_START ∨
        payload.type = IM_SESSION_INVITE then
      if env.isInGroup payload.session_id then
        match env.getGroupData payload.session_id with
        | none => payload.session_name
        | some group_name => group_name
      else
        match env.avatarCompleteName payload.caller_id with
        | some complete_name => complete_name ++ ADHOC_NAME_SUFFIX
        | none => payload.session_name
    else payload.session_name
  else payload.session_name

/-- The accept part of `processCallResponse` (case 0, entered directly or from
case 2): the value of `session_id` at its end and the state after. For a group
or ad-hoc invitation the capability is read from `gAgent.getRegion()` without
a test, after the session was added: none when the agent has no region. -/
def LLIncomingCallDialog.acceptPart (env : MgrEnv) (st : MgrState) (voice : Bool)
    (payload : InvitePayload) : Option (LLUUID × MgrState) :=
  if payload.type = IM_SESSION_P2P_INVITE then
    let r := LLIMMgr.addP2PSession env st payload.session_name payload.caller_id
      payload.session_handle payload.session_uri
    let st1 :=
      if voice then LLIMMgr.startIncomingCall r.2 r.1
      else r.2.emit [Event.startIM payload.caller_id]
    let st2 := LLIMMgr.clearPendingAgentListUpdates st1 r.1
    some (r.1, LLIMMgr.clearPendingInvitation st2 r.1)
  else
    let correct_session_name := LLIncomingCallDialog.correctSessionName env payload
    let st1 := (LLIMMgr.addSessionTo env st correct_session_name payload.type
      payload.session_id true).2
    if env.hasRegion then
      if voice then
        let st2 := st1.emit [Event.acceptInvitationRequest payload.session_id]
        if payload.notify_box_type = "VoiceInviteGroup" ∨
            payload.notify_box_type = "VoiceInviteAdHoc" then
          some (payload.session_id,
            { st2 with im := (LLIMModel.addMessageSilently env.toViewerEnv st2.im
                payload.session_id env.SYSTEM_FROM LLUUID.null
                (env.getString "name_started_call") true false).2 })
        else some (payload.session_id, st2)
      else some (payload.session_id, st1)
    else none

/-- The decline part of `processCallResponse` (case 1, entered directly or from
case 0 without voice) with the clearing of the two buffers that ends it. For a
group or ad-hoc invitation the capability is read from `gAgent.getRegion()`
without a test: none when the agent has no region. -/
def LLIncomingCallDialog.declinePart (env : MgrEnv) (st : MgrState) (session_id : LLUUID)
    (payload : InvitePayload) : Option MgrState :=
  let declined : Option MgrState :=
    if payload.type = IM_SESSION_P2P_INVITE then
      (if env.hasVoiceClient then
        some (st.emit [Event.declineVoiceInvite payload.session_handle])
       else some st)
    else if env.hasRegion then some (st.emit [Event.declineInvitationRequest session_id])
    else none
  declined.map (fun st1 =>
    LLIMMgr.clearPendingInvitation (LLIMMgr.clearPendingAgentListUpdates st1 session_id)
      session_id)

/-- The operation `LLIncomingCallDialog::processCallResponse`: response 0 is
accept, 1 is decline, 2 is accept without voice. The manager exists; none when
the region of the agent is read where the agent has none. -/
def LLIncomingCallDialog.processCallResponse (env : MgrEnv) (st : MgrState) (response : Int)
    (payload : InvitePayload) : Option MgrState :=
  if env.gDisconnected then some st
  else if response = 2 ∨ response = 0 then
    let voice : Bool := decide (response ≠ 2)
    match LLIncomingCallDialog.acceptPart env st voice payload with
    | none => none
    | some r =>
      if voice then some r.2
      else LLIncomingCallDialog.declinePart env r.2 r.1 payload
  else if response = 1 then
    LLIncomingCallDialog.declinePart env st payload.session_id payload
  else some st

/-- The classification at the head of `inviteToSession`: the notification box
type, the question type, and whether the invitation is a voice invitation. -/
def LLIMMgr.classifyInvite (env : MgrEnv) (session_id : LLUUID) (type : EInstantMessage)
    (inv_type : EInvitationType) : String × String × Bool :=
  if type = IM_SESSION_P2P_INVITE then
    ("VoiceInviteP2P", "VoiceInviteQuestionDefault", true)
  else if env.isInGroup session_id then
    ("VoiceInviteGroup", "VoiceInviteQuestionGroup", true)
  else if inv_type = EInvitationType.INVITATION_TYPE_VOICE then
    ("VoiceInviteAdHoc", "VoiceInviteQuestionDefault", true)
  else if inv_type = EInvitationType.INVITATION_TYPE_IMMEDIATE then
    ("InviteAdHoc", "VoiceInviteQuestionDefault", false)
  else ("", "VoiceInviteQuestionDefault", false)

/-- Whether one of the reject policies other than do-not-disturb applies to a
voice invitation: reject group calls, friends only, reject ad-hoc calls,
reject P2P calls. -/
def LLIMMgr.otherRejectPolicy (env : MgrEnv) (caller_id : LLUUID) (notify_box_type : String) :
    Bool :=
  (env.VoiceCallsRejectGroup && decide (notify_box_type = "VoiceInviteGroup")) ||
    (env.VoiceCallsFriendsOnly && !env.isBuddy caller_id) ||
    (env.VoiceCallsRejectAdHoc && decide (notify_box_type = "VoiceInviteAdHoc")) ||
    (env.VoiceCallsRejectP2P && decide (notify_box_type = "VoiceInviteP2P"))

/-- The operation `LLIMMgr::inviteToSession`; none when the system message of
the do-not-disturb path fails in `LLIMMgr::addMessage`, or when
`processCallResponse` reads the region of an agent that has none. -/
def LLIMMgr.inviteToSession (env : MgrEnv) (st : MgrState) (session_id : LLUUID)
    (session_name : String) (caller_id : LLUUID) (caller_name : String)
    (type : EInstantMessage) (inv_type : EInvitationType)
    (session_handle session_uri : String) : Option MgrState :=
  let c := LLIMMgr.classifyInvite env session_id type inv_type
  let notify_box_type := c.1
  let question_type := c.2.1
  let voice_invite := c.2.2
  let is_linden := env.isLinden caller_name
  let payload : InvitePayload :=
    { session_id := session_id, session_name := session_name, caller_id := caller_id,
      caller_name := caller_name, type := type, inv_type := inv_type,
      session_handle := session_handle, session_uri := session_uri,
      notify_box_type := notify_box_type, question_type := question_type }
  if env.isMuted caller_id && !is_linden then
    if voice_invite && decide ("VoiceInviteQuestionDefault" = question_type) then
      LLIncomingCallDialog.processCallResponse env st 1 payload
    else some st
  else if env.callStarted session_id then
    LLIncomingCallDialog.processCallResponse env st 0 payload
  else if voice_invite &&
      (LLIMMgr.otherRejectPolicy env caller_id notify_box_type || env.isDoNotDisturb) then
    if env.isDoNotDisturb && !LLIMMgr.otherRejectPolicy env caller_id notify_box_type then
      match LLIMMgr.addSystemMessage env st session_id "you_auto_rejected_call" LLUUID.null with
      | none => none
      | some st1 =>
        LLIncomingCallDialog.processCallResponse env
          (st1.emit [Event.doNotDisturbMessage caller_id session_id]) 1 payload
    else LLIncomingCallDialog.processCallResponse env st 1 payload
  else if (IdMap.find st.mPendingInvitations session_id).isNone then
    let st1 :=
      if caller_name = "" then st.emit [Event.inviteNameLookup session_id caller_id]
      else st.emit [Event.showIncomingCall session_id caller_id notify_box_type]
    let st2 :=
      if type = IM_SESSION_P2P_INVITE then st1.emit [Event.recentPeopleAdd caller_id] else st1
    some { st2 with mPendingInvitations := IdMap.set st2.mPendingInvitations session_id LLSD.undef }
  else some st

/-- Whether a call is one of the two invitation requests sent to the server. -/
def Event.isInvitationRequest : Event → Bool
  | .acceptInvitationRequest _ => true
  | .declineInvitationRequest _ => true
  | _ => false

/-- The invitation requests sent to the server so far, oldest first. -/
def IMState.requests (st : IMState) : List Event :=
  st.events.filter Event.isInvitationRequest

/-- Modelled from the spec: the lookup of a key among the entries of an LLSD
map (llsd.h is not among the sources); a key occurs once in a map. -/
def LLSD.findEntry : List (String × LLSD) → String → Option LLSD
  | [], _ => none
  | (k, v) :: rest, key => if k = key then some v else LLSD.findEntry rest key

/-- Modelled from the spec: the assignment to a key among the entries of an
LLSD map: the value of an existing key is replaced, a new key is added. The
entries are held in the order in which their keys were first assigned; only
lookups by key are made on them. -/
def LLSD.setEntry : List (String × LLSD) → String → LLSD → List (String × LLSD)
  | [], key, value => [(key, value)]
  | (k, v) :: rest, key, value =>
    if k = key then (k, value) :: rest else (k, v) :: LLSD.setEntry rest key value

/-- Modelled from the spec: the entries of an LLSD value; a value that is not a
map has none. -/
def LLSD.entries : LLSD → List (String × LLSD)
  | .map es => es
  | _ => []

/-- Modelled from the spec: the test `LLSD::isMap`. -/
def LLSD.isMap : LLSD → Bool
  | .map _ => true
  | _ => false

/-- Modelled from the spec: the value stored under a key of an LLSD value, if
there is one. -/
def LLSD.lookup (d : LLSD) (key : String) : Option LLSD :=
  LLSD.findEntry d.entries key

/-- Modelled from the spec: the test `LLSD::has`. -/
def LLSD.has (d : LLSD) (key : String) : Bool :=
  (d.lookup key).isSome

/-- Modelled from the spec: the read `d[key]` of a constant LLSD value: the
undefined value when the key is absent or the value is not a map. -/
def LLSD.get (d : LLSD) (key : String) : LLSD :=
  (d.lookup key).getD LLSD.undef

/-- Modelled from the spec: the assignment `d[key] = value`; a value that is
not a map becomes a map by it. -/
def LLSD.insert (d : LLSD) (key : String) (value : LLSD) : LLSD :=
  LLSD.map (LLSD.setEntry d.entries key value)

/-- The inner loop of `LLIMMgr::addPendingAgentListUpdates` for one update
type: for each entry of the payload map, in its order, the assignment
`mPendingAgentListUpdates[session][type][agent] = value`, run on the value
buffered for the session. -/
def LLIMMgr.mergeAgentUpdates (buffered : LLSD) (type : String) (es : List (String × LLSD)) :
    LLSD :=
  es.foldl (fun acc e => acc.insert type ((acc.get type).insert e.1 e.2)) buffered

/-- The operation `LLIMMgr::addPendingAgentListUpdates`. -/
def LLIMMgr.addPendingAgentListUpdates (st : MgrState) (session_id : LLUUID) (updates : LLSD) :
    MgrState :=
  let buffered : LLSD :=
    match IdMap.find st.mPendingAgentListUpdates session_id with
    | none => LLSD.map []
    | some b => b
  let merged : LLSD :=
    if updates.has "agent_updates" && (updates.get "agent_updates").isMap &&
        updates.has "updates" && (updates.get "updates").isMap then
      LLIMMgr.mergeAgentUpdates
        (LLIMMgr.mergeAgentUpdates buffered "agent_updates" (updates.get "agent_updates").entries)
        "updates" (updates.get "updates").entries
    else if updates.has "updates" && (updates.get "updates").isMap then
      LLIMMgr.mergeAgentUpdates buffered "updates" (updates.get "updates").entries
    else buffered
  { st with mPendingAgentListUpdates :=
      IdMap.set st.mPendingAgentListUpdates session_id merged }

/-- The operation `LLIMMgr::getPendingAgentListUpdates`. -/
def LLIMMgr.getPendingAgentListUpdates (st : MgrState) (session_id : LLUUID) : LLSD :=
  match IdMap.find st.mPendingAgentListUpdates session_id with
  | some b => b
  | none => LLSD.undef

/-- The operations on the manager state that the model runs in sequences: the
registry operations, `LLIMMgr::removeSession` and `LLIMMgr::leaveSession`. -/
inductive MgrOp where
  | registry (op : RegistryOp)
  | removeSession (session_id : LLUUID)
  | leaveSession (session_id : LLUUID)
deriving DecidableEq

/-- The state after one operation run in the given environment; none when the
operation fails an assertion. -/
def MgrOp.apply (env : MgrEnv) (st : MgrState) : MgrOp → Option MgrState
  | .registry op => some { st with im := op.apply env.toViewerEnv st.im }
  | .removeSession session_id => LLIMMgr.removeSession st session_id
  | .leaveSession session_id => some (LLIMMgr.leaveSession st session_id).2

/-- The state after a run of operations, each in the environment of its time;
none when one of them fails an assertion. -/
def MgrOp.run (st : MgrState) : List (MgrEnv × MgrOp) → Option MgrState
  | [] => some st
  | (env, op) :: rest =>
    match op.apply env st with
    | none => none
    | some st1 => MgrOp.run st1 rest

/-- The registry invariant: the entries of the id-to-session map are in
strictly increasing key order (so no key occurs twice), and the session id
field of every stored record is the key it is stored under. -/
def RegistryInv (st : IMState) : Prop :=
  st.mId2SessionMap.Pairwise (fun a b => a.1.val < b.1.val) ∧
    ∀ e ∈ st.mId2SessionMap, e.2.mSessionID = e.1

/-- The counter condition of a record: the participant counter lies between
0 and the unread counter. -/
def LLIMSession.CountersOk (s : LLIMSession) : Prop :=
  0 ≤ s.mParticipantUnreadMessageCount ∧ s.mParticipantUnreadMessageCount ≤ s.mNumUnread

/-! ### Concrete inputs used by the witnesses -/

/-- An environment for the concrete scenarios: agent 1000, member of group
7000 only, every participant an avatar, no stored history, no floater. -/
def exampleEnv : ViewerEnv :=
  { gAgentID := LLUUID.ofNat 1000
    isInGroup := fun g => decide (g = LLUUID.ofNat 7000)
    generatedID := LLUUID.ofNat 4242
    isParticipantAvatar := fun _ => true
    isSessionCallBackPossible := fun _ => true
    isSessionTextIMPossible := fun _ => true
    hasRegion := true
    LogShowHistory := false
    loadChatHistory := fun _ => []
    historyFileName := fun name _ _ _ _ _ => name
    timestamp := "12:00"
    now := 100
    FSShowIMInChatHistory := false
    hasFloater := fun _ => false
    SYSTEM_FROM := "Second Life"
    INTERACTIVE_SYSTEM_FROM := "F387446C-37C4-45f2-A438-D99CBDBB563B"
    no_session_message := "(IM Session Does Not Exist)" }

/-- The state with no session and a single observer, number 1. -/
def emptyState : IMState :=
  { mId2SessionMap := [], mSessionObservers := [1], events := [] }

/-- The id of the participant Alice in the scenarios. -/
def aliceId : LLUUID := LLUUID.ofNat 2000

/-- The id of the P2P session with Alice. -/
def idX : LLUUID := (LLIMMgr.computeSessionID exampleEnv IM_NOTHING_SPECIAL aliceId).1

/-- The state after the P2P session with Alice has been created. -/
def aliceState : IMState :=
  (LLIMModel.newSession exampleEnv emptyState idX "Alice" IM_NOTHING_SPECIAL aliceId [aliceId]
    false false).2

/-- One message "hi", logged to file, no announcement. -/
def hiCall : MessageCall :=
  { env := exampleEnv, utf8_text := "hi", log2file := true, is_announcement := false,
    keyword_alert_performed := false }

/-- The id of the conference session of the scenarios. -/
def confId : LLUUID := LLUUID.ofNat 9000

/-- The record of an outgoing conference with the given initial targets. -/
def conferenceRecord (targets : List LLUUID) : LLIMSession :=
  (LLIMSession.create exampleEnv confId "Conference" IM_SESSION_CONFERENCE_START
    (LLUUID.ofNat 1) targets false false).1

/-- The state after an outgoing conference with the given initial targets has
been created in the empty state. -/
def conferenceState (targets : List LLUUID) : IMState :=
  (LLIMModel.newSession exampleEnv emptyState confId "Conference" IM_SESSION_CONFERENCE_START
    (LLUUID.ofNat 1) targets false false).2

/-- The conference of targets 1, 2, 3 after one message from Alice. -/
def conferenceWithMessage : IMState :=
  (LLIMModel.addMessage exampleEnv
    (conferenceState [LLUUID.ofNat 1, LLUUID.ofNat 2, LLUUID.ofNat 3]) confId "Alice" aliceId
    "hi" true false false).2

/-- The record of that conference after the message. -/
def conferenceWithMessageRecord : LLIMSession :=
  (LLIMModel.findIMSession conferenceWithMessage confId).getD (conferenceRecord [])

/-- The state after a group start session has been created under the null id
in the empty state. -/
def nullGroupState : IMState :=
  (LLIMModel.newSession exampleEnv emptyState LLUUID.null "Everyone" IM_SESSION_GROUP_START
    LLUUID.null [LLUUID.null] false false).2

/-- The manager environment of the scenarios: nobody muted, nobody a friend,
every filter and sound off, connected, group 7000 named "Group". -/
def exampleMgrEnv : MgrEnv :=
  { toViewerEnv := exampleEnv
    isLinden := fun _ => false
    isMuted := fun _ => false
    isMutedTextChat := fun _ => false
    hasMuteList := true
    isGroupMuted := fun _ => false
    isBuddy := fun _ => false
    isDoNotDisturb := false
    isGodlike := false
    gDisconnected := false
    hasVoiceClient := true
    getGroupData := fun g => if g = LLUUID.ofNat 7000 then some "Group" else none
    avatarDisplayName := fun _ => none
    avatarCompleteName := fun _ => none
    callStarted := fun _ => false
    floaterWithoutFocus := fun _ => false
    VoiceCallsFriendsOnly := false
    VoiceCallsRejectGroup := false
    VoiceCallsRejectAdHoc := false
    VoiceCallsRejectP2P := false
    FSReportMutedGroupChat := false
    FSIgnoreAdHocSessions := false
    FSReportIgnoredAdHocSession := false
    FSOpenIMContainerOnOfflineMessage := false
    PlayModeUISndNewIncomingIMSession := 0
    PlayModeUISndNewIncomingGroupIMSession := 0
    PlayModeUISndNewIncomingConfIMSession := 0
    GroupSnoozeTime := 900
    totalSeconds := 100
    getString := fun name => name
    bonusInfo := fun _ => "***"
    systemLogName := fun _ => "system" }

/-- The same environment at a later time: both clocks read 5000 seconds. -/
def laterMgrEnv : MgrEnv :=
  { exampleMgrEnv with
    toViewerEnv := { exampleEnv with now := 5000 }
    totalSeconds := 5000 }

/-- The manager state around a registry state: nothing snoozed, nothing
pending. -/
def MgrState.ofIM (im : IMState) : MgrState :=
  { im := im, mSnoozedSessions := [], mPendingInvitations := [], mPendingAgentListUpdates := [] }

/-- The id of the group of the scenarios, of which the agent is a member. -/
def groupId : LLUUID := LLUUID.ofNat 7000

/-- The record of the chat session of the group, as constructed at time 100. -/
def groupRecord : LLIMSession :=
  (LLIMSession.create exampleEnv groupId "Group" IM_SESSION_INVITE groupId [groupId]
    false false).1

/-- The state after the group session has been created in the empty state. -/
def groupState : MgrState :=
  MgrState.ofIM
    (LLIMModel.newSession exampleEnv emptyState groupId "Group" IM_SESSION_INVITE groupId
      [groupId] false false).2

/-- The group session configured to be snoozed when closed. -/
def snoozeGroupState : MgrState :=
  MgrState.ofIM
    { groupState.im with
      mId2SessionMap := [(groupId, { groupRecord with mCloseAction := SCloseAction.CLOSE_SNOOZE })] }

/-- The id of the participant Mallory of the scenarios. -/
def malloryId : LLUUID := LLUUID.ofNat 3000

/-- The environment in which Mallory is muted for text chat. -/
def mutedMgrEnv : MgrEnv :=
  { exampleMgrEnv with isMutedTextChat := fun u => decide (u = malloryId) }

/-- The environment in which the restrict-to-friends filter is on (nobody is a
friend of the agent). -/
def friendsOnlyMgrEnv : MgrEnv :=
  { exampleMgrEnv with VoiceCallsFriendsOnly := true }

/-- The length of the message buffer of a session in an optional state. -/
def bufferLength (st : Option MgrState) (session_id : LLUUID) : Option (Option Nat) :=
  st.map (fun st1 => (LLIMModel.findIMSession st1.im session_id).map (fun s => s.mMsgs.length))

/-- The state after the snoozing group session has been left: the snooze
table holds time 100 for the group and the session is gone. -/
def snoozedState : MgrState := (LLIMMgr.leaveSession snoozeGroupState groupId).2

/-- The later environment in which the group data can no longer be resolved. -/
def noGroupDataMgrEnv : MgrEnv :=
  { laterMgrEnv with getGroupData := fun _ => none }

/-- The id of the ad-hoc session of the invitation scenarios (no group of the
agent). -/
def invId : LLUUID := LLUUID.ofNat 8000

/-- A voice invitation by Alice to the ad-hoc session. -/
def adHocInvite : InvitePayload :=
  { session_id := invId, session_name := "Alice Conference", caller_id := aliceId,
    caller_name := "Alice", type := IM_SESSION_INVITE,
    inv_type := EInvitationType.INVITATION_TYPE_VOICE, session_handle := "",
    session_uri := "", notify_box_type := "VoiceInviteAdHoc",
    question_type := "VoiceInviteQuestionDefault" }

/-- A P2P voice invitation by Alice that carries the same session id. -/
def p2pInvite : InvitePayload :=
  { adHocInvite with
    session_name := "Alice", type := IM_SESSION_P2P_INVITE, session_handle := "handle",
    notify_box_type := "VoiceInviteP2P" }

/-- The state with no session, in which an invitation and agent list updates
are buffered for the ad-hoc session. -/
def pendingState : MgrState :=
  { im := emptyState, mSnoozedSessions := [], mPendingInvitations := [(invId, LLSD.undef)],
    mPendingAgentListUpdates := [(invId, LLSD.map [])] }

/-- The ad-hoc voice invitation with an empty session name, as the code
expects a server may send it. -/
def unnamedInvite : InvitePayload :=
  { adHocInvite with session_name := "" }

/-- The environment in which do-not-disturb is on and no other reject policy
is set. -/
def dndMgrEnv : MgrEnv :=
  { exampleMgrEnv with isDoNotDisturb := true }

/-- The environment in which do-not-disturb is on and P2P calls are rejected. -/
def dndRejectP2PMgrEnv : MgrEnv :=
  { exampleMgrEnv with isDoNotDisturb := true, VoiceCallsRejectP2P := true }

/-- The example environment with an agent that has no region. -/
def noRegionMgrEnv : MgrEnv :=
  { exampleMgrEnv with hasRegion := false }

/-- The environment in which do-not-disturb is on and the agent has no
region. -/
def dndNoRegionMgrEnv : MgrEnv :=
  { exampleMgrEnv with isDoNotDisturb := true, hasRegion := false }

/-- The id the server assigns to the conference in the lifecycle scenario. -/
def serverConfId : LLUUID := LLUUID.ofNat 9500

/-- A run over the whole lifecycle: a conference and a P2P session are
created, the reply of the server rekeys the conference, a message arrives in
it, and the P2P session is left. -/
def lifecycleOps : List (MgrEnv × MgrOp) :=
  [(exampleMgrEnv, MgrOp.registry (RegistryOp.newSession confId "Conference"
      IM_SESSION_CONFERENCE_START (LLUUID.ofNat 1) [aliceId] false false)),
    (exampleMgrEnv, MgrOp.registry (RegistryOp.newSession idX "Alice" IM_NOTHING_SPECIAL aliceId
      [aliceId] false false)),
    (exampleMgrEnv, MgrOp.registry (RegistryOp.processSessionInitializedReply confId
      serverConfId)),
    (exampleMgrEnv, MgrOp.registry (RegistryOp.addMessage serverConfId "Alice" aliceId "hi" true
      false false)),
    (exampleMgrEnv, MgrOp.leaveSession idX)]

/-- The run that creates the P2P session with Alice and appends `n` messages
from Alice to it. -/
def counterWrapOps (n : Nat) : List (MgrEnv × MgrOp) :=
  (exampleMgrEnv, MgrOp.registry (RegistryOp.newSession idX "Alice" IM_NOTHING_SPECIAL aliceId
      [aliceId] false false)) ::
    List.replicate n (exampleMgrEnv, MgrOp.registry (RegistryOp.addMessage idX "Alice" aliceId
      "hi" true false false))

/-- A run over the counters: the P2P session with Alice is created, two
messages from her arrive, all messages are marked read, and the agent sends a
message of its own. -/
def counterOps : List (MgrEnv × MgrOp) :=
  [(exampleMgrEnv, MgrOp.registry (RegistryOp.newSession idX "Alice" IM_NOTHING_SPECIAL aliceId
      [aliceId] false false)),
    (exampleMgrEnv, MgrOp.registry (RegistryOp.addMessage idX "Alice" aliceId "hi" true false
      false)),
    (exampleMgrEnv, MgrOp.registry (RegistryOp.addMessage idX "Alice" aliceId "there" true false
      false)),
    (exampleMgrEnv, MgrOp.registry (RegistryOp.sendNoUnreadMessages idX)),
    (exampleMgrEnv, MgrOp.registry (RegistryOp.addMessage idX "Me" exampleEnv.gAgentID "hello"
      true false false))]

/-- The state with two sessions: the outgoing conference with Alice, waiting
for its reply, and the P2P session with Alice. -/
def twoSessionsState : IMState :=
  (LLIMModel.newSession exampleEnv (conferenceState [aliceId]) idX "Alice" IM_NOTHING_SPECIAL
    aliceId [aliceId] false false).2

/-- An old-style roster payload: the agents a and b enter. -/
def rosterEnter : LLSD :=
  LLSD.map [("updates", LLSD.map [("a", LLSD.string "ENTER"), ("b", LLSD.string "ENTER")])]

/-- An old-style roster payload: the agent b leaves and the agent c enters. -/
def rosterLeave : LLSD :=
  LLSD.map [("updates", LLSD.map [("b", LLSD.string "LEAVE"), ("c", LLSD.string "ENTER")])]

/-- A text of 1023 bytes: 511 letters a, a space, 511 letters a. -/
def longText : List Nat := List.replicate 511 97 ++ 32 :: List.replicate 511 97

/-- A text of 1201 bytes: 600 letters a, a space, 600 letters a. -/
def spaceText : List Nat := List.replicate 600 97 ++ 32 :: List.replicate 600 97

/-- A text of 1500 bytes without a space: 1500 letters a. -/
def plainText : List Nat := List.replicate 1500 97

/-- A text of 2^32 bytes: 2^32 letters a. -/
def hugeText : List Nat := List.replicate 4294967296 97

/-- A text of 2^32 - 1 bytes: a space at every even index and a letter a at
every odd one. -/
def wrapText : List Nat :=
  (List.range 4294967295).map (fun i => if i % 2 = 0 then 32 else 97)

/-! ## Theorems -/

/-! ### 32-bit integers -/

theorem toS32_of_range (z : Int) (h1 : -2 ^ 31 ≤ z) (h2 : z < 2 ^ 31) : toS32 z = z := by
  unfold toS32
  rw [Int.emod_eq_of_lt (by omega) (by omega)]
  omega

theorem toS32_range (z : Int) : -2 ^ 31 ≤ toS32 z ∧ toS32 z < 2 ^ 31 := by
  unfold toS32
  have h1 := Int.emod_nonneg (z + 2 ^ 31) (show (2 : Int) ^ 32 ≠ 0 by norm_num)
  have h2 := Int.emod_lt_of_pos (z + 2 ^ 31) (show (0 : Int) < 2 ^ 32 by norm_num)
  constructor <;> omega

theorem toS32_add (x y : Int) : toS32 (toS32 x + y) = toS32 (x + y) := by
  unfold toS32
  have e : (x + 2 ^ 31) % 2 ^ 32 - 2 ^ 31 + y + 2 ^ 31 = (x + 2 ^ 31) % 2 ^ 32 + y := by ring
  rw [e, Int.emod_add_emod]
  have e2 : x + 2 ^ 31 + y = x + y + 2 ^ 31 := by ring
  rw [e2]

/-! ### The map -/

theorem IdMap.find_set_self {α : Type} (m : IdMap α) (k : LLUUID) (v : α) :
    IdMap.find (IdMap.set m k v) k = some v := by
  induction m with
  | nil => simp [IdMap.set, IdMap.find]
  | cons e rest ih =>
    obtain ⟨k0, v0⟩ := e
    simp only [IdMap.set]
    split_ifs with h1 h2
    · simp [IdMap.find]
    · simp [IdMap.find]
    · have : k0 ≠ k := fun h => h2 h.symm
      simp [IdMap.find, this, ih]

theorem IdMap.find_set_ne {α : Type} (m : IdMap α) (k j : LLUUID) (v : α) (h : j ≠ k) :
    IdMap.find (IdMap.set m k v) j = IdMap.find m j := by
  induction m with
  | nil => simp [IdMap.set, IdMap.find, Ne.symm h]
  | cons e rest ih =>
    obtain ⟨k0, v0⟩ := e
    simp only [IdMap.set]
    split_ifs with h1 h2
    · simp [IdMap.find, Ne.symm h]
    · subst h2
      simp [IdMap.find, Ne.symm h]
    · by_cases hj : k0 = j
      · simp [IdMap.find, hj]
      · simp [IdMap.find, hj, ih]

theorem IdMap.find_erase_self {α : Type} (m : IdMap α) (k : LLUUID) :
    IdMap.find (IdMap.erase m k) k = none := by
  induction m with
  | nil => simp [IdMap.erase, IdMap.find]
  | cons e rest ih =>
    obtain ⟨k0, v0⟩ := e
    simp only [IdMap.erase]
    split_ifs with h1
    · exact ih
    · simp [IdMap.find, h1, ih]

theorem IdMap.find_erase_ne {α : Type} (m : IdMap α) (k j : LLUUID) (h : j ≠ k) :
    IdMap.find (IdMap.erase m k) j = IdMap.find m j := by
  induction m with
  | nil => simp [IdMap.erase, IdMap.find]
  | cons e rest ih =>
    obtain ⟨k0, v0⟩ := e
    simp only [IdMap.erase]
    split_ifs with h1
    · subst h1
      simp [IdMap.find, Ne.symm h, ih]
    · by_cases hj : k0 = j
      · simp [IdMap.find, hj]
      · simp [IdMap.find, hj, ih]

/-! ### Session identity -/

theorem LLUUID.xor_comm (a b : LLUUID) : a.xor b = b.xor a := by
  simp [LLUUID.xor, Nat.xor_comm]

/-- C1: for every dialog kind other than conference start, `computeSessionID`
returns the other participant id for group start and for invite, and otherwise
the agent id when the other participant is the agent and the exclusive or of
the two ids when it is not; the id is the same in every environment with the
same agent id, whatever the group membership or the rest of the state. -/
theorem computeSessionID_pure (env : ViewerEnv) (dialog : EInstantMessage) (other : LLUUID)
    (hkind : dialog ≠ IM_SESSION_CONFERENCE_START) :
    (LLIMMgr.computeSessionID env dialog other).1 =
        (if dialog = IM_SESSION_GROUP_START ∨ dialog = IM_SESSION_INVITE then other
         else if other = env.gAgentID then env.gAgentID
         else other.xor env.gAgentID) ∧
      ∀ env2 : ViewerEnv, env2.gAgentID = env.gAgentID →
        (LLIMMgr.computeSessionID env2 dialog other).1 =
          (LLIMMgr.computeSessionID env dialog other).1 := by
  constructor
  · simp only [LLIMMgr.computeSessionID]
    split_ifs <;> simp_all
  · intro env2 h2
    simp only [LLIMMgr.computeSessionID, h2]
    split_ifs <;> simp_all

theorem computeSessionID_pure_witness :
    IM_NOTHING_SPECIAL ≠ IM_SESSION_CONFERENCE_START ∧
      (LLIMMgr.computeSessionID exampleEnv IM_NOTHING_SPECIAL aliceId).1 =
        aliceId.xor exampleEnv.gAgentID ∧
      (LLIMMgr.computeSessionID exampleEnv IM_NOTHING_SPECIAL exampleEnv.gAgentID).1 =
        exampleEnv.gAgentID ∧
      (LLIMMgr.computeSessionID exampleEnv IM_SESSION_INVITE aliceId).1 = aliceId :=
  ⟨by decide,
   by
    have h := (computeSessionID_pure exampleEnv IM_NOTHING_SPECIAL aliceId (by decide)).1
    rw [h]; decide,
   by
    have h := (computeSessionID_pure exampleEnv IM_NOTHING_SPECIAL exampleEnv.gAgentID
      (by decide)).1
    rw [h]; decide,
   by
    have h := (computeSessionID_pure exampleEnv IM_SESSION_INVITE aliceId (by decide)).1
    rw [h]; decide⟩

/-- C2: for every P2P dialog kind (not group start, conference start or invite)
and all ids A and B with A different from B, the session id computed with other
participant A by agent B equals the one computed with other participant B by
agent A. -/
theorem computeSessionID_p2p_symm (envA envB : ViewerEnv) (dialog : EInstantMessage)
    (A B : LLUUID)
    (hgroup : dialog ≠ IM_SESSION_GROUP_START)
    (hconf : dialog ≠ IM_SESSION_CONFERENCE_START)
    (hinvite : dialog ≠ IM_SESSION_INVITE)
    (hA : envA.gAgentID = A) (hB : envB.gAgentID = B) (hAB : A ≠ B) :
    (LLIMMgr.computeSessionID envB dialog A).1 = (LLIMMgr.computeSessionID envA dialog B).1 := by
  simp only [LLIMMgr.computeSessionID, hA, hB, if_neg hgroup, if_neg hconf, if_neg hinvite,
    if_neg hAB, if_neg (Ne.symm hAB)]
  exact LLUUID.xor_comm A B

theorem computeSessionID_p2p_symm_witness :
    (LLIMMgr.computeSessionID { exampleEnv with gAgentID := LLUUID.ofNat 6 }
        IM_NOTHING_SPECIAL (LLUUID.ofNat 3)).1 =
      (LLIMMgr.computeSessionID { exampleEnv with gAgentID := LLUUID.ofNat 3 }
        IM_NOTHING_SPECIAL (LLUUID.ofNat 6)).1 ∧
    (LLIMMgr.computeSessionID { exampleEnv with gAgentID := LLUUID.ofNat 6 }
        IM_NOTHING_SPECIAL (LLUUID.ofNat 3)).1 = LLUUID.ofNat 5 :=
  ⟨computeSessionID_p2p_symm { exampleEnv with gAgentID := LLUUID.ofNat 3 }
      { exampleEnv with gAgentID := LLUUID.ofNat 6 } IM_NOTHING_SPECIAL
      (LLUUID.ofNat 3) (LLUUID.ofNat 6) (by decide) (by decide) (by decide) rfl rfl (by decide),
   by decide⟩

/-! ### The registry -/

@[simp]
theorem IMState.emit_map (st : IMState) (es : List Event) :
    (st.emit es).mId2SessionMap = st.mId2SessionMap := rfl

@[simp]
theorem IMState.emit_observers (st : IMState) (es : List Event) :
    (st.emit es).mSessionObservers = st.mSessionObservers := rfl

@[simp]
theorem IMState.emit_events (st : IMState) (es : List Event) :
    (st.emit es).events = st.events ++ es := rfl

@[simp]
theorem LLIMModel.findIMSession_emit (st : IMState) (es : List Event) (id : LLUUID) :
    LLIMModel.findIMSession (st.emit es) id = LLIMModel.findIMSession st id := rfl

@[simp]
theorem LLIMModel.findIMSession_ite_emit (c : Prop) [Decidable c] (st : IMState)
    (es : List Event) (id : LLUUID) :
    LLIMModel.findIMSession (if c then st.emit es else st) id =
      LLIMModel.findIMSession st id := by
  split_ifs <;> rfl

theorem LLIMModel.newSession_fail (env : ViewerEnv) (st : IMState) (session_id : LLUUID)
    (name : String) (type : EInstantMessage) (other : LLUUID) (ids : List LLUUID)
    (voice offline : Bool)
    (h : name = "" ∨ (LLIMModel.findIMSession st session_id).isSome = true) :
    LLIMModel.newSession env st session_id name type other ids voice offline = (false, st) := by
  unfold LLIMModel.newSession
  rcases h with h | h
  · simp [h]
  · by_cases hn : name = ""
    · simp [hn]
    · simp [hn, h]

theorem LLIMModel.newSession_ok (env : ViewerEnv) (st : IMState) (session_id : LLUUID)
    (name : String) (type : EInstantMessage) (other : LLUUID) (ids : List LLUUID)
    (voice offline : Bool)
    (hn : name ≠ "") (hf : LLIMModel.findIMSession st session_id = none) :
    LLIMModel.newSession env st session_id name type other ids voice offline =
      (true,
        { mId2SessionMap := IdMap.set st.mId2SessionMap session_id
            (LLIMSession.create env session_id name type other ids voice offline).1
          mSessionObservers := st.mSessionObservers
          events := st.events ++
            (LLIMSession.create env session_id name type other ids voice offline).2 ++
            st.mSessionObservers.map (fun o => Event.sessionAdded o session_id
              (LLIMSession.create env session_id name type other ids voice offline).1.mName
              other offline) }) := by
  unfold LLIMModel.newSession
  simp only [hn, hf, if_false, Option.isSome_none, Bool.false_eq_true]
  simp [LLIMMgr.notifyObserverSessionAdded, LLIMModel.getName, LLIMModel.findIMSession,
    IdMap.find_set_self, IMState.emit]

/-- C3: `LLIMModel::newSession` returns false exactly when the name is empty or
a record with that session id already exists; when it returns false the state
is the one before the call (registry, records, buffers and counters untouched,
nothing delivered to an observer); when it returns true the id is found
afterwards, and a second creation under the same id then returns false and
changes nothing. -/
theorem newSession_validation (env : ViewerEnv) (st : IMState) (session_id : LLUUID)
    (name : String) (type : EInstantMessage) (other : LLUUID) (ids : List LLUUID)
    (voice offline : Bool) :
    ((LLIMModel.newSession env st session_id name type other ids voice offline).1 = false ↔
        (name = "" ∨ (LLIMModel.findIMSession st session_id).isSome = true)) ∧
      ((LLIMModel.newSession env st session_id name type other ids voice offline).1 = false →
        (LLIMModel.newSession env st session_id name type other ids voice offline).2 = st) ∧
      ((LLIMModel.newSession env st session_id name type other ids voice offline).1 = true →
        LLIMModel.findIMSession
            (LLIMModel.newSession env st session_id name type other ids voice offline).2
            session_id =
          some (LLIMSession.create env session_id name type other ids voice offline).1 ∧
        ∀ (env2 : ViewerEnv) (name2 : String) (type2 : EInstantMessage) (other2 : LLUUID)
          (ids2 : List LLUUID) (voice2 offline2 : Bool),
          LLIMModel.newSession env2
              (LLIMModel.newSession env st session_id name type other ids voice offline).2
              session_id name2 type2 other2 ids2 voice2 offline2 =
            (false, (LLIMModel.newSession env st session_id name type other ids voice offline).2)) := by
  by_cases h : name = "" ∨ (LLIMModel.findIMSession st session_id).isSome = true
  · rw [LLIMModel.newSession_fail env st session_id name type other ids voice offline h]
    simp [h]
  · have hn : name ≠ "" := fun e => h (Or.inl e)
    have hf : LLIMModel.findIMSession st session_id = none := by
      cases hfe : LLIMModel.findIMSession st session_id with
      | none => rfl
      | some s => exact absurd (Or.inr (by simp [hfe])) h
    rw [LLIMModel.newSession_ok env st session_id name type other ids voice offline hn hf]
    have hfound : LLIMModel.findIMSession
        { mId2SessionMap := IdMap.set st.mId2SessionMap session_id
            (LLIMSession.create env session_id name type other ids voice offline).1
          mSessionObservers := st.mSessionObservers
          events := st.events ++
            (LLIMSession.create env session_id name type other ids voice offline).2 ++
            st.mSessionObservers.map (fun o => Event.sessionAdded o session_id
              (LLIMSession.create env session_id name type other ids voice offline).1.mName
              other offline) } session_id =
        some (LLIMSession.create env session_id name type other ids voice offline).1 := by
      simp [LLIMModel.findIMSession, IdMap.find_set_self]
    refine ⟨by simpa using h, by simp, fun _ => ⟨hfound, ?_⟩⟩
    intro env2 name2 type2 other2 ids2 voice2 offline2
    exact LLIMModel.newSession_fail env2 _ session_id name2 type2 other2 ids2 voice2 offline2
      (Or.inr (by rw [hfound]; rfl))

theorem LLIMModel.addToHistory_found (env : ViewerEnv) (st : IMState) (id : LLUUID)
    (s : LLIMSession) (from_name : String) (from_id : LLUUID) (text : String) (ann : Bool)
    (h : LLIMModel.findIMSession st id = some s) :
    LLIMModel.findIMSession (LLIMModel.addToHistory env st id from_name from_id text ann).2 id =
        some (s.addMessage from_name from_id text env.timestamp false) ∧
      ∀ j, j ≠ id →
        LLIMModel.findIMSession (LLIMModel.addToHistory env st id from_name from_id text ann).2 j =
          LLIMModel.findIMSession st j := by
  unfold LLIMModel.addToHistory
  simp only [h]
  split_ifs <;>
    simp [LLIMModel.findIMSession, IdMap.find_set_self] <;>
    intro j hj <;> exact IdMap.find_set_ne _ _ _ _ hj

theorem LLIMModel.addMessageSilently_found (env : ViewerEnv) (st : IMState) (id : LLUUID)
    (s : LLIMSession) (from_name : String) (from_id : LLUUID) (text : String)
    (log2file ann : Bool) (h : LLIMModel.findIMSession st id = some s) :
    (LLIMModel.addMessageSilently env st id from_name from_id text log2file ann).1 =
        some { s with
          mMsgs :=
            { from_name :=
                if env.INTERACTIVE_SYSTEM_FROM = from_name then env.SYSTEM_FROM else from_name
              from_id := from_id, message := text, time := env.timestamp
              index := (s.mMsgs.length : Int), is_history := false } :: s.mMsgs
          mNumUnread := toS32 (s.mNumUnread + 1)
          mParticipantUnreadMessageCount :=
            if (!(from_id.isNull || decide (from_id = env.gAgentID)
                  || decide (env.SYSTEM_FROM = from_name)))
                || decide (env.INTERACTIVE_SYSTEM_FROM = from_name)
            then toS32 (s.mParticipantUnreadMessageCount + 1)
            else s.mParticipantUnreadMessageCount
          mParticipantLastMessageTime :=
            if (!(from_id.isNull || decide (from_id = env.gAgentID)
                  || decide (env.SYSTEM_FROM = from_name)))
                || decide (env.INTERACTIVE_SYSTEM_FROM = from_name)
            then env.now else s.mParticipantLastMessageTime } ∧
      LLIMModel.findIMSession
          (LLIMModel.addMessageSilently env st id from_name from_id text log2file ann).2 id =
        (LLIMModel.addMessageSilently env st id from_name from_id text log2file ann).1 ∧
      ∀ j, j ≠ id →
        LLIMModel.findIMSession
            (LLIMModel.addMessageSilently env st id from_name from_id text log2file ann).2 j =
          LLIMModel.findIMSession st j := by
  have hh := LLIMModel.addToHistory_found env st id s
    (if env.INTERACTIVE_SYSTEM_FROM = from_name then env.SYSTEM_FROM else from_name)
    from_id text ann h
  unfold LLIMModel.addMessageSilently
  simp only [h]
  generalize hst1 : (LLIMModel.addToHistory env st id
    (if env.INTERACTIVE_SYSTEM_FROM = from_name then env.SYSTEM_FROM else from_name)
    from_id text ann).2 = st1 at hh ⊢
  obtain ⟨h1, h2⟩ := hh
  have h1e : ∀ es, LLIMModel.findIMSession (st1.emit es) id = _ := fun es => h1
  have h2e : ∀ es j, j ≠ id →
      LLIMModel.findIMSession (st1.emit es) j = LLIMModel.findIMSession st j :=
    fun es j hj => h2 j hj
  have key : ∀ st2 : IMState,
      LLIMModel.findIMSession st2 id = LLIMModel.findIMSession st1 id →
      (∀ j, j ≠ id → LLIMModel.findIMSession st2 j = LLIMModel.findIMSession st j) →
      ∀ s2 : LLIMSession,
        LLIMModel.findIMSession
            ({ st2 with mId2SessionMap := IdMap.set st2.mId2SessionMap id s2 } : IMState) id =
          some s2 ∧
        ∀ j, j ≠ id →
          LLIMModel.findIMSession
              ({ st2 with mId2SessionMap := IdMap.set st2.mId2SessionMap id s2 } : IMState) j =
            LLIMModel.findIMSession st j := by
    intro st2 _ hne s2
    refine ⟨by simp [LLIMModel.findIMSession, IdMap.find_set_self], fun j hj => ?_⟩
    rw [← hne j hj]
    simp [LLIMModel.findIMSession, IdMap.find_set_ne _ _ _ _ hj]
  by_cases hl : (log2file && !ann) = true <;>
    by_cases hc : ((!(from_id.isNull || decide (from_id = env.gAgentID)
                  || decide (env.SYSTEM_FROM = from_name)))
                || decide (env.INTERACTIVE_SYSTEM_FROM = from_name)) = true <;>
    simp only [hl, hc, if_true, if_false, h1e, LLIMModel.findIMSession_emit, h1,
      Bool.false_eq_true] <;>
    refine ⟨by simp [LLIMSession.addMessage], ?_⟩
  · exact key (st1.emit _) rfl (h2e _) _
  · exact key (st1.emit _) rfl (h2e _) _
  · exact key st1 rfl h2 _
  · exact key st1 rfl h2 _

theorem LLIMModel.addMessage_found (env : ViewerEnv) (st : IMState) (id : LLUUID)
    (s : LLIMSession) (from_name : String) (from_id : LLUUID) (text : String)
    (log2file ann kw : Bool) (h : LLIMModel.findIMSession st id = some s) :
    (LLIMModel.addMessage env st id from_name from_id text log2file ann kw).1 = true ∧
      LLIMModel.findIMSession
          (LLIMModel.addMessage env st id from_name from_id text log2file ann kw).2 id =
        (LLIMModel.addMessageSilently env st id from_name from_id text log2file ann).1 ∧
      ∀ j, j ≠ id →
        LLIMModel.findIMSession
            (LLIMModel.addMessage env st id from_name from_id text log2file ann kw).2 j =
          LLIMModel.findIMSession st j := by
  obtain ⟨h1, h2, h3⟩ :=
    LLIMModel.addMessageSilently_found env st id s from_name from_id text log2file ann h
  unfold LLIMModel.addMessage
  generalize LLIMModel.addMessageSilently env st id from_name from_id text log2file ann = r
    at h1 h2 h3 ⊢
  obtain ⟨r1, r2⟩ := r
  simp only at h1 h2 h3
  subst h1
  simp only [LLIMModel.findIMSession_emit, LLIMModel.findIMSession_ite_emit]
  exact ⟨trivial, h2, h3⟩

theorem LLIMModel.sendNoUnreadMessages_found (st : IMState) (id : LLUUID) (s : LLIMSession)
    (h : LLIMModel.findIMSession st id = some s) :
    LLIMModel.findIMSession (LLIMModel.sendNoUnreadMessages st id) id =
        some { s with mNumUnread := 0, mParticipantUnreadMessageCount := 0 } ∧
      ∀ j, j ≠ id →
        LLIMModel.findIMSession (LLIMModel.sendNoUnreadMessages st id) j =
          LLIMModel.findIMSession st j := by
  unfold LLIMModel.sendNoUnreadMessages
  simp only [h]
  refine ⟨by simp [LLIMModel.findIMSession, IdMap.find_set_self], fun j hj => ?_⟩
  simp [LLIMModel.findIMSession, IdMap.find_set_ne _ _ _ _ hj]

theorem LLIMModel.addMessagesFrom_counters (st : IMState) (id : LLUUID) (s : LLIMSession)
    (from_name : String) (from_id : LLUUID) (calls : List MessageCall)
    (hs : LLIMModel.findIMSession st id = some s)
    (hid : from_id ≠ LLUUID.null)
    (hcalls : ∀ c ∈ calls, from_id ≠ c.env.gAgentID ∧ from_name ≠ c.env.SYSTEM_FROM)
    (hn : -2 ^ 31 ≤ s.mNumUnread ∧ s.mNumUnread < 2 ^ 31)
    (hp : -2 ^ 31 ≤ s.mParticipantUnreadMessageCount ∧
      s.mParticipantUnreadMessageCount < 2 ^ 31) :
    ∃ s1, LLIMModel.findIMSession (LLIMModel.addMessagesFrom st id from_name from_id calls) id =
        some s1 ∧
      s1.mNumUnread = toS32 (s.mNumUnread + calls.length) ∧
      s1.mParticipantUnreadMessageCount =
        toS32 (s.mParticipantUnreadMessageCount + calls.length) := by
  induction calls generalizing st s with
  | nil =>
    refine ⟨s, hs, ?_, ?_⟩
    · simp only [List.length_nil, Nat.cast_zero, add_zero]
      exact (toS32_of_range _ hn.1 hn.2).symm
    · simp only [List.length_nil, Nat.cast_zero, add_zero]
      exact (toS32_of_range _ hp.1 hp.2).symm
  | cons c rest ih =>
    obtain ⟨hself, hsys⟩ := hcalls c (List.mem_cons_self _ _)
    obtain ⟨_, h2, _⟩ := LLIMModel.addMessage_found c.env st id s from_name from_id
      c.utf8_text c.log2file c.is_announcement c.keyword_alert_performed hs
    obtain ⟨h1, _, _⟩ := LLIMModel.addMessageSilently_found c.env st id s from_name from_id
      c.utf8_text c.log2file c.is_announcement hs
    rw [h1] at h2
    have hnull : from_id.isNull = false := by simp [LLUUID.isNull, hid]
    have hsys2 : ¬ c.env.SYSTEM_FROM = from_name := fun e => hsys e.symm
    obtain ⟨s1, hf, hn1, hp1⟩ := ih _ _ h2 (fun d hd => hcalls d (List.mem_cons_of_mem _ hd))
      (toS32_range _) (by
        simp only [hnull, hself, hsys2, decide_False, Bool.or_false, Bool.not_false,
          Bool.true_or, if_true]
        exact toS32_range _)
    refine ⟨s1, hf, ?_, ?_⟩
    · rw [hn1, toS32_add]
      congr 1
      simp only [List.length_cons]
      push_cast
      ring
    · rw [hp1]
      simp only [hnull, hself, hsys2, decide_False, Bool.or_false, Bool.not_false,
        Bool.true_or, if_true]
      rw [toS32_add]
      congr 1
      simp only [List.length_cons]
      push_cast
      ring

/-- C4 (as amended): in an existing session whose counters are `S32` values, a
run of N `LLIMModel::addMessage` calls from one sender whose id is neither null
nor the agent id and whose name is not the system sender leaves `mNumUnread`
and `mParticipantUnreadMessageCount` at the 32-bit value of the counter plus
N: the counter plus N itself as long as that is below 2^31, and a wrapped
value beyond; `sendNoUnreadMessages` after the run sets both counters of the
session to 0. -/
theorem unread_accounting (st : IMState) (id : LLUUID) (s : LLIMSession) (from_name : String)
    (from_id : LLUUID) (calls : List MessageCall)
    (hs : LLIMModel.findIMSession st id = some s)
    (hid : from_id ≠ LLUUID.null)
    (hcalls : ∀ c ∈ calls, from_id ≠ c.env.gAgentID ∧ from_name ≠ c.env.SYSTEM_FROM)
    (hn : -2 ^ 31 ≤ s.mNumUnread ∧ s.mNumUnread < 2 ^ 31)
    (hp : -2 ^ 31 ≤ s.mParticipantUnreadMessageCount ∧
      s.mParticipantUnreadMessageCount < 2 ^ 31) :
    (∃ s1, LLIMModel.findIMSession (LLIMModel.addMessagesFrom st id from_name from_id calls) id =
          some s1 ∧
        s1.mNumUnread = toS32 (s.mNumUnread + calls.length) ∧
        s1.mParticipantUnreadMessageCount =
          toS32 (s.mParticipantUnreadMessageCount + calls.length) ∧
        (s.mNumUnread + calls.length < 2 ^ 31 →
          s1.mNumUnread = s.mNumUnread + calls.length) ∧
        (s.mParticipantUnreadMessageCount + calls.length < 2 ^ 31 →
          s1.mParticipantUnreadMessageCount =
            s.mParticipantUnreadMessageCount + calls.length)) ∧
      (∃ s2, LLIMModel.findIMSession
            (LLIMModel.sendNoUnreadMessages
              (LLIMModel.addMessagesFrom st id from_name from_id calls) id) id = some s2 ∧
        s2.mNumUnread = 0 ∧ s2.mParticipantUnreadMessageCount = 0) := by
  obtain ⟨s1, hf, hn1, hp1⟩ :=
    LLIMModel.addMessagesFrom_counters st id s from_name from_id calls hs hid hcalls hn hp
  refine ⟨⟨s1, hf, hn1, hp1, fun h => ?_, fun h => ?_⟩,
    ⟨{ s1 with mNumUnread := 0, mParticipantUnreadMessageCount := 0 },
      (LLIMModel.sendNoUnreadMessages_found _ id s1 hf).1, rfl, rfl⟩⟩
  · rw [hn1]
    exact toS32_of_range _ (by have := hn.1; omega) h
  · rw [hp1]
    exact toS32_of_range _ (by have := hp.1; omega) h

theorem unread_accounting_witness :
    (LLIMModel.newSession exampleEnv emptyState idX "Alice" IM_NOTHING_SPECIAL aliceId [aliceId]
        false false).1 = true ∧
      LLIMModel.getNumUnread
        (LLIMModel.addMessagesFrom aliceState idX "Alice" aliceId [hiCall]) idX = 1 ∧
      LLIMModel.getNumUnread
        (LLIMModel.sendNoUnreadMessages
          (LLIMModel.addMessagesFrom aliceState idX "Alice" aliceId [hiCall]) idX) idX = 0 := by
  have hs : LLIMModel.findIMSession aliceState idX =
      some (LLIMSession.create exampleEnv idX "Alice" IM_NOTHING_SPECIAL aliceId [aliceId]
        false false).1 := by decide
  obtain ⟨⟨s1, h1, _, _, h2, _⟩, ⟨s2, h3, h4, _⟩⟩ :=
    unread_accounting aliceState idX _ "Alice" aliceId [hiCall] hs (by decide)
      (by intro c hc; simp only [List.mem_singleton] at hc; subst hc; decide)
      (by decide) (by decide)
  refine ⟨by decide, ?_, ?_⟩
  · simp only [LLIMModel.getNumUnread, h1, h2 (by decide)]; rfl
  · simp only [LLIMModel.getNumUnread, h3, h4]

/-- C4 (counterexample to the claim as stated): the P2P session with Alice is
new, so both its counters are 0, and N = 2^31 messages from Alice are appended
to it; afterwards `mNumUnread` and `mParticipantUnreadMessageCount` are -2^31,
not 2^31: the 32-bit counters have wrapped around. -/
theorem unread_accounting_wrap_counterexample :
    LLIMModel.getNumUnread aliceState idX = 0 ∧
      (List.replicate 2147483648 hiCall).length = 2147483648 ∧
      ∃ s1, LLIMModel.findIMSession
          (LLIMModel.addMessagesFrom aliceState idX "Alice" aliceId
            (List.replicate 2147483648 hiCall)) idX = some s1 ∧
        s1.mNumUnread = -2147483648 ∧ s1.mParticipantUnreadMessageCount = -2147483648 := by
  have hs : LLIMModel.findIMSession aliceState idX =
      some (LLIMSession.create exampleEnv idX "Alice" IM_NOTHING_SPECIAL aliceId [aliceId]
        false false).1 := by decide
  obtain ⟨s1, h1, h2, h3⟩ := LLIMModel.addMessagesFrom_counters aliceState idX _ "Alice" aliceId
    (List.replicate 2147483648 hiCall) hs (by decide)
    (by intro c hc; rw [List.eq_of_mem_replicate hc]; decide) (by decide) (by decide)
  refine ⟨by decide, List.length_replicate _ _, s1, h1, ?_, ?_⟩
  · rw [h2, List.length_replicate]
    decide
  · rw [h3, List.length_replicate]
    decide

/-! ### Ad-hoc lookup -/

/-- The initial targets of a constructed record are the ids passed to the
constructor. -/
theorem LLIMSession.create_targets (env : ViewerEnv) (id : LLUUID) (name : String)
    (type : EInstantMessage) (other : LLUUID) (ids : List LLUUID) (voice offline : Bool) :
    (LLIMSession.create env id name type other ids voice offline).1.mInitialTargetIDs = ids := by
  have hadd : ∀ (l : List HistoryLine) (s : LLIMSession),
      (s.addMessagesFromHistory l).mInitialTargetIDs = s.mInitialTargetIDs := by
    intro l
    induction l with
    | nil => intro s; rfl
    | cons a rest ih =>
      intro s
      simp only [LLIMSession.addMessagesFromHistory]
      rw [ih]
      rfl
  simp only [LLIMSession.create, LLIMSession.loadHistory, LLIMSession.buildHistoryFileName]
  split_ifs <;> first | rfl | (rw [hadd])

/-- The records that the code registers have at least one initial target: the
overload of `newSession` without an id list passes the other participant as
the only target, and `LLIMMgr::addSession` creates nothing for an empty id
list. -/
theorem LLIMModel.created_targets_nonempty (env : ViewerEnv) (menv : MgrEnv) (st : IMState)
    (mst : MgrState) (id : LLUUID) (name : String) (type : EInstantMessage) (other : LLUUID)
    (voice offline : Bool) (floater_id : LLUUID) :
    (∀ s, LLIMModel.findIMSession st id = none →
        LLIMModel.findIMSession
          (LLIMModel.newSessionP2P env st id name type other voice offline).2 id = some s →
        s.mInitialTargetIDs = [other]) ∧
      LLIMMgr.addSession menv mst name type other [] voice floater_id = (LLUUID.null, mst) := by
  constructor
  · intro s hnone hs
    by_cases hn : name = ""
    · rw [LLIMModel.newSessionP2P,
        LLIMModel.newSession_fail env st id name type other [other] voice offline (Or.inl hn),
        hnone] at hs
      cases hs
    · rw [LLIMModel.newSessionP2P,
        LLIMModel.newSession_ok env st id name type other [other] voice offline hn hnone] at hs
      simp only [LLIMModel.findIMSession, IdMap.find_set_self, Option.some.injEq] at hs
      rw [← hs]
      exact LLIMSession.create_targets env id name type other [other] voice offline
  · simp [LLIMMgr.addSession]

theorem LLIMModel.processSessionInitializedReply_map (env : ViewerEnv) (st : IMState)
    (old new : LLUUID) (s : LLIMSession) (hs : LLIMModel.findIMSession st old = some s) :
    (LLIMModel.processSessionInitializedReply env st old new).mId2SessionMap =
      if old ≠ new then
        IdMap.set (IdMap.erase (IdMap.set st.mId2SessionMap old (s.sessionInitReplyReceived new))
          old) new (s.sessionInitReplyReceived new)
      else IdMap.set st.mId2SessionMap old (s.sessionInitReplyReceived new) := by
  unfold LLIMModel.processSessionInitializedReply
  simp only [hs, LLIMMgr.notifyObserverSessionIDUpdated]
  split_ifs <;> rfl

theorem LLIMModel.processSessionInitializedReply_none (env : ViewerEnv) (st : IMState)
    (old new : LLUUID) (hs : LLIMModel.findIMSession st old = none) :
    LLIMModel.processSessionInitializedReply env st old new = st := by
  unfold LLIMModel.processSessionInitializedReply
  simp only [hs]

theorem LLIMSession.sessionInitReplyReceived_fields (s : LLIMSession) (new : LLUUID) :
    (s.sessionInitReplyReceived new).mSessionID = new ∧
      (s.sessionInitReplyReceived new).mSessionInitialized = true ∧
      (s.sessionInitReplyReceived new).mMsgs = s.mMsgs ∧
      (s.sessionInitReplyReceived new).mNumUnread = s.mNumUnread ∧
      (s.sessionInitReplyReceived new).mParticipantUnreadMessageCount =
        s.mParticipantUnreadMessageCount ∧
      (s.sessionInitReplyReceived new).mOtherParticipantID = s.mOtherParticipantID := by
  unfold LLIMSession.sessionInitReplyReceived
  by_cases h : new = s.mSessionID
  · simp [h]
  · simp [h]

/-- C7: when a session is registered under `old` and `new` differs from `old`,
after `processSessionInitializedReply(old, new)` the lookup of `new` returns the
record formerly under `old` with the same message buffer, unread counters and
other participant id, its session id field is `new`, and the lookup of `old`
finds nothing. -/
theorem rekey_preserves_record (env : ViewerEnv) (st : IMState) (old new : LLUUID)
    (s : LLIMSession) (hs : LLIMModel.findIMSession st old = some s) (hne : new ≠ old) :
    (∃ s1, LLIMModel.findIMSession (LLIMModel.processSessionInitializedReply env st old new) new
          = some s1 ∧
        s1.mMsgs = s.mMsgs ∧
        s1.mNumUnread = s.mNumUnread ∧
        s1.mParticipantUnreadMessageCount = s.mParticipantUnreadMessageCount ∧
        s1.mOtherParticipantID = s.mOtherParticipantID ∧
        s1.mSessionID = new) ∧
      LLIMModel.findIMSession (LLIMModel.processSessionInitializedReply env st old new) old
        = none := by
  have hmap := LLIMModel.processSessionInitializedReply_map env st old new s hs
  rw [if_pos (Ne.symm hne)] at hmap
  obtain ⟨f1, _, f3, f4, f5, f6⟩ := LLIMSession.sessionInitReplyReceived_fields s new
  refine ⟨⟨s.sessionInitReplyReceived new, ?_, f3, f4, f5, f6, f1⟩, ?_⟩
  · simp only [LLIMModel.findIMSession, hmap, IdMap.find_set_self]
  · simp only [LLIMModel.findIMSession, hmap]
    rw [IdMap.find_set_ne _ _ _ _ (Ne.symm hne), IdMap.find_erase_self]

theorem rekey_preserves_record_witness :
    LLIMModel.findIMSession conferenceWithMessage confId = some conferenceWithMessageRecord ∧
      LLUUID.ofNat 9001 ≠ confId ∧
      (∃ s1, LLIMModel.findIMSession
            (LLIMModel.processSessionInitializedReply exampleEnv conferenceWithMessage confId
              (LLUUID.ofNat 9001)) (LLUUID.ofNat 9001) = some s1 ∧
        s1.mMsgs.length = 1 ∧ s1.mNumUnread = 1 ∧ s1.mSessionID = LLUUID.ofNat 9001) ∧
      LLIMModel.findIMSession
        (LLIMModel.processSessionInitializedReply exampleEnv conferenceWithMessage confId
          (LLUUID.ofNat 9001)) confId = none := by
  have hs : LLIMModel.findIMSession conferenceWithMessage confId =
      some conferenceWithMessageRecord := by decide
  obtain ⟨⟨s1, h1, h2, h3, _, _, h6⟩, hold⟩ :=
    rekey_preserves_record exampleEnv conferenceWithMessage confId (LLUUID.ofNat 9001)
      conferenceWithMessageRecord hs (by decide)
  refine ⟨hs, by decide, ⟨s1, h1, ?_, ?_, h6⟩, hold⟩
  · rw [h2]; decide
  · rw [h3]; decide

/-- C8 (as amended): `processSessionInitializedReply(id, id)` on an existing
session delivers `sessionIDUpdated` to no observer: the record stays registered
under `id` with the initialized flag set, every other lookup and the observer
list are as before, and the only calls made are the reply forwarded to the
floater of `id`, when there is one, and the call start, when it was requested. -/
theorem reply_same_id (env : ViewerEnv) (st : IMState) (id : LLUUID) (s : LLIMSession)
    (hs : LLIMModel.findIMSession st id = some s) :
    LLIMModel.findIMSession (LLIMModel.processSessionInitializedReply env st id id) id =
        some (s.sessionInitReplyReceived id) ∧
      (∀ j, j ≠ id →
        LLIMModel.findIMSession (LLIMModel.processSessionInitializedReply env st id id) j =
          LLIMModel.findIMSession st j) ∧
      (LLIMModel.processSessionInitializedReply env st id id).mSessionObservers =
        st.mSessionObservers ∧
      (LLIMModel.processSessionInitializedReply env st id id).events =
        st.events ++
          ((if env.hasFloater id then [Event.floaterSessionInitReply id id] else []) ++
           (if s.mStartCallOnInitialize then [Event.startCall id] else [])) ∧
      ∀ o a b, Event.sessionIDUpdated o a b ∉
        ((if env.hasFloater id then [Event.floaterSessionInitReply id id] else []) ++
         (if s.mStartCallOnInitialize then [Event.startCall id] else [])) := by
  have hmap := LLIMModel.processSessionInitializedReply_map env st id id s hs
  simp only [ne_eq, not_true_eq_false, if_false] at hmap
  refine ⟨?_, ?_, ?_, ?_, ?_⟩
  · simp only [LLIMModel.findIMSession, hmap, IdMap.find_set_self]
  · intro j hj
    simp only [LLIMModel.findIMSession, hmap, IdMap.find_set_ne _ _ _ _ hj]
  · unfold LLIMModel.processSessionInitializedReply
    simp only [hs, ne_eq, not_true_eq_false, if_false]
    split_ifs <;> rfl
  · have hcall : (s.sessionInitReplyReceived id).mStartCallOnInitialize =
        s.mStartCallOnInitialize := by
      by_cases h : id = s.mSessionID <;> simp [LLIMSession.sessionInitReplyReceived, h]
    unfold LLIMModel.processSessionInitializedReply
    simp only [hs, ne_eq, not_true_eq_false, if_false, hcall]
    by_cases hf : env.hasFloater id = true <;> by_cases hc : s.mStartCallOnInitialize = true <;>
      simp [hf, hc, IMState.emit]
  · intro o a b
    by_cases hf : env.hasFloater id = true <;> by_cases hc : s.mStartCallOnInitialize = true <;>
      simp [hf, hc]

theorem reply_same_id_witness :
    LLIMModel.findIMSession conferenceWithMessage confId = some conferenceWithMessageRecord ∧
      (LLIMModel.processSessionInitializedReply exampleEnv conferenceWithMessage confId
        confId).events = conferenceWithMessage.events ∧
      LLIMModel.findIMSession
          (LLIMModel.processSessionInitializedReply exampleEnv conferenceWithMessage confId confId)
          confId =
        some (conferenceWithMessageRecord.sessionInitReplyReceived confId) := by
  have hs : LLIMModel.findIMSession conferenceWithMessage confId =
      some conferenceWithMessageRecord := by decide
  obtain ⟨h1, _, _, h4, _⟩ :=
    reply_same_id exampleEnv conferenceWithMessage confId conferenceWithMessageRecord hs
  refine ⟨hs, ?_, h1⟩
  rw [h4]
  have hcall : conferenceWithMessageRecord.mStartCallOnInitialize = false := by decide
  have hfl : exampleEnv.hasFloater confId = false := rfl
  simp [hcall, hfl]

/-- C8 (counterexample to the claim as stated): a conference is registered
under `confId` and observer 1 is registered; after
`processSessionInitializedReply(confId, confId)` the trace is the one before the
call, so no `sessionIDUpdated(confId, confId)` reached observer 1. -/
theorem reply_same_id_counterexample :
    (LLIMModel.findIMSession conferenceWithMessage confId).isSome = true ∧
      1 ∈ conferenceWithMessage.mSessionObservers ∧
      (LLIMModel.processSessionInitializedReply exampleEnv conferenceWithMessage confId
        confId).events = conferenceWithMessage.events ∧
      Event.sessionIDUpdated 1 confId confId ∉
        (LLIMModel.processSessionInitializedReply exampleEnv conferenceWithMessage confId
          confId).events := by
  refine ⟨by decide, by decide, by decide, by decide⟩

/-! ### Session initialization -/

theorem LLIMModel.addMessageSilently_none (env : ViewerEnv) (st : IMState) (id : LLUUID)
    (from_name : String) (from_id : LLUUID) (text : String) (log2file ann : Bool)
    (h : LLIMModel.findIMSession st id = none) :
    LLIMModel.addMessageSilently env st id from_name from_id text log2file ann = (none, st) := by
  unfold LLIMModel.addMessageSilently
  simp only [h]

theorem LLIMModel.addMessage_none (env : ViewerEnv) (st : IMState) (id : LLUUID)
    (from_name : String) (from_id : LLUUID) (text : String) (log2file ann kw : Bool)
    (h : LLIMModel.findIMSession st id = none) :
    LLIMModel.addMessage env st id from_name from_id text log2file ann kw = (false, st) := by
  unfold LLIMModel.addMessage
  rw [LLIMModel.addMessageSilently_none env st id from_name from_id text log2file ann h]

theorem LLIMModel.addMessageSilently_keeps (env : ViewerEnv) (st : IMState) (id : LLUUID)
    (from_name : String) (from_id : LLUUID) (text : String) (log2file ann : Bool)
    (j : LLUUID) (s : LLIMSession) (h : LLIMModel.findIMSession st j = some s) :
    ∃ s1, LLIMModel.findIMSession
          (LLIMModel.addMessageSilently env st id from_name from_id text log2file ann).2 j =
        some s1 ∧ s1.mSessionInitialized = s.mSessionInitialized := by
  cases hid : LLIMModel.findIMSession st id with
  | none =>
    rw [LLIMModel.addMessageSilently_none env st id from_name from_id text log2file ann hid]
    exact ⟨s, h, rfl⟩
  | some t =>
    obtain ⟨h1, h2, h3⟩ :=
      LLIMModel.addMessageSilently_found env st id t from_name from_id text log2file ann hid
    by_cases hj : j = id
    · subst hj
      rw [h] at hid
      cases hid
      rw [h2, h1]
      exact ⟨_, rfl, rfl⟩
    · rw [h3 j hj]
      exact ⟨s, h, rfl⟩

theorem LLIMModel.addMessage_keeps (env : ViewerEnv) (st : IMState) (id : LLUUID)
    (from_name : String) (from_id : LLUUID) (text : String) (log2file ann kw : Bool)
    (j : LLUUID) (s : LLIMSession) (h : LLIMModel.findIMSession st j = some s) :
    ∃ s1, LLIMModel.findIMSession
          (LLIMModel.addMessage env st id from_name from_id text log2file ann kw).2 j =
        some s1 ∧ s1.mSessionInitialized = s.mSessionInitialized := by
  cases hid : LLIMModel.findIMSession st id with
  | none =>
    rw [LLIMModel.addMessage_none env st id from_name from_id text log2file ann kw hid]
    exact ⟨s, h, rfl⟩
  | some t =>
    obtain ⟨_, h2, h3⟩ :=
      LLIMModel.addMessage_found env st id t from_name from_id text log2file ann kw hid
    obtain ⟨s1, hs1, hi⟩ :=
      LLIMModel.addMessageSilently_keeps env st id from_name from_id text log2file ann j s h
    by_cases hj : j = id
    · subst hj
      rw [h2]
      obtain ⟨_, h5, _⟩ :=
        LLIMModel.addMessageSilently_found env st j t from_name from_id text log2file ann hid
      rw [← h5]
      exact ⟨s1, hs1, hi⟩
    · rw [h3 j hj]
      exact ⟨s, h, rfl⟩

theorem LLIMModel.sendNoUnreadMessages_keeps (st : IMState) (id j : LLUUID) (s : LLIMSession)
    (h : LLIMModel.findIMSession st j = some s) :
    ∃ s1, LLIMModel.findIMSession (LLIMModel.sendNoUnreadMessages st id) j = some s1 ∧
      s1.mSessionInitialized = s.mSessionInitialized := by
  cases hid : LLIMModel.findIMSession st id with
  | none =>
    unfold LLIMModel.sendNoUnreadMessages
    simp only [hid]
    exact ⟨s, h, rfl⟩
  | some t =>
    obtain ⟨h1, h2⟩ := LLIMModel.sendNoUnreadMessages_found st id t hid
    by_cases hj : j = id
    · subst hj
      rw [h] at hid
      cases hid
      exact ⟨_, h1, rfl⟩
    · rw [h2 j hj]
      exact ⟨s, h, rfl⟩

theorem LLIMMgr.autoStartCallOnStartup_keeps (st : IMState) (id j : LLUUID) (s : LLIMSession)
    (h : LLIMModel.findIMSession st j = some s) :
    ∃ s1, LLIMModel.findIMSession (LLIMMgr.autoStartCallOnStartup st id) j = some s1 ∧
      s1.mSessionInitialized = s.mSessionInitialized := by
  unfold LLIMMgr.autoStartCallOnStartup
  cases hid : LLIMModel.findIMSession st id with
  | none => exact ⟨s, h, rfl⟩
  | some t =>
    simp only
    split_ifs with hi
    · exact ⟨s, h, rfl⟩
    · by_cases hj : j = id
      · subst hj
        rw [h] at hid
        cases hid
        exact ⟨{ s with mStartCallOnInitialize := true },
          by simp only [LLIMModel.findIMSession, IdMap.find_set_self], rfl⟩
      · refine ⟨s, ?_, rfl⟩
        simp only [LLIMModel.findIMSession, IdMap.find_set_ne _ _ _ _ hj]
        exact h

theorem LLSessionTimeoutTimer.tick_map (env : ViewerEnv) (st : IMState) (id : LLUUID) :
    (LLSessionTimeoutTimer.tick env st id).mId2SessionMap = st.mId2SessionMap ∧
      (LLSessionTimeoutTimer.tick env st id).mSessionObservers = st.mSessionObservers := by
  unfold LLSessionTimeoutTimer.tick
  by_cases hnull : id.isNull = true
  · simp only [hnull, if_true, and_self]
  · simp only [hnull, Bool.false_eq_true, if_false]
    cases LLIMModel.findIMSession st id with
    | none => exact ⟨rfl, rfl⟩
    | some t =>
      simp only [LLIMMgr.showSessionStartError]
      split_ifs <;> exact ⟨rfl, rfl⟩

theorem LLIMModel.newSession_keeps (env : ViewerEnv) (st : IMState) (id : LLUUID)
    (name : String) (type : EInstantMessage) (other : LLUUID) (ids : List LLUUID)
    (voice offline : Bool) (j : LLUUID) (s : LLIMSession)
    (h : LLIMModel.findIMSession st j = some s) :
    LLIMModel.findIMSession
        (LLIMModel.newSession env st id name type other ids voice offline).2 j = some s := by
  by_cases hf : name = "" ∨ (LLIMModel.findIMSession st id).isSome = true
  · rw [LLIMModel.newSession_fail env st id name type other ids voice offline hf]
    exact h
  · have hn : name ≠ "" := fun e => hf (Or.inl e)
    have hnone : LLIMModel.findIMSession st id = none := by
      cases hfe : LLIMModel.findIMSession st id with
      | none => rfl
      | some s => exact absurd (Or.inr (by simp [hfe])) hf
    have hj : j ≠ id := by
      intro e
      rw [e, hnone] at h
      cases h
    rw [LLIMModel.newSession_ok env st id name type other ids voice offline hn hnone]
    simp only [LLIMModel.findIMSession, IdMap.find_set_ne _ _ _ _ hj]
    exact h

theorem LLIMModel.clearSession_find (st : IMState) (id j : LLUUID) :
    LLIMModel.findIMSession (LLIMModel.clearSession st id).2 j =
      if j = id then none else LLIMModel.findIMSession st j := by
  unfold LLIMModel.clearSession
  by_cases hj : j = id
  · subst hj
    simp only [if_true]
    split_ifs with hn
    · simpa [LLIMModel.findIMSession] using hn
    · simp only [LLIMModel.findIMSession, IdMap.find_erase_self]
  · simp only [hj, if_false]
    split_ifs with hn
    · rfl
    · simp only [LLIMModel.findIMSession, IdMap.find_erase_ne _ _ _ hj]

theorem RegistryOp.apply_keeps_uninitialized (env : ViewerEnv) (st : IMState) (op : RegistryOp)
    (id : LLUUID) (s : LLIMSession) (hs : LLIMModel.findIMSession st id = some s)
    (hreply : op.isReply = false) (hclear : op ≠ RegistryOp.clearSession id) :
    ∃ s1, LLIMModel.findIMSession (op.apply env st) id = some s1 ∧
      s1.mSessionInitialized = s.mSessionInitialized := by
  cases op with
  | newSession sid name type other ids voice offline =>
    exact ⟨s, LLIMModel.newSession_keeps env st sid name type other ids voice offline id s hs, rfl⟩
  | clearSession sid =>
    have hne : id ≠ sid := fun e => hclear (by rw [e])
    refine ⟨s, ?_, rfl⟩
    simp only [RegistryOp.apply, LLIMModel.clearSession_find, hne, if_false]
    exact hs
  | addMessage sid from_name from_id text log2file ann kw =>
    exact LLIMModel.addMessage_keeps env st sid from_name from_id text log2file ann kw id s hs
  | addMessageSilently sid from_name from_id text log2file ann =>
    exact LLIMModel.addMessageSilently_keeps env st sid from_name from_id text log2file ann id s hs
  | sendNoUnreadMessages sid => exact LLIMModel.sendNoUnreadMessages_keeps st sid id s hs
  | processSessionInitializedReply old new => simp [RegistryOp.isReply] at hreply
  | autoStartCallOnStartup sid => exact LLIMMgr.autoStartCallOnStartup_keeps st sid id s hs
  | timerTick sid =>
    refine ⟨s, ?_, rfl⟩
    simp only [RegistryOp.apply, LLIMModel.findIMSession, (LLSessionTimeoutTimer.tick_map env st sid).1]
    exact hs
  | addSessionObserver o => exact ⟨s, hs, rfl⟩
  | removeSessionObserver o => exact ⟨s, hs, rfl⟩

theorem LLIMModel.processSessionInitializedReply_find_other (env : ViewerEnv) (st : IMState)
    (old new j : LLUUID) (hold : j ≠ old) (hnew : j ≠ new) :
    LLIMModel.findIMSession (LLIMModel.processSessionInitializedReply env st old new) j =
      LLIMModel.findIMSession st j := by
  cases hs : LLIMModel.findIMSession st old with
  | none => rw [LLIMModel.processSessionInitializedReply_none env st old new hs]
  | some s =>
    have hmap := LLIMModel.processSessionInitializedReply_map env st old new s hs
    simp only [LLIMModel.findIMSession, hmap]
    split_ifs
    · rw [IdMap.find_set_ne _ _ _ _ hnew, IdMap.find_erase_ne _ _ _ hold,
        IdMap.find_set_ne _ _ _ _ hold]
    · rw [IdMap.find_set_ne _ _ _ _ hold]

theorem LLIMModel.processSessionInitializedReply_find_new (env : ViewerEnv) (st : IMState)
    (old new : LLUUID) (s : LLIMSession) (hs : LLIMModel.findIMSession st old = some s) :
    LLIMModel.findIMSession (LLIMModel.processSessionInitializedReply env st old new) new =
      some (s.sessionInitReplyReceived new) := by
  have hmap := LLIMModel.processSessionInitializedReply_map env st old new s hs
  simp only [LLIMModel.findIMSession, hmap]
  split_ifs with h
  · rw [IdMap.find_set_self]
  · have e : old = new := by
      by_contra hne
      exact h hne
    subst e
    rw [IdMap.find_set_self]

theorem LLIMModel.sendStartSession_true_iff (env : ViewerEnv) (temp other : LLUUID)
    (ids : List LLUUID) (dialog : EInstantMessage) :
    (LLIMModel.sendStartSession env temp other ids dialog).1 = true ↔
      (dialog = IM_SESSION_GROUP_START ∨ dialog = IM_SESSION_CONFERENCE_START) := by
  unfold LLIMModel.sendStartSession
  split_ifs with h1 h2
  · simp [h1]
  · simp [h2]
  · simp [h1, h2]

theorem LLIMSession.loadHistory_initialized (env : ViewerEnv) (s : LLIMSession) :
    ((s.buildHistoryFileName env).loadHistory env).mSessionInitialized =
      s.mSessionInitialized := by
  have hadd : ∀ (l : List HistoryLine) (t : LLIMSession),
      (t.addMessagesFromHistory l).mSessionInitialized = t.mSessionInitialized := by
    intro l
    induction l with
    | nil => intro t; rfl
    | cons a l ih => intro t; simp only [LLIMSession.addMessagesFromHistory, ih]; rfl
  unfold LLIMSession.loadHistory
  split_ifs
  · rw [hadd]; rfl
  · rfl

theorem LLIMSession.create_initialized (env : ViewerEnv) (id : LLUUID) (name : String)
    (type : EInstantMessage) (other : LLUUID) (ids : List LLUUID) (voice offline : Bool) :
    (LLIMSession.create env id name type other ids voice offline).1.mSessionInitialized =
      !decide (type = IM_SESSION_GROUP_START ∨ type = IM_SESSION_CONFERENCE_START) := by
  unfold LLIMSession.create
  simp only [LLIMSession.loadHistory_initialized]
  unfold LLIMModel.sendStartSession
  split_ifs with h1 h2
  · simp [h1]
  · simp [h2]
  · simp [h1, h2]

/-- C9: `sendStartSession` reports an outstanding round trip exactly for the
group start and conference start kinds; a record is constructed uninitialized
exactly for those kinds and initialized for every other kind; and one step of
any registry operation leaves an uninitialized record registered under `id`
uninitialized under `id`, unless the step removes it (`clearSession(id)`),
initializes it (`processSessionInitializedReply(id, new)`, after which it is
found under `new`), or displaces it by the record of another session that a
reply rekeys to `id`. -/
theorem session_initialization (env : ViewerEnv) :
    (∀ (temp other : LLUUID) (ids : List LLUUID) (dialog : EInstantMessage),
        (LLIMModel.sendStartSession env temp other ids dialog).1 = true ↔
          (dialog = IM_SESSION_GROUP_START ∨ dialog = IM_SESSION_CONFERENCE_START)) ∧
      (∀ (id : LLUUID) (name : String) (type : EInstantMessage) (other : LLUUID)
          (ids : List LLUUID) (voice offline : Bool),
        (LLIMSession.create env id name type other ids voice offline).1.mSessionInitialized =
          !decide (type = IM_SESSION_GROUP_START ∨ type = IM_SESSION_CONFERENCE_START)) ∧
      (∀ (st : IMState) (op : RegistryOp) (id : LLUUID) (s : LLIMSession),
        LLIMModel.findIMSession st id = some s → s.mSessionInitialized = false →
          (∃ s1, LLIMModel.findIMSession (op.apply env st) id = some s1 ∧
              s1.mSessionInitialized = false) ∨
            (op = RegistryOp.clearSession id ∧
              LLIMModel.findIMSession (op.apply env st) id = none) ∨
            (∃ new, op = RegistryOp.processSessionInitializedReply id new ∧
              LLIMModel.findIMSession (op.apply env st) new =
                some (s.sessionInitReplyReceived new) ∧
              (s.sessionInitReplyReceived new).mSessionInitialized = true) ∨
            (∃ old s0, old ≠ id ∧ op = RegistryOp.processSessionInitializedReply old id ∧
              LLIMModel.findIMSession st old = some s0 ∧
              LLIMModel.findIMSession (op.apply env st) id =
                some (s0.sessionInitReplyReceived id))) := by
  refine ⟨LLIMModel.sendStartSession_true_iff env, LLIMSession.create_initialized env, ?_⟩
  · intro st op id s hs hinit
    by_cases hreply : op.isReply = true
    · cases op with
      | processSessionInitializedReply old new =>
        by_cases ho : old = id
        · subst ho
          right; right; left
          exact ⟨new, rfl,
            LLIMModel.processSessionInitializedReply_find_new env st old new s hs,
            (LLIMSession.sessionInitReplyReceived_fields s new).2.1⟩
        · cases hold : LLIMModel.findIMSession st old with
          | none =>
            left
            refine ⟨s, ?_, hinit⟩
            simp only [RegistryOp.apply,
              LLIMModel.processSessionInitializedReply_none env st old new hold]
            exact hs
          | some s0 =>
            by_cases hn : new = id
            · subst hn
              right; right; right
              exact ⟨old, s0, ho, rfl, hold,
                LLIMModel.processSessionInitializedReply_find_new env st old new s0 hold⟩
            · left
              refine ⟨s, ?_, hinit⟩
              simp only [RegistryOp.apply]
              rw [LLIMModel.processSessionInitializedReply_find_other env st old new id
                (Ne.symm ho) (Ne.symm hn)]
              exact hs
      | _ => simp [RegistryOp.isReply] at hreply
    · have hreply2 : op.isReply = false := by simpa using hreply
      by_cases hclear : op = RegistryOp.clearSession id
      · right; left
        refine ⟨hclear, ?_⟩
        subst hclear
        simp only [RegistryOp.apply, LLIMModel.clearSession_find, if_true]
      · left
        obtain ⟨s1, h1, h2⟩ :=
          RegistryOp.apply_keeps_uninitialized env st op id s hs hreply2 hclear
        exact ⟨s1, h1, by rw [h2, hinit]⟩

theorem session_initialization_witness :
    (LLIMModel.sendStartSession exampleEnv confId (LLUUID.ofNat 1) [LLUUID.ofNat 1]
        IM_SESSION_CONFERENCE_START).1 = true ∧
      (LLIMModel.sendStartSession exampleEnv idX aliceId [aliceId] IM_NOTHING_SPECIAL).1 = false ∧
      (conferenceRecord [LLUUID.ofNat 1]).mSessionInitialized = false ∧
      (∃ s1, LLIMModel.findIMSession
          ((RegistryOp.sendNoUnreadMessages confId).apply exampleEnv conferenceWithMessage)
          confId = some s1 ∧ s1.mSessionInitialized = false) := by
  have h := session_initialization exampleEnv
  refine ⟨(h.1 _ _ _ _).mpr (Or.inr rfl), ?_, ?_, ?_⟩
  · have h1 := h.1 idX aliceId [aliceId] IM_NOTHING_SPECIAL
    cases hb : (LLIMModel.sendStartSession exampleEnv idX aliceId [aliceId]
        IM_NOTHING_SPECIAL).1 with
    | false => rfl
    | true => exact absurd (h1.mp hb) (by decide)
  · exact h.2.1 confId "Conference" IM_SESSION_CONFERENCE_START (LLUUID.ofNat 1)
      [LLUUID.ofNat 1] false false
  · rcases h.2.2 conferenceWithMessage (RegistryOp.sendNoUnreadMessages confId) confId
        conferenceWithMessageRecord (by decide) (by decide) with h1 | h1 | h1 | h1
    · exact h1
    · exact absurd h1.1 (by decide)
    · obtain ⟨new, hnew, _⟩ := h1
      exact absurd hnew (by simp)
    · obtain ⟨old, s0, _, hop, _⟩ := h1
      exact absurd hop (by simp)

/-! ### Initialization timeout -/

theorem RegistryOp.apply_keeps_at (env : ViewerEnv) (st : IMState) (op : RegistryOp)
    (id : LLUUID) (s : LLIMSession) (hs : LLIMModel.findIMSession st id = some s)
    (hreply : ∀ old new, op = RegistryOp.processSessionInitializedReply old new →
      old ≠ id ∧ new ≠ id)
    (hclear : op ≠ RegistryOp.clearSession id) :
    ∃ s1, LLIMModel.findIMSession (op.apply env st) id = some s1 ∧
      s1.mSessionInitialized = s.mSessionInitialized := by
  by_cases hr : op.isReply = true
  · cases op with
    | processSessionInitializedReply old new =>
      obtain ⟨ho, hn⟩ := hreply old new rfl
      refine ⟨s, ?_, rfl⟩
      simp only [RegistryOp.apply]
      rw [LLIMModel.processSessionInitializedReply_find_other env st old new id (Ne.symm ho)
        (Ne.symm hn)]
      exact hs
    | _ => simp [RegistryOp.isReply] at hr
  · exact RegistryOp.apply_keeps_uninitialized env st op id s hs (by simpa using hr) hclear

theorem RegistryOp.run_keeps_uninitialized (ops : List (ViewerEnv × RegistryOp)) (st : IMState)
    (id : LLUUID) (s : LLIMSession) (hs : LLIMModel.findIMSession st id = some s)
    (hops : ∀ p ∈ ops,
      (∀ old new, p.2 = RegistryOp.processSessionInitializedReply old new →
        old ≠ id ∧ new ≠ id) ∧
      p.2 ≠ RegistryOp.clearSession id) :
    ∃ s1, LLIMModel.findIMSession (RegistryOp.run st ops) id = some s1 ∧
      s1.mSessionInitialized = s.mSessionInitialized := by
  induction ops generalizing st s with
  | nil => exact ⟨s, hs, rfl⟩
  | cons p rest ih =>
    obtain ⟨env, op⟩ := p
    obtain ⟨hr, hc⟩ := hops (env, op) (List.mem_cons_self _ _)
    obtain ⟨s1, h1, h2⟩ := RegistryOp.apply_keeps_at env st op id s hs hr hc
    obtain ⟨s2, h3, h4⟩ := ih (op.apply env st) s1 h1
      (fun q hq => hops q (List.mem_cons_of_mem _ hq))
    exact ⟨s2, h3, by rw [h4, h2]⟩

theorem LLSessionTimeoutTimer.tick_uninitialized (env : ViewerEnv) (st : IMState) (id : LLUUID)
    (s : LLIMSession) (hnull : id ≠ LLUUID.null)
    (hs : LLIMModel.findIMSession st id = some s) (hinit : s.mSessionInitialized = false) :
    LLSessionTimeoutTimer.tick env st id =
      st.emit [Event.sessionStartError "session_initialization_timed_out_error" id s.mName] := by
  have hn : id.isNull = false := by simp [LLUUID.isNull, hnull]
  unfold LLSessionTimeoutTimer.tick
  simp only [hn, Bool.false_eq_true, if_false, hs, hinit, Bool.not_false, if_true]
  unfold LLIMMgr.showSessionStartError
  simp [LLIMMgr.hasSession, LLIMModel.getName, hs]

theorem LLSessionTimeoutTimer.tick_quiet (env : ViewerEnv) (st : IMState) (id : LLUUID)
    (h : LLIMModel.findIMSession st id = none ∨
      ∃ s, LLIMModel.findIMSession st id = some s ∧ s.mSessionInitialized = true) :
    LLSessionTimeoutTimer.tick env st id = st := by
  unfold LLSessionTimeoutTimer.tick
  split_ifs
  · rfl
  · rcases h with h | ⟨s, hs, hi⟩
    · simp only [h]
    · simp only [hs, hi, Bool.not_true, Bool.false_eq_true, if_false]

theorem LLSessionTimeoutTimer.tick_null (env : ViewerEnv) (st : IMState) :
    LLSessionTimeoutTimer.tick env st LLUUID.null = st := by
  have hn : LLUUID.null.isNull = true := by decide
  simp only [LLSessionTimeoutTimer.tick, hn, if_true]

/-- C10 (as amended): a session is created with a start round trip (group start
or conference start), which arms the timeout timer for its id; after any run
of operations that neither clears that id nor contains a session
initialization reply from or to that id (replies for other sessions may
occur), the session is still registered and uninitialized. When the id is not
null the tick of the timer then shows the session start error for it and
leaves it registered as it was; when the id is null the tick changes nothing
and shows no error although the session is still uninitialized. Conversely
the tick changes nothing and shows no error when no session is registered
under the id or the session is initialized, and the tick of a timer with the
null id never changes anything. -/
theorem timeout_surfaces_error (env envT : ViewerEnv) (st : IMState) (id : LLUUID)
    (name : String) (type : EInstantMessage) (other : LLUUID) (ids : List LLUUID)
    (voice offline : Bool) (ops : List (ViewerEnv × RegistryOp))
    (hcreated : (LLIMModel.newSession env st id name type other ids voice offline).1 = true)
    (hkind : type = IM_SESSION_GROUP_START ∨ type = IM_SESSION_CONFERENCE_START)
    (hops : ∀ p ∈ ops,
      (∀ old new, p.2 = RegistryOp.processSessionInitializedReply old new →
        old ≠ id ∧ new ≠ id) ∧
      p.2 ≠ RegistryOp.clearSession id) :
    (Event.sessionTimeoutTimer id SESSION_INITIALIZATION_TIMEOUT ∈
        (LLIMModel.newSession env st id name type other ids voice offline).2.events ∧
      ∃ s, LLIMModel.findIMSession
            (RegistryOp.run (LLIMModel.newSession env st id name type other ids voice offline).2
              ops) id = some s ∧
        s.mSessionInitialized = false ∧
        (id ≠ LLUUID.null →
          LLSessionTimeoutTimer.tick envT
              (RegistryOp.run
                (LLIMModel.newSession env st id name type other ids voice offline).2 ops) id =
            (RegistryOp.run (LLIMModel.newSession env st id name type other ids voice offline).2
                ops).emit
              [Event.sessionStartError "session_initialization_timed_out_error" id s.mName] ∧
          LLIMModel.findIMSession
            (LLSessionTimeoutTimer.tick envT
              (RegistryOp.run
                (LLIMModel.newSession env st id name type other ids voice offline).2 ops) id)
            id = some s) ∧
        (id = LLUUID.null →
          LLSessionTimeoutTimer.tick envT
              (RegistryOp.run
                (LLIMModel.newSession env st id name type other ids voice offline).2 ops) id =
            RegistryOp.run (LLIMModel.newSession env st id name type other ids voice offline).2
              ops)) ∧
      (∀ stT : IMState,
        (LLIMModel.findIMSession stT id = none ∨
          ∃ s, LLIMModel.findIMSession stT id = some s ∧ s.mSessionInitialized = true) →
        LLSessionTimeoutTimer.tick envT stT id = stT) ∧
      (∀ stT : IMState, LLSessionTimeoutTimer.tick envT stT LLUUID.null = stT) := by
  refine ⟨?_, fun stT h => LLSessionTimeoutTimer.tick_quiet envT stT id h,
    fun stT => LLSessionTimeoutTimer.tick_null envT stT⟩
  have hfail : ¬ (name = "" ∨ (LLIMModel.findIMSession st id).isSome = true) := by
    intro h
    rw [LLIMModel.newSession_fail env st id name type other ids voice offline h] at hcreated
    cases hcreated
  have hn : name ≠ "" := fun e => hfail (Or.inl e)
  have hnone : LLIMModel.findIMSession st id = none := by
    cases hfe : LLIMModel.findIMSession st id with
    | none => rfl
    | some s => exact absurd (Or.inr (by simp [hfe])) hfail
  have hround : (LLIMModel.sendStartSession env id other ids type).1 = true :=
    (LLIMModel.sendStartSession_true_iff env id other ids type).mpr hkind
  have hrec : (LLIMSession.create env id name type other ids voice offline).1.mSessionInitialized
      = false := by
    rw [LLIMSession.create_initialized]
    simp [hkind]
  have hfound : LLIMModel.findIMSession
      (LLIMModel.newSession env st id name type other ids voice offline).2 id =
      some (LLIMSession.create env id name type other ids voice offline).1 := by
    rw [LLIMModel.newSession_ok env st id name type other ids voice offline hn hnone]
    simp only [LLIMModel.findIMSession, IdMap.find_set_self]
  constructor
  · have hmem : Event.sessionTimeoutTimer id SESSION_INITIALIZATION_TIMEOUT ∈
        (LLIMSession.create env id name type other ids voice offline).2 := by
      simp only [LLIMSession.create, hround, if_true]
      simp
    rw [LLIMModel.newSession_ok env st id name type other ids voice offline hn hnone]
    exact List.mem_append_left _ (List.mem_append_right _ hmem)
  · obtain ⟨s, h1, h2⟩ := RegistryOp.run_keeps_uninitialized ops _ id _ hfound hops
    rw [hrec] at h2
    refine ⟨s, h1, h2, fun hnull => ?_, fun hnull => ?_⟩
    · have htick := LLSessionTimeoutTimer.tick_uninitialized envT _ id s hnull h1 h2
      refine ⟨htick, ?_⟩
      rw [htick]
      exact h1
    · rw [hnull]
      exact LLSessionTimeoutTimer.tick_null envT _

theorem timeout_surfaces_error_witness :
    (LLIMModel.newSession exampleEnv emptyState confId "Conference" IM_SESSION_CONFERENCE_START
        (LLUUID.ofNat 1) [LLUUID.ofNat 1, LLUUID.ofNat 2] false false).1 = true ∧
      confId ≠ LLUUID.null ∧
      (LLSessionTimeoutTimer.tick exampleEnv
        (RegistryOp.run (conferenceState [LLUUID.ofNat 1, LLUUID.ofNat 2])
          [(exampleEnv, RegistryOp.addMessage confId "Alice" aliceId "hi" true false false),
            (exampleEnv, RegistryOp.processSessionInitializedReply idX serverConfId)])
        confId).events.getLast? =
        some (Event.sessionStartError "session_initialization_timed_out_error" confId
          "Conference") := by
  obtain ⟨⟨_, s, h1, _, h3, _⟩, _⟩ :=
    timeout_surfaces_error exampleEnv exampleEnv emptyState confId "Conference"
      IM_SESSION_CONFERENCE_START (LLUUID.ofNat 1) [LLUUID.ofNat 1, LLUUID.ofNat 2] false false
      [(exampleEnv, RegistryOp.addMessage confId "Alice" aliceId "hi" true false false),
        (exampleEnv, RegistryOp.processSessionInitializedReply idX serverConfId)]
      (by decide) (Or.inr rfl)
      (by
        intro p hp
        simp only [List.mem_cons, List.mem_singleton, List.not_mem_nil, or_false] at hp
        rcases hp with hp | hp
        · subst hp
          exact ⟨fun old new h => (by cases h), by decide⟩
        · subst hp
          refine ⟨fun old new h => ?_, by decide⟩
          cases h
          exact ⟨by decide, by decide⟩)
  refine ⟨by decide, by decide, ?_⟩
  have hname : s.mName = "Conference" := by
    have h2 : LLIMModel.findIMSession
        (RegistryOp.run (conferenceState [LLUUID.ofNat 1, LLUUID.ofNat 2])
          [(exampleEnv, RegistryOp.addMessage confId "Alice" aliceId "hi" true false false),
            (exampleEnv, RegistryOp.processSessionInitializedReply idX serverConfId)])
        confId = some s := h1
    have h4 : (LLIMModel.findIMSession
        (RegistryOp.run (conferenceState [LLUUID.ofNat 1, LLUUID.ofNat 2])
          [(exampleEnv, RegistryOp.addMessage confId "Alice" aliceId "hi" true false false),
            (exampleEnv, RegistryOp.processSessionInitializedReply idX serverConfId)])
        confId).map (fun r => r.mName) = some "Conference" := by decide
    rw [h2] at h4
    simpa using h4
  have h5 : LLSessionTimeoutTimer.tick exampleEnv
      (RegistryOp.run (conferenceState [LLUUID.ofNat 1, LLUUID.ofNat 2])
        [(exampleEnv, RegistryOp.addMessage confId "Alice" aliceId "hi" true false false),
          (exampleEnv, RegistryOp.processSessionInitializedReply idX serverConfId)])
      confId = _ := (h3 (by decide)).1
  rw [h5, hname]
  simp [IMState.emit]

/-- C10 (counterexample to the claim as stated): a group start session created
under the null id needs a start round trip, is uninitialized, and has its
timeout timer armed for the null id; the tick of that timer leaves the trace
as it was, so no session start error is shown for the session. -/
theorem timeout_null_id_counterexample :
    (LLIMModel.newSession exampleEnv emptyState LLUUID.null "Everyone" IM_SESSION_GROUP_START
        LLUUID.null [LLUUID.null] false false).1 = true ∧
      (LLIMModel.sendStartSession exampleEnv LLUUID.null LLUUID.null [LLUUID.null]
        IM_SESSION_GROUP_START).1 = true ∧
      (LLIMModel.findIMSession nullGroupState LLUUID.null).map
        (fun s => s.mSessionInitialized) = some false ∧
      Event.sessionTimeoutTimer LLUUID.null SESSION_INITIALIZATION_TIMEOUT ∈
        nullGroupState.events ∧
      LLSessionTimeoutTimer.tick exampleEnv nullGroupState LLUUID.null = nullGroupState := by
  refine ⟨by decide, by decide, by decide, by decide, by decide⟩

/-! ### Leaving a session -/

theorem IdMap.erase_of_find_none {α : Type} (m : IdMap α) (k : LLUUID)
    (h : IdMap.find m k = none) : IdMap.erase m k = m := by
  induction m with
  | nil => rfl
  | cons e rest ih =>
    obtain ⟨k0, v0⟩ := e
    simp only [IdMap.find] at h
    split_ifs at h with hk
    simp only [IdMap.erase, hk, if_false, ih h]

theorem LLIMMgr.clearPendingInvitation_eq (st : MgrState) (id : LLUUID) :
    LLIMMgr.clearPendingInvitation st id =
      { st with mPendingInvitations := IdMap.erase st.mPendingInvitations id } := by
  unfold LLIMMgr.clearPendingInvitation
  split_ifs with h
  · rfl
  · have hn : IdMap.find st.mPendingInvitations id = none := by
      cases hf : IdMap.find st.mPendingInvitations id with
      | none => rfl
      | some v => simp [hf] at h
    rw [IdMap.erase_of_find_none _ _ hn]

theorem LLIMMgr.clearPendingAgentListUpdates_eq (st : MgrState) (id : LLUUID) :
    LLIMMgr.clearPendingAgentListUpdates st id =
      { st with mPendingAgentListUpdates := IdMap.erase st.mPendingAgentListUpdates id } := by
  unfold LLIMMgr.clearPendingAgentListUpdates
  split_ifs with h
  · rfl
  · have hn : IdMap.find st.mPendingAgentListUpdates id = none := by
      cases hf : IdMap.find st.mPendingAgentListUpdates id with
      | none => rfl
      | some v => simp [hf] at h
    rw [IdMap.erase_of_find_none _ _ hn]

theorem LLIMMgr.removeSession_found (st : MgrState) (id : LLUUID) (s : LLIMSession)
    (h : LLIMModel.findIMSession st.im id = some s) :
    LLIMMgr.removeSession st id =
      some
        { im :=
            { mId2SessionMap := IdMap.erase st.im.mId2SessionMap id
              mSessionObservers := st.im.mSessionObservers
              events := st.im.events ++
                st.im.mSessionObservers.map (fun o => Event.sessionRemoved o id) }
          mSnoozedSessions := st.mSnoozedSessions
          mPendingInvitations := IdMap.erase st.mPendingInvitations id
          mPendingAgentListUpdates := IdMap.erase st.mPendingAgentListUpdates id } := by
  have hfind : IdMap.find st.im.mId2SessionMap id = some s := h
  unfold LLIMMgr.removeSession
  simp only [LLIMMgr.hasSession, h, Option.isSome_some, Bool.not_true, Bool.false_eq_true,
    if_false, LLIMMgr.clearPendingInvitation_eq, LLIMMgr.clearPendingAgentListUpdates_eq,
    LLIMModel.clearSession, hfind, Option.isNone_some, LLIMMgr.notifyObserverSessionRemoved,
    IMState.emit]

theorem LLIMMgr.removeSession_none (st : MgrState) (id : LLUUID)
    (h : LLIMModel.findIMSession st.im id = none) :
    LLIMMgr.removeSession st id = none := by
  unfold LLIMMgr.removeSession
  simp [LLIMMgr.hasSession, h]

theorem LLIMMgr.leaveSession_none (st : MgrState) (id : LLUUID)
    (h : LLIMModel.findIMSession st.im id = none) :
    LLIMMgr.leaveSession st id = (false, st) := by
  unfold LLIMMgr.leaveSession
  simp only [h]

theorem LLIMMgr.leaveSession_found (st : MgrState) (id : LLUUID) (s : LLIMSession)
    (h : LLIMModel.findIMSession st.im id = some s) :
    LLIMMgr.leaveSession st id =
      (true,
        { im :=
            { mId2SessionMap := IdMap.erase st.im.mId2SessionMap id
              mSessionObservers := st.im.mSessionObservers
              events := st.im.events ++
                (if (s.isGroupSessionType &&
                    decide (SCloseAction.CLOSE_SNOOZE = s.mCloseAction)) = true then []
                 else LLIMModel.sendLeaveSession id s.mOtherParticipantID) ++
                st.im.mSessionObservers.map (fun o => Event.sessionRemoved o id) }
          mSnoozedSessions :=
            if (s.isGroupSessionType &&
                decide (SCloseAction.CLOSE_SNOOZE = s.mCloseAction)) = true then
              IdMap.set st.mSnoozedSessions id s.mParticipantLastMessageTime
            else st.mSnoozedSessions
          mPendingInvitations := IdMap.erase st.mPendingInvitations id
          mPendingAgentListUpdates := IdMap.erase st.mPendingAgentListUpdates id }) := by
  unfold LLIMMgr.leaveSession
  simp only [h]
  by_cases hc : (s.isGroupSessionType &&
      decide (SCloseAction.CLOSE_SNOOZE = s.mCloseAction)) = true
  · simp only [hc, if_true]
    rw [LLIMMgr.removeSession_found
      { st with mSnoozedSessions :=
          IdMap.set st.mSnoozedSessions id s.mParticipantLastMessageTime } id s h]
    simp
  · simp only [hc, Bool.false_eq_true, if_false]
    rw [LLIMMgr.removeSession_found
      (st.emit (LLIMModel.sendLeaveSession id s.mOtherParticipantID)) id s h]
    simp [MgrState.emit, IMState.emit]

/-- C11: `LLIMMgr::leaveSession` returns false exactly when no session is
registered under the id, and then the whole state (registry, snooze table,
pending buffers, trace) is the one before the call; when it returns true the
id is no longer found, every other id is found as before, and the trace of the
call ends with `sessionRemoved(id)` delivered to each observer in registration
order. -/
theorem leaveSession_result (st : MgrState) (id : LLUUID) :
    ((LLIMMgr.leaveSession st id).1 = false ↔ LLIMModel.findIMSession st.im id = none) ∧
      ((LLIMMgr.leaveSession st id).1 = false → (LLIMMgr.leaveSession st id).2 = st) ∧
      ((LLIMMgr.leaveSession st id).1 = true →
        LLIMModel.findIMSession (LLIMMgr.leaveSession st id).2.im id = none ∧
        (∀ j, j ≠ id →
          LLIMModel.findIMSession (LLIMMgr.leaveSession st id).2.im j =
            LLIMModel.findIMSession st.im j) ∧
        ∃ sent, (LLIMMgr.leaveSession st id).2.im.events =
          st.im.events ++ sent ++
            st.im.mSessionObservers.map (fun o => Event.sessionRemoved o id)) := by
  cases h : LLIMModel.findIMSession st.im id with
  | none =>
    rw [LLIMMgr.leaveSession_none st id h]
    simp
  | some s =>
    rw [LLIMMgr.leaveSession_found st id s h]
    refine ⟨by simp, by simp, fun _ => ⟨?_, ?_, ⟨_, rfl⟩⟩⟩
    · simp only [LLIMModel.findIMSession, IdMap.find_erase_self]
    · intro j hj
      simp only [LLIMModel.findIMSession, IdMap.find_erase_ne _ _ _ hj]

theorem leaveSession_result_witness :
    (LLIMMgr.leaveSession groupState groupId).1 = true ∧
      LLIMModel.findIMSession (LLIMMgr.leaveSession groupState groupId).2.im groupId = none ∧
      (LLIMMgr.leaveSession groupState aliceId).1 = false := by
  have h := leaveSession_result groupState groupId
  have h2 := leaveSession_result groupState aliceId
  have ht : (LLIMMgr.leaveSession groupState groupId).1 = true := by decide
  exact ⟨ht, (h.2.2 ht).1, h2.1.mpr (by decide)⟩

/-- C12 (as amended): for a group session whose close action is snooze,
`leaveSession` stores the time of the last participant message of the session
(`mParticipantLastMessageTime`, not the time of the call) under the session id
in the snooze table, leaves the other entries alone and sends no leave
message; for every other session it leaves the snooze table unchanged and
sends exactly one leave message when the session id is not null and none when
it is null. In both cases the removal notifications follow. -/
theorem leaveSession_snooze_or_leave (st : MgrState) (id : LLUUID) (s : LLIMSession)
    (h : LLIMModel.findIMSession st.im id = some s) :
    ((s.isGroupSessionType = true ∧ s.mCloseAction = SCloseAction.CLOSE_SNOOZE) →
        IdMap.find (LLIMMgr.leaveSession st id).2.mSnoozedSessions id =
          some s.mParticipantLastMessageTime ∧
        (∀ j, j ≠ id →
          IdMap.find (LLIMMgr.leaveSession st id).2.mSnoozedSessions j =
            IdMap.find st.mSnoozedSessions j) ∧
        (LLIMMgr.leaveSession st id).2.im.events =
          st.im.events ++ st.im.mSessionObservers.map (fun o => Event.sessionRemoved o id)) ∧
      (¬ (s.isGroupSessionType = true ∧ s.mCloseAction = SCloseAction.CLOSE_SNOOZE) →
        (LLIMMgr.leaveSession st id).2.mSnoozedSessions = st.mSnoozedSessions ∧
        (LLIMMgr.leaveSession st id).2.im.events =
          st.im.events ++
            (if id = LLUUID.null then []
             else [Event.leaveSessionMessage id s.mOtherParticipantID]) ++
            st.im.mSessionObservers.map (fun o => Event.sessionRemoved o id)) := by
  rw [LLIMMgr.leaveSession_found st id s h]
  constructor
  · rintro ⟨hg, hc⟩
    have hcond : (s.isGroupSessionType &&
        decide (SCloseAction.CLOSE_SNOOZE = s.mCloseAction)) = true := by simp [hg, hc]
    simp only [hcond, if_true, List.append_nil]
    exact ⟨IdMap.find_set_self _ _ _, fun j hj => IdMap.find_set_ne _ _ _ _ hj, trivial⟩
  · intro hn
    have hcond : ¬ (s.isGroupSessionType &&
        decide (SCloseAction.CLOSE_SNOOZE = s.mCloseAction)) = true := by
      intro hc
      simp only [Bool.and_eq_true, decide_eq_true_eq] at hc
      exact hn ⟨hc.1, hc.2.symm⟩
    simp only [hcond, if_false, true_and]
    by_cases hid : id = LLUUID.null
    · simp [LLIMModel.sendLeaveSession, LLUUID.notNull, LLUUID.isNull, hid]
    · simp [LLIMModel.sendLeaveSession, LLUUID.notNull, LLUUID.isNull, hid]

theorem leaveSession_snooze_or_leave_witness :
    IdMap.find (LLIMMgr.leaveSession snoozeGroupState groupId).2.mSnoozedSessions groupId =
        some 100 ∧
      (LLIMMgr.leaveSession groupState groupId).2.im.events =
        groupState.im.events ++
          [Event.leaveSessionMessage groupId groupId, Event.sessionRemoved 1 groupId] := by
  have hs : LLIMModel.findIMSession snoozeGroupState.im groupId =
      some { groupRecord with mCloseAction := SCloseAction.CLOSE_SNOOZE } := by decide
  have hg : LLIMModel.findIMSession groupState.im groupId = some groupRecord := by decide
  refine ⟨?_, ?_⟩
  · rw [((leaveSession_snooze_or_leave snoozeGroupState groupId _ hs).1
      ⟨by decide, by decide⟩).1]
    decide
  · rw [((leaveSession_snooze_or_leave groupState groupId _ hg).2 (by decide)).2]
    decide

/-- C12 (counterexample to the claim as stated): the group session was created
at time 100 and is configured to snooze; it is left at a time when both clocks
read 5000, and the snooze table then holds 100 for it, not the time of the
call. And the ad-hoc session registered under the null id is left without any
leave message: the trace only gains the removal notification. -/
theorem leaveSession_snooze_time_counterexample :
    (laterMgrEnv.now = 5000 ∧ laterMgrEnv.totalSeconds = 5000 ∧
      ((MgrOp.leaveSession groupId).apply laterMgrEnv snoozeGroupState).map
          (fun st => IdMap.find st.mSnoozedSessions groupId) = some (some 100)) ∧
    ((LLIMModel.findIMSession nullGroupState LLUUID.null).map
          (fun s => (s.isGroupSessionType, s.mCloseAction)) =
        some (false, SCloseAction.CLOSE_DEFAULT) ∧
      (LLIMMgr.leaveSession (MgrState.ofIM nullGroupState) LLUUID.null).1 = true ∧
      (LLIMMgr.leaveSession (MgrState.ofIM nullGroupState) LLUUID.null).2.im.events =
        nullGroupState.events ++ [Event.sessionRemoved 1 LLUUID.null]) := by
  refine ⟨⟨by decide, by decide, by decide⟩, by decide, by decide, by decide⟩

/-! ### Message ingestion -/

theorem LLIMMgr.addMessage_existing (env : MgrEnv) (st : MgrState) (session_id target : LLUUID)
    (from_name msg : String) (offline : Bool) (session_name : String) (dialog : EInstantMessage)
    (estate : Nat) (ann kw : Bool) (s : LLIMSession)
    (hs : LLIMModel.findIMSession st.im (LLIMMgr.resolveSessionID env session_id dialog target)
      = some s) :
    LLIMMgr.addMessage env st session_id target from_name msg offline session_name dialog estate
        ann kw =
      some (LLIMMgr.addMessageTail env
        (st.emit (LLIMMgr.existingSessionSound env session_id dialog
          (if dialog ≠ IM_NOTHING_SPECIAL then
            env.isInGroup (LLIMMgr.resolveSessionID env session_id dialog target)
           else false)))
        (LLIMMgr.resolveSessionID env session_id dialog target) from_name target msg offline ann
        kw
        (LLIMMgr.skipNonFriend env (LLIMMgr.resolveSessionID env session_id dialog target)
          from_name dialog target)) := by
  unfold LLIMMgr.addMessage
  simp only [LLIMMgr.hasSession, hs, Option.isSome_some, Bool.not_true, Bool.false_eq_true,
    if_false]

theorem LLIMMgr.addMessageTail_dropped (env : MgrEnv) (st : MgrState) (sid : LLUUID)
    (from_name : String) (target : LLUUID) (msg : String) (offline ann kw skip : Bool)
    (h : env.isMutedTextChat target = true ∨ skip = true) :
    (LLIMMgr.addMessageTail env st sid from_name target msg offline ann kw skip).im.mId2SessionMap
      = st.im.mId2SessionMap := by
  unfold LLIMMgr.addMessageTail
  have hc : (!env.isMutedTextChat target && !skip) = false := by
    rcases h with h | h <;> simp [h]
  simp only [hc, Bool.false_eq_true, if_false]
  split_ifs <;> rfl

theorem LLIMMgr.addMessageTail_appended (env : MgrEnv) (st : MgrState) (sid : LLUUID)
    (from_name : String) (target : LLUUID) (msg : String) (offline ann kw : Bool)
    (s : LLIMSession) (hs : LLIMModel.findIMSession st.im sid = some s)
    (hm : env.isMutedTextChat target = false) :
    ∃ s1, LLIMModel.findIMSession
          (LLIMMgr.addMessageTail env st sid from_name target msg offline ann kw false).im sid =
        some s1 ∧ s1.mMsgs.length = s.mMsgs.length + 1 ∧
        s1.mNumUnread = toS32 (s.mNumUnread + 1) := by
  obtain ⟨_, h2, _⟩ := LLIMModel.addMessage_found env.toViewerEnv st.im sid s from_name target
    msg true ann kw hs
  obtain ⟨h1, _, _⟩ := LLIMModel.addMessageSilently_found env.toViewerEnv st.im sid s from_name
    target msg true ann hs
  obtain ⟨r, hr, hlen, hun⟩ : ∃ r,
      (LLIMModel.addMessageSilently env.toViewerEnv st.im sid from_name target msg true ann).1 =
        some r ∧ r.mMsgs.length = s.mMsgs.length + 1 ∧
          r.mNumUnread = toS32 (s.mNumUnread + 1) :=
    ⟨_, h1, by simp, rfl⟩
  rw [hr] at h2
  unfold LLIMMgr.addMessageTail
  simp only [hm, Bool.not_false, Bool.and_self, if_true]
  refine ⟨r, ?_, hlen, hun⟩
  split_ifs
  · exact h2
  · exact h2

/-- C18 (as amended): for an existing session, `LLIMMgr::addMessage` from a
sender that is muted for text chat leaves the registry as it was (buffer
length and unread counters of the session unchanged); from a sender that is
not muted it appends one entry to the buffer of the session when the
restrict-to-friends filter does not skip the message, and leaves the registry
as it was when that filter skips it. -/
theorem addMessage_mute_filter (env : MgrEnv) (st : MgrState) (session_id target : LLUUID)
    (from_name msg : String) (offline : Bool) (session_name : String) (dialog : EInstantMessage)
    (estate : Nat) (ann kw : Bool) (s : LLIMSession)
    (hs : LLIMModel.findIMSession st.im (LLIMMgr.resolveSessionID env session_id dialog target)
      = some s) :
    (env.isMutedTextChat target = true →
        ∃ st1, LLIMMgr.addMessage env st session_id target from_name msg offline session_name
            dialog estate ann kw = some st1 ∧
          st1.im.mId2SessionMap = st.im.mId2SessionMap) ∧
      (env.isMutedTextChat target = false →
        LLIMMgr.skipNonFriend env (LLIMMgr.resolveSessionID env session_id dialog target)
          from_name dialog target = false →
        ∃ st1 s1, LLIMMgr.addMessage env st session_id target from_name msg offline session_name
            dialog estate ann kw = some st1 ∧
          LLIMModel.findIMSession st1.im
            (LLIMMgr.resolveSessionID env session_id dialog target) = some s1 ∧
          s1.mMsgs.length = s.mMsgs.length + 1) ∧
      (env.isMutedTextChat target = false →
        LLIMMgr.skipNonFriend env (LLIMMgr.resolveSessionID env session_id dialog target)
          from_name dialog target = true →
        ∃ st1, LLIMMgr.addMessage env st session_id target from_name msg offline session_name
            dialog estate ann kw = some st1 ∧
          st1.im.mId2SessionMap = st.im.mId2SessionMap) := by
  rw [LLIMMgr.addMessage_existing env st session_id target from_name msg offline session_name
    dialog estate ann kw s hs]
  refine ⟨fun hm => ⟨_, rfl, ?_⟩, fun hm hskip => ?_, fun hm hskip => ⟨_, rfl, ?_⟩⟩
  · rw [LLIMMgr.addMessageTail_dropped _ _ _ _ _ _ _ _ _ _ (Or.inl hm)]
    rfl
  · rw [hskip]
    obtain ⟨s1, h1, h2, _⟩ := LLIMMgr.addMessageTail_appended env
      (st.emit (LLIMMgr.existingSessionSound env session_id dialog
        (if dialog ≠ IM_NOTHING_SPECIAL then
          env.isInGroup (LLIMMgr.resolveSessionID env session_id dialog target)
         else false)))
      (LLIMMgr.resolveSessionID env session_id dialog target) from_name target msg offline ann kw
      s hs hm
    exact ⟨_, s1, rfl, h1, h2⟩
  · rw [LLIMMgr.addMessageTail_dropped _ _ _ _ _ _ _ _ _ _ (Or.inr hskip)]
    rfl

theorem addMessage_mute_filter_witness :
    bufferLength
        (LLIMMgr.addMessage mutedMgrEnv groupState groupId malloryId "Mallory" "psst" false
          "Group" IM_SESSION_INVITE 1 false false) groupId = some (some 0) ∧
      (∃ st1 s1, LLIMMgr.addMessage mutedMgrEnv groupState groupId aliceId "Alice" "hi" false
            "Group" IM_SESSION_INVITE 1 false false = some st1 ∧
        LLIMModel.findIMSession st1.im groupId = some s1 ∧ s1.mMsgs.length = 1) := by
  have hs : LLIMModel.findIMSession groupState.im
      (LLIMMgr.resolveSessionID mutedMgrEnv groupId IM_SESSION_INVITE malloryId) =
      some groupRecord := by decide
  have hs2 : LLIMModel.findIMSession groupState.im
      (LLIMMgr.resolveSessionID mutedMgrEnv groupId IM_SESSION_INVITE aliceId) =
      some groupRecord := by decide
  obtain ⟨st1, h1, h2⟩ := (addMessage_mute_filter mutedMgrEnv groupState groupId malloryId
    "Mallory" "psst" false "Group" IM_SESSION_INVITE 1 false false groupRecord hs).1 (by decide)
  obtain ⟨st2, s2, h3, h4, h5⟩ := (addMessage_mute_filter mutedMgrEnv groupState groupId aliceId
    "Alice" "hi" false "Group" IM_SESSION_INVITE 1 false false groupRecord hs2).2.1 (by decide)
    (by decide)
  refine ⟨?_, st2, s2, h3, ?_, ?_⟩
  · rw [h1]
    simp only [bufferLength, Option.map_some', LLIMModel.findIMSession, h2]
    decide
  · have e : LLIMMgr.resolveSessionID mutedMgrEnv groupId IM_SESSION_INVITE aliceId = groupId := by
      decide
    rw [e] at h4
    exact h4
  · rw [h5]; decide

/-- C18 (counterexample to the claim as stated): with the restrict-to-friends
filter on, a P2P message from Alice, who is not muted and not a friend, into
the existing session with her does not change the length of its buffer. -/
theorem addMessage_not_muted_counterexample :
    friendsOnlyMgrEnv.isMutedTextChat aliceId = false ∧
      bufferLength (some (MgrState.ofIM aliceState)) idX = some (some 0) ∧
      bufferLength
        (LLIMMgr.addMessage friendsOnlyMgrEnv (MgrState.ofIM aliceState) idX aliceId "Alice" "hi"
          false "" IM_NOTHING_SPECIAL 1 false false) idX = some (some 0) := by
  refine ⟨by decide, by decide, by decide⟩

theorem LLIMMgr.skipNonFriend_group (env : MgrEnv) (sid : LLUUID) (from_name : String)
    (dialog : EInstantMessage) (target : LLUUID) (hd : dialog ≠ IM_NOTHING_SPECIAL)
    (hg : env.isInGroup sid = true) :
    LLIMMgr.skipNonFriend env sid from_name dialog target = false := by
  simp [LLIMMgr.skipNonFriend, hd, hg]

theorem LLIMMgr.skipNonFriend_default (env : MgrEnv) (sid : LLUUID) (from_name : String)
    (target : LLUUID) (hf : env.VoiceCallsFriendsOnly = true)
    (hl : env.isLinden from_name = false) (hb : env.isBuddy target = false)
    (ha : target ≠ env.gAgentID) :
    LLIMMgr.skipNonFriend env sid from_name IM_NOTHING_SPECIAL target = true := by
  simp [LLIMMgr.skipNonFriend, hf, hl, hb, ha]

theorem LLIMMgr.addMessage_new_group (env : MgrEnv) (st : MgrState) (session_id target : LLUUID)
    (from_name msg : String) (offline : Bool) (session_name : String) (dialog : EInstantMessage)
    (estate : Nat) (ann kw : Bool)
    (hnew : LLIMModel.findIMSession st.im
      (LLIMMgr.resolveSessionID env session_id dialog target) = none)
    (hd : dialog ≠ IM_NOTHING_SPECIAL)
    (hg : env.isInGroup (LLIMMgr.resolveSessionID env session_id dialog target) = true)
    (hgm : env.isGroupMuted (LLIMMgr.resolveSessionID env session_id dialog target) = false)
    (hmu : env.isMuted target = false) (hmt : env.isMutedTextChat target = false)
    (hgod : env.isGodlike = false)
    (hname : session_name ≠ "") (hsize : session_name.utf8ByteSize > 1) :
    ∃ st1 s1, LLIMMgr.addMessage env st session_id target from_name msg offline session_name
        dialog estate ann kw = some st1 ∧
      LLIMModel.findIMSession st1.im (LLIMMgr.resolveSessionID env session_id dialog target) =
        some s1 ∧
      s1.mMsgs.length =
        (LLIMSession.create env.toViewerEnv
          (LLIMMgr.resolveSessionID env session_id dialog target) session_name dialog target
          [target] false offline).1.mMsgs.length + 1 := by
  have hskip := LLIMMgr.skipNonFriend_group env
    (LLIMMgr.resolveSessionID env session_id dialog target) from_name dialog target hd hg
  have hcreated : LLIMModel.findIMSession
      (LLIMModel.newSessionP2P env.toViewerEnv st.im
        (LLIMMgr.resolveSessionID env session_id dialog target) session_name dialog target false
        offline).2 (LLIMMgr.resolveSessionID env session_id dialog target) =
      some (LLIMSession.create env.toViewerEnv
        (LLIMMgr.resolveSessionID env session_id dialog target) session_name dialog target
        [target] false offline).1 := by
    rw [LLIMModel.newSessionP2P, LLIMModel.newSession_ok _ _ _ _ _ _ _ _ _ hname hnew]
    simp only [LLIMModel.findIMSession, IdMap.find_set_self]
  obtain ⟨s1, h1, h2, _⟩ := LLIMMgr.addMessageTail_appended env
    (({ im := (LLIMModel.newSessionP2P env.toViewerEnv st.im
          (LLIMMgr.resolveSessionID env session_id dialog target) session_name dialog target
          false offline).2,
        mSnoozedSessions := st.mSnoozedSessions, mPendingInvitations := st.mPendingInvitations,
        mPendingAgentListUpdates := st.mPendingAgentListUpdates } : MgrState).emit
      (LLIMMgr.newSessionSound env dialog true))
    (LLIMMgr.resolveSessionID env session_id dialog target) from_name target msg offline ann kw
    _ hcreated hmt
  cases hav : env.avatarDisplayName target <;>
    simp only [LLIMMgr.addMessage, hav, LLIMMgr.hasSession, hnew, Option.isSome_none, Bool.not_false, if_true, hgm,
      Bool.false_eq_true, if_false, hmu, Bool.and_false, Bool.false_and, hskip, hgod, hd, hg,
      ne_eq, not_false_eq_true, decide_True, Bool.not_true, Bool.true_and, Bool.and_true,
      hname, hsize, hcreated] <;>
    exact ⟨_, s1, rfl, h1, h2⟩

/-- C19 (as amended): the restrict-to-friends filter of `LLIMMgr::addMessage`
is keyed on the dialog kind of the message, not on the kind of its session. It
never marks a message whose dialog is not `IM_NOTHING_SPECIAL` and whose
session id is one of the groups of the agent: such a message from a sender
that is not muted for text chat is appended to the buffer of the session when
the session exists, and also when the call creates it (the group chat not
muted, the sender not muted, the agent not godlike, and a session name of more
than one byte given). A message with dialog `IM_NOTHING_SPECIAL`, the default
dialog that system messages use, from a sender that is not a Linden, not a
friend and not the agent, is dropped when the filter is on, whatever the kind
of its existing session is. -/
theorem addMessage_friends_filter_by_dialog (env : MgrEnv) (st : MgrState)
    (session_id target : LLUUID) (from_name msg : String) (offline : Bool)
    (session_name : String) (dialog : EInstantMessage) (estate : Nat) (ann kw : Bool)
    (hmt : env.isMutedTextChat target = false) :
    (dialog ≠ IM_NOTHING_SPECIAL →
        env.isInGroup (LLIMMgr.resolveSessionID env session_id dialog target) = true →
        LLIMMgr.skipNonFriend env (LLIMMgr.resolveSessionID env session_id dialog target)
          from_name dialog target = false) ∧
      (∀ s, LLIMModel.findIMSession st.im
            (LLIMMgr.resolveSessionID env session_id dialog target) = some s →
        dialog ≠ IM_NOTHING_SPECIAL →
        env.isInGroup (LLIMMgr.resolveSessionID env session_id dialog target) = true →
        ∃ st1 s1, LLIMMgr.addMessage env st session_id target from_name msg offline session_name
            dialog estate ann kw = some st1 ∧
          LLIMModel.findIMSession st1.im
            (LLIMMgr.resolveSessionID env session_id dialog target) = some s1 ∧
          s1.mMsgs.length = s.mMsgs.length + 1) ∧
      (LLIMModel.findIMSession st.im
            (LLIMMgr.resolveSessionID env session_id dialog target) = none →
        dialog ≠ IM_NOTHING_SPECIAL →
        env.isInGroup (LLIMMgr.resolveSessionID env session_id dialog target) = true →
        env.isGroupMuted (LLIMMgr.resolveSessionID env session_id dialog target) = false →
        env.isMuted target = false → env.isGodlike = false →
        session_name ≠ "" → session_name.utf8ByteSize > 1 →
        ∃ st1 s1, LLIMMgr.addMessage env st session_id target from_name msg offline session_name
            dialog estate ann kw = some st1 ∧
          LLIMModel.findIMSession st1.im
            (LLIMMgr.resolveSessionID env session_id dialog target) = some s1 ∧
          s1.mMsgs.length =
            (LLIMSession.create env.toViewerEnv
              (LLIMMgr.resolveSessionID env session_id dialog target) session_name dialog target
              [target] false offline).1.mMsgs.length + 1) ∧
      (∀ s, LLIMModel.findIMSession st.im
            (LLIMMgr.resolveSessionID env session_id dialog target) = some s →
        dialog = IM_NOTHING_SPECIAL → env.VoiceCallsFriendsOnly = true →
        env.isLinden from_name = false → env.isBuddy target = false →
        target ≠ env.gAgentID →
        ∃ st1, LLIMMgr.addMessage env st session_id target from_name msg offline session_name
            dialog estate ann kw = some st1 ∧
          st1.im.mId2SessionMap = st.im.mId2SessionMap) := by
  refine ⟨fun hd hg => LLIMMgr.skipNonFriend_group env _ from_name dialog target hd hg,
    fun s hs hd hg => ?_,
    fun hnew hd hg hgm hmu hgod hname hsize =>
      LLIMMgr.addMessage_new_group env st session_id target from_name msg offline session_name
        dialog estate ann kw hnew hd hg hgm hmu hmt hgod hname hsize,
    fun s hs hd hf hl hb ha => ?_⟩
  · rw [LLIMMgr.addMessage_existing env st session_id target from_name msg offline session_name
      dialog estate ann kw s hs,
      LLIMMgr.skipNonFriend_group env _ from_name dialog target hd hg]
    obtain ⟨s1, h1, h2, _⟩ := LLIMMgr.addMessageTail_appended env
      (st.emit (LLIMMgr.existingSessionSound env session_id dialog
        (if dialog ≠ IM_NOTHING_SPECIAL then
          env.isInGroup (LLIMMgr.resolveSessionID env session_id dialog target)
         else false)))
      (LLIMMgr.resolveSessionID env session_id dialog target) from_name target msg offline ann kw
      s hs hmt
    exact ⟨_, s1, rfl, h1, h2⟩
  · rw [LLIMMgr.addMessage_existing env st session_id target from_name msg offline session_name
      dialog estate ann kw s hs]
    refine ⟨_, rfl, ?_⟩
    rw [LLIMMgr.addMessageTail_dropped _ _ _ _ _ _ _ _ _ _ (Or.inr (by
      rw [hd]
      exact LLIMMgr.skipNonFriend_default env _ from_name target hf hl hb ha))]
    rfl

theorem addMessage_friends_filter_by_dialog_witness :
    friendsOnlyMgrEnv.isMutedTextChat aliceId = false ∧
      friendsOnlyMgrEnv.VoiceCallsFriendsOnly = true ∧
      friendsOnlyMgrEnv.isBuddy aliceId = false ∧
      (LLIMModel.findIMSession groupState.im groupId).map (fun s => s.mMsgs.length) = some 0 ∧
      ∃ st1 s1, LLIMMgr.addMessage friendsOnlyMgrEnv groupState groupId aliceId "Alice" "hi"
          false "Group" IM_SESSION_INVITE 1 false false = some st1 ∧
        LLIMModel.findIMSession st1.im groupId = some s1 ∧ s1.mMsgs.length = 1 := by
  have hs : LLIMModel.findIMSession groupState.im
      (LLIMMgr.resolveSessionID friendsOnlyMgrEnv groupId IM_SESSION_INVITE aliceId) =
      some groupRecord := by decide
  obtain ⟨st1, s1, h1, h2, h3⟩ := (addMessage_friends_filter_by_dialog friendsOnlyMgrEnv
    groupState groupId aliceId "Alice" "hi" false "Group" IM_SESSION_INVITE 1 false false
    (by decide)).2.1 groupRecord hs (by decide) (by decide)
  refine ⟨by decide, by decide, by decide, by decide, st1, s1, h1, ?_, ?_⟩
  · have e : LLIMMgr.resolveSessionID friendsOnlyMgrEnv groupId IM_SESSION_INVITE aliceId =
        groupId := by decide
    rw [e] at h2
    exact h2
  · rw [h3]; decide

/-- C19 (counterexample to the claim as stated): the restrict-to-friends filter
is on and the group session exists with an empty buffer. The system message
that `LLIMMgr::addSystemMessage` adds to the session (sender id null, sender
name the system sender, default dialog `IM_NOTHING_SPECIAL`; the null id is
not muted for text chat) is dropped by the filter: the buffer keeps its length
0. With the filter off the same call appends the message. -/
theorem addSystemMessage_group_counterexample :
    (LLIMModel.findIMSession groupState.im groupId).map (fun s => s.isGroupSessionType) =
        some true ∧
      friendsOnlyMgrEnv.VoiceCallsFriendsOnly = true ∧
      friendsOnlyMgrEnv.isMutedTextChat LLUUID.null = false ∧
      bufferLength (some groupState) groupId = some (some 0) ∧
      bufferLength
        (LLIMMgr.addSystemMessage friendsOnlyMgrEnv groupState groupId "you_auto_rejected_call"
          LLUUID.null) groupId = some (some 0) ∧
      exampleMgrEnv.VoiceCallsFriendsOnly = false ∧
      bufferLength
        (LLIMMgr.addSystemMessage exampleMgrEnv groupState groupId "you_auto_rejected_call"
          LLUUID.null) groupId = some (some 1) := by
  refine ⟨by decide, by decide, by decide, by decide, by decide, by decide, by decide⟩

/-! ### Snoozed sessions -/

theorem LLIMMgr.noteMutedUsers_keeps (env : MgrEnv) (st : MgrState) (id : LLUUID)
    (ids : List LLUUID) (j : LLUUID) (s : LLIMSession)
    (h : LLIMModel.findIMSession st.im j = some s) :
    ∃ s1, LLIMModel.findIMSession (LLIMMgr.noteMutedUsers env st id ids).im j = some s1 ∧
      s1.mSessionInitialized = s.mSessionInitialized := by
  unfold LLIMMgr.noteMutedUsers
  split_ifs
  · exact ⟨s, h, rfl⟩
  · exact LLIMModel.addMessage_keeps env.toViewerEnv st.im id env.SYSTEM_FROM LLUUID.null
      (env.getString "muted_message") true false false j s h
  · exact ⟨s, h, rfl⟩

theorem LLIMMgr.addSession_registered (env : MgrEnv) (st : MgrState) (name : String)
    (dialog : EInstantMessage) (other : LLUUID) (ids : List LLUUID) (voice : Bool)
    (floater_id : LLUUID) (hn : name ≠ "") (hids : ids ≠ [])
    (hd : dialog ≠ IM_SESSION_CONFERENCE_START) :
    (LLIMMgr.addSession env st name dialog other ids voice floater_id).1 =
        (LLIMMgr.computeSessionID env.toViewerEnv dialog other).1 ∧
      LLIMMgr.hasSession (LLIMMgr.addSession env st name dialog other ids voice floater_id).2.im
        (LLIMMgr.computeSessionID env.toViewerEnv dialog other).1 = true := by
  have hemp : ids.isEmpty = false := by
    cases ids with
    | nil => exact absurd rfl hids
    | cons a l => rfl
  have hd2 : ¬ IM_SESSION_CONFERENCE_START = dialog := fun e => hd e.symm
  unfold LLIMMgr.addSession
  simp only [hemp, Bool.false_eq_true, if_false, hn, hd2, decide_False, Bool.and_false,
    Bool.false_and]
  generalize hsid : (LLIMMgr.computeSessionID env.toViewerEnv dialog other).1 = sid
  generalize hst1 : (if (floater_id.notNull && env.hasFloater sid) = true then
      st.emit [Event.floaterInitIMSession sid] else st) = st1
  cases hf : LLIMModel.findIMSession st1.im sid with
  | none =>
    simp only [Option.isNone_none, if_true]
    refine ⟨trivial, ?_⟩
    have hnew : LLIMModel.findIMSession
        (LLIMModel.newSession env.toViewerEnv st1.im sid name dialog other ids voice false).2 sid =
        some (LLIMSession.create env.toViewerEnv sid name dialog other ids voice false).1 := by
      rw [LLIMModel.newSession_ok env.toViewerEnv st1.im sid name dialog other ids voice false
        hn hf]
      simp only [LLIMModel.findIMSession, IdMap.find_set_self]
    simp only [LLIMMgr.hasSession, LLIMMgr.notifyObserverSessionVoiceOrIMStarted,
      LLIMModel.findIMSession_emit]
    split_ifs
    · obtain ⟨s1, h1, _⟩ := LLIMMgr.noteMutedUsers_keeps env
        { st1 with im := (LLIMModel.newSession env.toViewerEnv st1.im sid name dialog other ids
            voice false).2 } sid ids sid _ hnew
      rw [h1]; rfl
    · rw [hnew]; rfl
  | some s =>
    simp only [Option.isNone_some, Bool.false_eq_true, if_false]
    refine ⟨trivial, ?_⟩
    simp only [LLIMMgr.hasSession, LLIMMgr.notifyObserverSessionActivated,
      LLIMModel.findIMSession_emit, hf, Option.isSome_some]

theorem LLIMMgr.restoreSnoozedSession_true_iff (env : MgrEnv) (st : MgrState) (id : LLUUID) :
    (LLIMMgr.restoreSnoozedSession env st id).1 = true ↔
      ((IdMap.find st.mSnoozedSessions id).isSome = true ∧
        (env.getGroupData id).isSome = true) := by
  unfold LLIMMgr.restoreSnoozedSession
  cases IdMap.find st.mSnoozedSessions id with
  | none => simp
  | some t =>
    cases env.getGroupData id with
    | none => simp
    | some name =>
      simp only [Option.isSome_some, and_self, iff_true]
      split_ifs <;> rfl

theorem LLIMMgr.restoreSnoozedSession_registered (env : MgrEnv) (st : MgrState) (id : LLUUID)
    (t : Int) (name : String) (ht : IdMap.find st.mSnoozedSessions id = some t)
    (hg : env.getGroupData id = some name) (hn : name ≠ "") :
    LLIMMgr.hasSession (LLIMMgr.restoreSnoozedSession env st id).2.im id = true ∧
      IdMap.find (LLIMMgr.restoreSnoozedSession env st id).2.mSnoozedSessions id = none := by
  have hreg := LLIMMgr.addSession_registered env
    { st with mSnoozedSessions := IdMap.erase st.mSnoozedSessions id } name IM_SESSION_INVITE id
    [id] false LLUUID.null hn (by simp) (by decide)
  have hid : (LLIMMgr.computeSessionID env.toViewerEnv IM_SESSION_INVITE id).1 = id := by
    simp [LLIMMgr.computeSessionID]
  rw [hid] at hreg
  have hsn : ∀ (stx : MgrState) (nm : String) (d : EInstantMessage) (o : LLUUID)
      (l : List LLUUID) (v : Bool) (f : LLUUID),
      (LLIMMgr.addSession env stx nm d o l v f).2.mSnoozedSessions = stx.mSnoozedSessions := by
    intro stx nm d o l v f
    unfold LLIMMgr.addSession
    split_ifs <;> first | rfl | (simp only [LLIMMgr.noteMutedUsers]; split_ifs <;> rfl)
  unfold LLIMMgr.restoreSnoozedSession
  simp only [ht, hg, LLIMMgr.addSessionTo]
  split_ifs
  · exact ⟨hreg.2, by
      simp only [MgrState.emit, hsn]
      exact IdMap.find_erase_self _ _⟩
  · exact ⟨hreg.2, by
      simp only [MgrState.emit, hsn]
      exact IdMap.find_erase_self _ _⟩

/-- C13 (as amended): `restoreSnoozedSession` does not look at the age of the
snooze entry: it returns true exactly when the id has an entry in the snooze
table and the group data of the id resolves, in every environment with the
same group data whatever its clocks and snooze duration; when it returns true
for a non-empty group name the session is registered afterwards and the entry
is gone. The age is tested by `checkSnoozeExpiration` only, which holds
exactly when the entry exists and its time plus the snooze duration is before
the current time. -/
theorem restoreSnoozedSession_ignores_age (env : MgrEnv) (st : MgrState) (id : LLUUID) :
    ((LLIMMgr.restoreSnoozedSession env st id).1 = true ↔
        ((IdMap.find st.mSnoozedSessions id).isSome = true ∧
          (env.getGroupData id).isSome = true)) ∧
      (∀ env2 : MgrEnv, env2.getGroupData id = env.getGroupData id →
        (LLIMMgr.restoreSnoozedSession env2 st id).1 =
          (LLIMMgr.restoreSnoozedSession env st id).1) ∧
      (∀ (t : Int) (name : String), IdMap.find st.mSnoozedSessions id = some t →
        env.getGroupData id = some name → name ≠ "" →
        LLIMMgr.hasSession (LLIMMgr.restoreSnoozedSession env st id).2.im id = true ∧
          IdMap.find (LLIMMgr.restoreSnoozedSession env st id).2.mSnoozedSessions id = none) ∧
      (LLIMMgr.checkSnoozeExpiration env st id = true ↔
        ∃ t, IdMap.find st.mSnoozedSessions id = some t ∧
          t + env.GroupSnoozeTime < env.totalSeconds) := by
  refine ⟨LLIMMgr.restoreSnoozedSession_true_iff env st id, ?_,
    fun t name ht hg hn => LLIMMgr.restoreSnoozedSession_registered env st id t name ht hg hn, ?_⟩
  · intro env2 h2
    have h1 := LLIMMgr.restoreSnoozedSession_true_iff env st id
    have h3 := LLIMMgr.restoreSnoozedSession_true_iff env2 st id
    rw [h2] at h3
    cases hb : (LLIMMgr.restoreSnoozedSession env st id).1 with
    | true => exact h3.mpr (h1.mp hb)
    | false =>
      cases hb2 : (LLIMMgr.restoreSnoozedSession env2 st id).1 with
      | false => rfl
      | true => rw [h1.mpr (h3.mp hb2)] at hb; cases hb
  · unfold LLIMMgr.checkSnoozeExpiration
    cases IdMap.find st.mSnoozedSessions id with
    | none => simp
    | some t => simp

theorem restoreSnoozedSession_ignores_age_witness :
    (LLIMMgr.restoreSnoozedSession exampleMgrEnv snoozedState groupId).1 = true ∧
      (LLIMMgr.restoreSnoozedSession exampleMgrEnv snoozedState aliceId).1 = false ∧
      LLIMMgr.checkSnoozeExpiration exampleMgrEnv snoozedState groupId = false := by
  have h := restoreSnoozedSession_ignores_age exampleMgrEnv snoozedState groupId
  have h2 := restoreSnoozedSession_ignores_age exampleMgrEnv snoozedState aliceId
  refine ⟨h.1.mpr ⟨by decide, by decide⟩, ?_, by decide⟩
  cases hb : (LLIMMgr.restoreSnoozedSession exampleMgrEnv snoozedState aliceId).1 with
  | false => rfl
  | true => exact absurd (h2.1.mp hb).1 (by decide)

/-- C13 (counterexample to the claim as stated): the group was snoozed at time
100 and the snooze duration is 900 seconds; at time 5000 the age of the entry,
4900, exceeds the duration, yet `restoreSnoozedSession` returns true and the
session, which was not registered before, is registered again. -/
theorem restoreSnoozedSession_expired_counterexample :
    IdMap.find snoozedState.mSnoozedSessions groupId = some 100 ∧
      laterMgrEnv.totalSeconds = 5000 ∧ laterMgrEnv.GroupSnoozeTime = 900 ∧
      LLIMMgr.checkSnoozeExpiration laterMgrEnv snoozedState groupId = true ∧
      LLIMMgr.hasSession snoozedState.im groupId = false ∧
      (LLIMMgr.restoreSnoozedSession laterMgrEnv snoozedState groupId).1 = true ∧
      LLIMMgr.hasSession (LLIMMgr.restoreSnoozedSession laterMgrEnv snoozedState groupId).2.im
        groupId = true := by
  refine ⟨by decide, by decide, by decide, by decide, by decide, by decide, by decide⟩

/-- C14 (as amended): `restoreSnoozedSession` returns false exactly when the id
is not snoozed or its group data cannot be resolved. When the id is not
snoozed the call changes nothing. When the id is snoozed and its group data
cannot be resolved the call removes the entry of the id from the snooze table
and changes nothing else: the other entries, the registry, the pending buffers
and the trace are as before. -/
theorem restoreSnoozedSession_failure (env : MgrEnv) (st : MgrState) (id : LLUUID) :
    ((LLIMMgr.restoreSnoozedSession env st id).1 = false ↔
        (IdMap.find st.mSnoozedSessions id = none ∨ env.getGroupData id = none)) ∧
      (IdMap.find st.mSnoozedSessions id = none →
        LLIMMgr.restoreSnoozedSession env st id = (false, st)) ∧
      (∀ t : Int, IdMap.find st.mSnoozedSessions id = some t → env.getGroupData id = none →
        LLIMMgr.restoreSnoozedSession env st id =
            (false, { st with mSnoozedSessions := IdMap.erase st.mSnoozedSessions id }) ∧
          IdMap.find (LLIMMgr.restoreSnoozedSession env st id).2.mSnoozedSessions id = none ∧
          ∀ j, j ≠ id →
            IdMap.find (LLIMMgr.restoreSnoozedSession env st id).2.mSnoozedSessions j =
              IdMap.find st.mSnoozedSessions j) := by
  refine ⟨?_, ?_, ?_⟩
  · have h := LLIMMgr.restoreSnoozedSession_true_iff env st id
    cases hb : (LLIMMgr.restoreSnoozedSession env st id).1 with
    | true =>
      obtain ⟨h1, h2⟩ := h.mp hb
      constructor
      · intro hf; cases hf
      · rintro (h3 | h3)
        · rw [h3] at h1; cases h1
        · rw [h3] at h2; cases h2
    | false =>
      simp only [true_iff]
      by_contra hcon
      push_neg at hcon
      have : (LLIMMgr.restoreSnoozedSession env st id).1 = true :=
        h.mpr ⟨Option.isSome_iff_ne_none.mpr hcon.1, Option.isSome_iff_ne_none.mpr hcon.2⟩
      rw [this] at hb; cases hb
  · intro hnone
    unfold LLIMMgr.restoreSnoozedSession
    simp only [hnone]
  · intro t ht hg
    have heq : LLIMMgr.restoreSnoozedSession env st id =
        (false, { st with mSnoozedSessions := IdMap.erase st.mSnoozedSessions id }) := by
      unfold LLIMMgr.restoreSnoozedSession
      simp only [ht, hg]
    rw [heq]
    exact ⟨rfl, IdMap.find_erase_self _ _, fun j hj => IdMap.find_erase_ne _ _ _ hj⟩

theorem restoreSnoozedSession_failure_witness :
    IdMap.find snoozedState.mSnoozedSessions aliceId = none ∧
      (LLIMMgr.restoreSnoozedSession exampleMgrEnv snoozedState aliceId).1 = false ∧
      IdMap.find
        (LLIMMgr.restoreSnoozedSession exampleMgrEnv snoozedState aliceId).2.mSnoozedSessions
        groupId = some 100 := by
  have hn : IdMap.find snoozedState.mSnoozedSessions aliceId = none := by decide
  have h := (restoreSnoozedSession_failure exampleMgrEnv snoozedState aliceId).2.1 hn
  rw [h]
  exact ⟨hn, rfl, by decide⟩

/-- C14 (counterexample to the claim as stated): the group is snoozed and its
group data cannot be resolved; `restoreSnoozedSession` returns false, and the
entry of the group, present before the call, is no longer in the snooze table
after it. -/
theorem restoreSnoozedSession_entry_counterexample :
    IdMap.find snoozedState.mSnoozedSessions groupId = some 100 ∧
      noGroupDataMgrEnv.getGroupData groupId = none ∧
      (LLIMMgr.restoreSnoozedSession noGroupDataMgrEnv snoozedState groupId).1 = false ∧
      IdMap.find
        (LLIMMgr.restoreSnoozedSession noGroupDataMgrEnv snoozedState groupId).2.mSnoozedSessions
        groupId = none := by
  refine ⟨by decide, by decide, by decide, by decide⟩

/-! ### Invitation responses -/

theorem LLIMMgr.addSession_buffers (env : MgrEnv) (st : MgrState) (name : String)
    (dialog : EInstantMessage) (other : LLUUID) (ids : List LLUUID) (voice : Bool)
    (floater_id : LLUUID) :
    (LLIMMgr.addSession env st name dialog other ids voice floater_id).2.mSnoozedSessions =
        st.mSnoozedSessions ∧
      (LLIMMgr.addSession env st name dialog other ids voice floater_id).2.mPendingInvitations =
        st.mPendingInvitations ∧
      (LLIMMgr.addSession env st name dialog other ids voice
        floater_id).2.mPendingAgentListUpdates = st.mPendingAgentListUpdates := by
  unfold LLIMMgr.addSession
  split_ifs <;>
    first
    | exact ⟨rfl, rfl, rfl⟩
    | (simp only [LLIMMgr.noteMutedUsers]; split_ifs <;> exact ⟨rfl, rfl, rfl⟩)

theorem LLIMMgr.addP2PSession_buffers (env : MgrEnv) (st : MgrState) (name : String)
    (other : LLUUID) (handle uri : String) :
    (LLIMMgr.addP2PSession env st name other handle uri).2.mSnoozedSessions =
        st.mSnoozedSessions ∧
      (LLIMMgr.addP2PSession env st name other handle uri).2.mPendingInvitations =
        st.mPendingInvitations ∧
      (LLIMMgr.addP2PSession env st name other handle uri).2.mPendingAgentListUpdates =
        st.mPendingAgentListUpdates := by
  have h := LLIMMgr.addSession_buffers env st name IM_NOTHING_SPECIAL other [other] true
    LLUUID.null
  unfold LLIMMgr.addP2PSession
  simp only [LLIMMgr.addSessionTo]
  cases LLIMModel.findIMSession
      (LLIMMgr.addSession env st name IM_NOTHING_SPECIAL other [other] true LLUUID.null).2.im
      (LLIMMgr.addSession env st name IM_NOTHING_SPECIAL other [other] true LLUUID.null).1 with
  | none => exact h
  | some s =>
    simp only
    split_ifs
    · exact h
    · exact h

theorem LLIncomingCallDialog.declinePart_buffers (env : MgrEnv) (st : MgrState) (sid : LLUUID)
    (payload : InvitePayload)
    (hreg : payload.type = IM_SESSION_P2P_INVITE ∨ env.hasRegion = true) :
    ∃ st1, LLIncomingCallDialog.declinePart env st sid payload = some st1 ∧
      st1.mPendingInvitations = IdMap.erase st.mPendingInvitations sid ∧
      st1.mPendingAgentListUpdates = IdMap.erase st.mPendingAgentListUpdates sid ∧
      st1.mSnoozedSessions = st.mSnoozedSessions ∧
      st1.im.mId2SessionMap = st.im.mId2SessionMap ∧
      st1.im.events =
        st.im.events ++
          (if payload.type = IM_SESSION_P2P_INVITE then
            (if env.hasVoiceClient then [Event.declineVoiceInvite payload.session_handle] else [])
           else [Event.declineInvitationRequest sid]) := by
  unfold LLIncomingCallDialog.declinePart
  by_cases hp : payload.type = IM_SESSION_P2P_INVITE
  · cases hv : env.hasVoiceClient <;>
      simp [hp, hv, LLIMMgr.clearPendingInvitation_eq, LLIMMgr.clearPendingAgentListUpdates_eq,
        MgrState.emit, IMState.emit]
  · have hr : env.hasRegion = true := hreg.resolve_left hp
    simp [hp, hr, LLIMMgr.clearPendingInvitation_eq, LLIMMgr.clearPendingAgentListUpdates_eq,
      MgrState.emit, IMState.emit]

theorem LLIncomingCallDialog.declinePart_no_region (env : MgrEnv) (st : MgrState) (sid : LLUUID)
    (payload : InvitePayload) (hp : payload.type ≠ IM_SESSION_P2P_INVITE)
    (hr : env.hasRegion = false) :
    LLIncomingCallDialog.declinePart env st sid payload = none := by
  simp [LLIncomingCallDialog.declinePart, hp, hr]

theorem LLIncomingCallDialog.acceptPart_no_region (env : MgrEnv) (st : MgrState) (voice : Bool)
    (payload : InvitePayload) (hp : payload.type ≠ IM_SESSION_P2P_INVITE)
    (hr : env.hasRegion = false) :
    LLIncomingCallDialog.acceptPart env st voice payload = none := by
  simp [LLIncomingCallDialog.acceptPart, hp, hr]

theorem LLIncomingCallDialog.acceptPart_buffers (env : MgrEnv) (st : MgrState) (voice : Bool)
    (payload : InvitePayload) :
    (payload.type ≠ IM_SESSION_P2P_INVITE → env.hasRegion = true →
      ∃ r, LLIncomingCallDialog.acceptPart env st voice payload = some r ∧
        r.1 = payload.session_id ∧
        r.2.mPendingInvitations = st.mPendingInvitations ∧
        r.2.mPendingAgentListUpdates = st.mPendingAgentListUpdates) ∧
      (payload.type = IM_SESSION_P2P_INVITE →
        ∃ r, LLIncomingCallDialog.acceptPart env st voice payload = some r ∧
          r.1 =
            (LLIMMgr.addP2PSession env st payload.session_name payload.caller_id
              payload.session_handle payload.session_uri).1 ∧
          r.2.mPendingInvitations =
            IdMap.erase st.mPendingInvitations
              (LLIMMgr.addP2PSession env st payload.session_name payload.caller_id
                payload.session_handle payload.session_uri).1 ∧
          r.2.mPendingAgentListUpdates =
            IdMap.erase st.mPendingAgentListUpdates
              (LLIMMgr.addP2PSession env st payload.session_name payload.caller_id
                payload.session_handle payload.session_uri).1) := by
  constructor
  · intro hp hr
    have h := LLIMMgr.addSession_buffers env st
      (LLIncomingCallDialog.correctSessionName env payload) payload.type payload.session_id
      [payload.session_id] true LLUUID.null
    unfold LLIncomingCallDialog.acceptPart
    simp only [hp, hr, if_false, if_true, LLIMMgr.addSessionTo]
    split_ifs <;> exact ⟨_, rfl, rfl, h.2.1, h.2.2⟩
  · intro hp
    have h := LLIMMgr.addP2PSession_buffers env st payload.session_name payload.caller_id
      payload.session_handle payload.session_uri
    unfold LLIncomingCallDialog.acceptPart
    simp only [hp, if_true, LLIMMgr.clearPendingInvitation_eq,
      LLIMMgr.clearPendingAgentListUpdates_eq, LLIMMgr.startIncomingCall]
    refine ⟨_, rfl, rfl, ?_, ?_⟩
    · split_ifs <;> simp [MgrState.emit, h.2.1]
    · split_ifs <;> simp [MgrState.emit, h.2.2]

theorem LLIncomingCallDialog.processCallResponse_accept (env : MgrEnv) (st : MgrState)
    (payload : InvitePayload) (hc : env.gDisconnected = false) :
    LLIncomingCallDialog.processCallResponse env st 0 payload =
      (LLIncomingCallDialog.acceptPart env st true payload).map (fun r => r.2) := by
  simp only [LLIncomingCallDialog.processCallResponse, hc, Bool.false_eq_true, if_false]
  rw [if_pos (by decide)]
  split <;> simp_all

theorem LLIncomingCallDialog.processCallResponse_text_only (env : MgrEnv) (st : MgrState)
    (payload : InvitePayload) (hc : env.gDisconnected = false) :
    LLIncomingCallDialog.processCallResponse env st 2 payload =
      (LLIncomingCallDialog.acceptPart env st false payload).bind
        (fun r => LLIncomingCallDialog.declinePart env r.2 r.1 payload) := by
  simp only [LLIncomingCallDialog.processCallResponse, hc, Bool.false_eq_true, if_false]
  rw [if_pos (by decide)]
  split <;> simp_all

theorem LLIncomingCallDialog.processCallResponse_decline (env : MgrEnv) (st : MgrState)
    (payload : InvitePayload) (hc : env.gDisconnected = false) :
    LLIncomingCallDialog.processCallResponse env st 1 payload =
      LLIncomingCallDialog.declinePart env st payload.session_id payload := by
  simp [LLIncomingCallDialog.processCallResponse, hc]

theorem LLIncomingCallDialog.processCallResponse_disconnected (env : MgrEnv) (st : MgrState)
    (response : Int) (payload : InvitePayload) (hc : env.gDisconnected = true) :
    LLIncomingCallDialog.processCallResponse env st response payload = some st := by
  simp [LLIncomingCallDialog.processCallResponse, hc]

theorem LLIncomingCallDialog.processCallResponse_no_region (env : MgrEnv) (st : MgrState)
    (payload : InvitePayload) (hc : env.gDisconnected = false)
    (hp : payload.type ≠ IM_SESSION_P2P_INVITE) (hr : env.hasRegion = false)
    (response : Int) (hresp : response = 0 ∨ response = 1 ∨ response = 2) :
    LLIncomingCallDialog.processCallResponse env st response payload = none := by
  rcases hresp with h | h | h
  · rw [h, LLIncomingCallDialog.processCallResponse_accept env st payload hc,
      LLIncomingCallDialog.acceptPart_no_region env st true payload hp hr]
    rfl
  · rw [h, LLIncomingCallDialog.processCallResponse_decline env st payload hc,
      LLIncomingCallDialog.declinePart_no_region env st _ payload hp hr]
  · rw [h, LLIncomingCallDialog.processCallResponse_text_only env st payload hc,
      LLIncomingCallDialog.acceptPart_no_region env st false payload hp hr]
    rfl

/-- C15 (as amended): while connected, `processCallResponse` returns with both
buffers cleared for the session id of the invitation, as its last step, on
decline of a P2P invitation, and on decline and on accept without voice of a
group or ad-hoc invitation when the agent has a region. On accept (with voice)
of a group or ad-hoc invitation, the agent having a region, it leaves both
buffers as they were: they are cleared when the reply to the accept request
arrives. For a P2P invitation, accept and accept without voice clear both
buffers for the id of the session that `addP2PSession` returns, which need not
be the id in the invitation. For a group or ad-hoc invitation while the agent
has no region, no response returns: the capability is read from the missing
region before the buffers are cleared. When disconnected the call changes
nothing. -/
theorem processCallResponse_clearing (env : MgrEnv) (st : MgrState) (payload : InvitePayload) :
    (env.gDisconnected = false →
        (payload.type = IM_SESSION_P2P_INVITE ∨ env.hasRegion = true) →
        ∃ st1, LLIncomingCallDialog.processCallResponse env st 1 payload = some st1 ∧
          IdMap.find st1.mPendingInvitations payload.session_id = none ∧
          IdMap.find st1.mPendingAgentListUpdates payload.session_id = none) ∧
      (env.gDisconnected = false → payload.type ≠ IM_SESSION_P2P_INVITE →
        env.hasRegion = true →
        ∃ st1, LLIncomingCallDialog.processCallResponse env st 2 payload = some st1 ∧
          IdMap.find st1.mPendingInvitations payload.session_id = none ∧
          IdMap.find st1.mPendingAgentListUpdates payload.session_id = none) ∧
      (env.gDisconnected = false → payload.type ≠ IM_SESSION_P2P_INVITE →
        env.hasRegion = true →
        ∃ st1, LLIncomingCallDialog.processCallResponse env st 0 payload = some st1 ∧
          st1.mPendingInvitations = st.mPendingInvitations ∧
          st1.mPendingAgentListUpdates = st.mPendingAgentListUpdates) ∧
      (env.gDisconnected = false → payload.type = IM_SESSION_P2P_INVITE →
        ∀ response : Int, response = 0 ∨ response = 2 →
          ∃ st1, LLIncomingCallDialog.processCallResponse env st response payload = some st1 ∧
            st1.mPendingInvitations =
              IdMap.erase st.mPendingInvitations
                (LLIMMgr.addP2PSession env st payload.session_name payload.caller_id
                  payload.session_handle payload.session_uri).1 ∧
            st1.mPendingAgentListUpdates =
              IdMap.erase st.mPendingAgentListUpdates
                (LLIMMgr.addP2PSession env st payload.session_name payload.caller_id
                  payload.session_handle payload.session_uri).1) ∧
      (env.gDisconnected = false → payload.type ≠ IM_SESSION_P2P_INVITE →
        env.hasRegion = false →
        ∀ response : Int, response = 0 ∨ response = 1 ∨ response = 2 →
          LLIncomingCallDialog.processCallResponse env st response payload = none) ∧
      (env.gDisconnected = true → ∀ response : Int,
        LLIncomingCallDialog.processCallResponse env st response payload = some st) := by
  refine ⟨?_, ?_, ?_, ?_, ?_, ?_⟩
  · intro hc hreg
    obtain ⟨st1, h0, h1, h2, _⟩ :=
      LLIncomingCallDialog.declinePart_buffers env st payload.session_id payload hreg
    refine ⟨st1, ?_, ?_, ?_⟩
    · rw [LLIncomingCallDialog.processCallResponse_decline env st payload hc, h0]
    · rw [h1]; exact IdMap.find_erase_self _ _
    · rw [h2]; exact IdMap.find_erase_self _ _
  · intro hc hp hr
    obtain ⟨r, ha0, ha1, _, _⟩ :=
      (LLIncomingCallDialog.acceptPart_buffers env st false payload).1 hp hr
    obtain ⟨st1, h0, h1, h2, _⟩ :=
      LLIncomingCallDialog.declinePart_buffers env r.2 r.1 payload (Or.inr hr)
    refine ⟨st1, ?_, ?_, ?_⟩
    · rw [LLIncomingCallDialog.processCallResponse_text_only env st payload hc, ha0,
        Option.some_bind, h0]
    · rw [h1, ha1]; exact IdMap.find_erase_self _ _
    · rw [h2, ha1]; exact IdMap.find_erase_self _ _
  · intro hc hp hr
    obtain ⟨r, ha0, _, ha2, ha3⟩ :=
      (LLIncomingCallDialog.acceptPart_buffers env st true payload).1 hp hr
    refine ⟨r.2, ?_, ha2, ha3⟩
    rw [LLIncomingCallDialog.processCallResponse_accept env st payload hc, ha0, Option.map_some']
  · intro hc hp response hresp
    rcases hresp with hresp | hresp
    · subst hresp
      obtain ⟨r, ha0, _, ha2, ha3⟩ :=
        (LLIncomingCallDialog.acceptPart_buffers env st true payload).2 hp
      refine ⟨r.2, ?_, ha2, ha3⟩
      rw [LLIncomingCallDialog.processCallResponse_accept env st payload hc, ha0,
        Option.map_some']
    · subst hresp
      obtain ⟨r, ha0, ha1, ha2, ha3⟩ :=
        (LLIncomingCallDialog.acceptPart_buffers env st false payload).2 hp
      obtain ⟨st1, h0, h1, h2, _⟩ :=
        LLIncomingCallDialog.declinePart_buffers env r.2 r.1 payload (Or.inl hp)
      refine ⟨st1, ?_, ?_, ?_⟩
      · rw [LLIncomingCallDialog.processCallResponse_text_only env st payload hc, ha0,
          Option.some_bind, h0]
      · rw [h1, ha2, ha1]
        exact IdMap.erase_of_find_none _ _ (IdMap.find_erase_self _ _)
      · rw [h2, ha3, ha1]
        exact IdMap.erase_of_find_none _ _ (IdMap.find_erase_self _ _)
  · intro hc hp hr response hresp
    exact LLIncomingCallDialog.processCallResponse_no_region env st payload hc hp hr response
      hresp
  · intro hc response
    exact LLIncomingCallDialog.processCallResponse_disconnected env st response payload hc

theorem processCallResponse_clearing_witness :
    exampleMgrEnv.gDisconnected = false ∧ exampleMgrEnv.hasRegion = true ∧
      adHocInvite.type ≠ IM_SESSION_P2P_INVITE ∧
      (IdMap.find pendingState.mPendingInvitations invId).isSome = true ∧
      (∃ st1, LLIncomingCallDialog.processCallResponse exampleMgrEnv pendingState 1
          adHocInvite = some st1 ∧
        IdMap.find st1.mPendingInvitations invId = none ∧
        IdMap.find st1.mPendingAgentListUpdates invId = none) ∧
      noRegionMgrEnv.hasRegion = false ∧
      LLIncomingCallDialog.processCallResponse noRegionMgrEnv pendingState 1 adHocInvite =
        none :=
  ⟨by decide, by decide, by decide, by decide,
    (processCallResponse_clearing exampleMgrEnv pendingState adHocInvite).1 (by decide)
      (Or.inr (by decide)),
    by decide,
    (processCallResponse_clearing noRegionMgrEnv pendingState adHocInvite).2.2.2.2.1 (by decide)
      (by decide) (by decide) 1 (Or.inr (Or.inl rfl))⟩

/-- C15 (counterexample to the claim as stated): an invitation and agent list
updates are buffered for the ad-hoc session, the agent is connected and has a
region; after the accept of the ad-hoc invitation both are still buffered for
its id, and after the accept of a P2P invitation that carries this id, with or
without voice, both are still buffered for it as well. -/
theorem processCallResponse_accept_counterexample :
    exampleMgrEnv.gDisconnected = false ∧ exampleMgrEnv.hasRegion = true ∧
      ((LLIncomingCallDialog.processCallResponse exampleMgrEnv pendingState 0
          adHocInvite).map
            (fun st1 => ((IdMap.find st1.mPendingInvitations invId).isSome,
              (IdMap.find st1.mPendingAgentListUpdates invId).isSome)) = some (true, true)) ∧
      ((LLIncomingCallDialog.processCallResponse exampleMgrEnv pendingState 0
          p2pInvite).map
            (fun st1 => (IdMap.find st1.mPendingInvitations invId).isSome) = some true) ∧
      ((LLIncomingCallDialog.processCallResponse exampleMgrEnv pendingState 2
          p2pInvite).map
            (fun st1 => (IdMap.find st1.mPendingAgentListUpdates invId).isSome) = some true) := by
  refine ⟨by decide, by decide, by decide, by decide, by decide⟩

/-! ### Invitation requests -/

theorem IMState.requests_emit (st : IMState) (es : List Event)
    (h : ∀ e ∈ es, e.isInvitationRequest = false) : (st.emit es).requests = st.requests := by
  have hnil : es.filter Event.isInvitationRequest = [] :=
    List.filter_eq_nil_iff.2 (fun e he => by simp [h e he])
  simp only [IMState.requests, IMState.emit_events, List.filter_append, hnil, List.append_nil]

theorem IMState.requests_of_events (st st1 : IMState) (h : st1.events = st.events) :
    st1.requests = st.requests := by
  simp only [IMState.requests, h]

theorem LLIMSession.create_requests (env : ViewerEnv) (id : LLUUID) (name : String)
    (type : EInstantMessage) (other : LLUUID) (ids : List LLUUID) (voice offline : Bool) :
    ∀ e ∈ (LLIMSession.create env id name type other ids voice offline).2,
      e.isInvitationRequest = false := by
  intro e he
  simp only [LLIMSession.create, LLIMModel.sendStartSession, List.mem_append] at he
  rcases he with (he | he) | he
  · split_ifs at he <;> simp at he <;> subst he <;> rfl
  · split_ifs at he <;> simp at he <;> subst he <;> rfl
  · split_ifs at he <;> simp at he <;> subst he <;> rfl

theorem LLIMModel.newSession_requests (env : ViewerEnv) (st : IMState) (id : LLUUID)
    (name : String) (type : EInstantMessage) (other : LLUUID) (ids : List LLUUID)
    (voice offline : Bool) :
    (LLIMModel.newSession env st id name type other ids voice offline).2.requests =
      st.requests := by
  by_cases hn : name = ""
  · rw [LLIMModel.newSession_fail env st id name type other ids voice offline (Or.inl hn)]
  · cases hf : LLIMModel.findIMSession st id with
    | some s =>
      rw [LLIMModel.newSession_fail env st id name type other ids voice offline
        (Or.inr (by rw [hf]; rfl))]
    | none =>
      rw [LLIMModel.newSession_ok env st id name type other ids voice offline hn hf]
      have h1 : (LLIMSession.create env id name type other ids voice offline).2.filter
          Event.isInvitationRequest = [] :=
        List.filter_eq_nil_iff.2 (fun e he => by
          simp [LLIMSession.create_requests env id name type other ids voice offline e he])
      have h2 : (st.mSessionObservers.map (fun o => Event.sessionAdded o id
          (LLIMSession.create env id name type other ids voice offline).1.mName
          other offline)).filter Event.isInvitationRequest = [] :=
        List.filter_eq_nil_iff.2 (fun e he => by
          simp only [List.mem_map] at he
          obtain ⟨o, _, rfl⟩ := he
          simp [Event.isInvitationRequest])
      simp only [IMState.requests, List.filter_append, h1, h2, List.append_nil]

theorem LLIMModel.addToHistory_requests (env : ViewerEnv) (st : IMState) (id : LLUUID)
    (from_name : String) (from_id : LLUUID) (text : String) (ann : Bool) :
    (LLIMModel.addToHistory env st id from_name from_id text ann).2.requests = st.requests := by
  unfold LLIMModel.addToHistory
  cases LLIMModel.findIMSession st id with
  | none => rfl
  | some s =>
    simp only
    split_ifs
    · simp [IMState.requests, IMState.emit, List.filter_append, Event.isInvitationRequest]
    · rfl

theorem LLIMModel.addMessageSilently_requests (env : ViewerEnv) (st : IMState) (id : LLUUID)
    (from_name : String) (from_id : LLUUID) (text : String) (log2file ann : Bool) :
    (LLIMModel.addMessageSilently env st id from_name from_id text log2file ann).2.requests =
      st.requests := by
  unfold LLIMModel.addMessageSilently
  cases LLIMModel.findIMSession st id with
  | none => rfl
  | some s =>
    simp only
    generalize hst1 : (LLIMModel.addToHistory env st id
      (if env.INTERACTIVE_SYSTEM_FROM = from_name then env.SYSTEM_FROM else from_name)
      from_id text ann).2 = st1
    have h1 : st1.requests = st.requests := by
      rw [← hst1]; exact LLIMModel.addToHistory_requests _ _ _ _ _ _ _
    generalize hst2 : (if (log2file && !ann) = true then
        st1.emit [Event.logToFile
          (match LLIMModel.findIMSession st1 id with
            | none => ""
            | some s => s.mHistoryFileName)
          (if env.INTERACTIVE_SYSTEM_FROM = from_name then env.SYSTEM_FROM else from_name)
          from_id text]
      else st1) = st2
    have h2 : st2.requests = st.requests := by
      rw [← hst2, ← h1]
      by_cases hc : (log2file && !ann) = true
      · rw [if_pos hc]
        exact IMState.requests_emit _ _ (by intro e he; simp at he; subst he; rfl)
      · rw [if_neg hc]
    cases LLIMModel.findIMSession st2 id with
    | none => exact h2
    | some s2 => exact h2

theorem LLIMModel.addMessage_requests (env : ViewerEnv) (st : IMState) (id : LLUUID)
    (from_name : String) (from_id : LLUUID) (text : String) (log2file ann kw : Bool) :
    (LLIMModel.addMessage env st id from_name from_id text log2file ann kw).2.requests =
      st.requests := by
  have h := LLIMModel.addMessageSilently_requests env st id from_name from_id text log2file ann
  unfold LLIMModel.addMessage
  generalize LLIMModel.addMessageSilently env st id from_name from_id text log2file ann = r
    at h ⊢
  obtain ⟨r1, r2⟩ := r
  cases r1 with
  | none => exact h
  | some s =>
    simp only at h ⊢
    rw [IMState.requests_emit _ _ (by intro e he; simp at he; subst he; rfl)]
    split_ifs
    · rw [IMState.requests_emit _ _ (by intro e he; simp at he; subst he; rfl)]; exact h
    · exact h

theorem LLIMMgr.noteMutedUsers_requests (env : MgrEnv) (st : MgrState) (id : LLUUID)
    (ids : List LLUUID) :
    (LLIMMgr.noteMutedUsers env st id ids).im.requests = st.im.requests := by
  unfold LLIMMgr.noteMutedUsers
  split_ifs
  · rfl
  · exact LLIMModel.addMessage_requests _ _ _ _ _ _ _ _ _
  · rfl

theorem LLIMMgr.notifyObserverSessionVoiceOrIMStarted_requests (st : IMState) (id : LLUUID) :
    (LLIMMgr.notifyObserverSessionVoiceOrIMStarted st id).requests = st.requests :=
  IMState.requests_emit _ _ (by
    intro e he; simp only [List.mem_map] at he; obtain ⟨o, _, rfl⟩ := he; rfl)

theorem LLIMMgr.notifyObserverSessionActivated_requests (st : IMState) (id : LLUUID)
    (name : String) (other : LLUUID) :
    (LLIMMgr.notifyObserverSessionActivated st id name other).requests = st.requests :=
  IMState.requests_emit _ _ (by
    intro e he; simp only [List.mem_map] at he; obtain ⟨o, _, rfl⟩ := he; rfl)

theorem LLIMMgr.addSession_requests (env : MgrEnv) (st : MgrState) (name : String)
    (dialog : EInstantMessage) (other : LLUUID) (ids : List LLUUID) (voice : Bool)
    (floater_id : LLUUID) :
    (LLIMMgr.addSession env st name dialog other ids voice floater_id).2.im.requests =
      st.im.requests := by
  by_cases hemp : ids.isEmpty = true
  · simp only [LLIMMgr.addSession, hemp, if_true]
  by_cases hn : name = ""
  · simp only [LLIMMgr.addSession, hn, if_true, ite_self]
  unfold LLIMMgr.addSession
  simp only [hemp, hn, if_false]
  generalize (LLIMMgr.computeSessionID env.toViewerEnv dialog other).1 = sid
  generalize hst1 : (if (floater_id.notNull && env.hasFloater sid) = true then
      st.emit [Event.floaterInitIMSession sid] else st) = st1
  have hs1 : st1.im.requests = st.im.requests := by
    rw [← hst1]
    split_ifs
    · exact IMState.requests_emit _ _ (by intro e he; simp at he; subst he; rfl)
    · rfl
  split_ifs <;>
    simp only [LLIMMgr.notifyObserverSessionVoiceOrIMStarted_requests,
      LLIMMgr.notifyObserverSessionActivated_requests, LLIMMgr.noteMutedUsers_requests,
      LLIMModel.newSession_requests, hs1]

theorem IMState.requests_emit_append (st : IMState) (es : List Event) :
    (st.emit es).requests = st.requests ++ es.filter Event.isInvitationRequest := by
  simp only [IMState.requests, IMState.emit_events, List.filter_append]

theorem LLIMModel.addMessageSilently_hasSession (env : ViewerEnv) (st : IMState) (id : LLUUID)
    (from_name : String) (from_id : LLUUID) (text : String) (log2file ann : Bool) (j : LLUUID) :
    LLIMMgr.hasSession
        (LLIMModel.addMessageSilently env st id from_name from_id text log2file ann).2 j =
      LLIMMgr.hasSession st j := by
  cases h : LLIMModel.findIMSession st id with
  | none => rw [LLIMModel.addMessageSilently_none env st id from_name from_id text log2file ann h]
  | some s =>
    obtain ⟨h1, h2, h3⟩ :=
      LLIMModel.addMessageSilently_found env st id s from_name from_id text log2file ann h
    by_cases hj : j = id
    · subst hj
      simp only [LLIMMgr.hasSession, h2, h1, h, Option.isSome_some]
    · simp only [LLIMMgr.hasSession, h3 j hj]

theorem LLIMMgr.addSession_empty_name (env : MgrEnv) (st : MgrState) (dialog : EInstantMessage)
    (other : LLUUID) (ids : List LLUUID) (voice : Bool) (floater_id : LLUUID) :
    LLIMMgr.addSession env st "" dialog other ids voice floater_id = (LLUUID.null, st) := by
  simp only [LLIMMgr.addSession, if_true, ite_self]

theorem LLIncomingCallDialog.acceptPart_group (env : MgrEnv) (st : MgrState) (voice : Bool)
    (payload : InvitePayload) (hp : payload.type ≠ IM_SESSION_P2P_INVITE)
    (hreg : env.hasRegion = true) :
    ∃ r, LLIncomingCallDialog.acceptPart env st voice payload = some r ∧
      r.1 = payload.session_id ∧
      r.2.im.requests =
        st.im.requests ++
          (if voice then [Event.acceptInvitationRequest payload.session_id] else []) ∧
      (∀ j, LLIMMgr.hasSession r.2.im j =
        LLIMMgr.hasSession
          (LLIMMgr.addSessionTo env st (LLIncomingCallDialog.correctSessionName env payload)
            payload.type payload.session_id true).2.im j) ∧
      (voice = false →
        r.2 =
          (LLIMMgr.addSessionTo env st (LLIncomingCallDialog.correctSessionName env payload)
            payload.type payload.session_id true).2) := by
  have hr := LLIMMgr.addSession_requests env st
    (LLIncomingCallDialog.correctSessionName env payload) payload.type payload.session_id
    [payload.session_id] true LLUUID.null
  unfold LLIncomingCallDialog.acceptPart
  simp only [hp, hreg, if_false, if_true, LLIMMgr.addSessionTo]
  cases voice with
  | false =>
    simp only [Bool.false_eq_true, if_false, List.append_nil]
    exact ⟨_, rfl, rfl, hr, fun _ => rfl, fun _ => rfl⟩
  | true =>
    simp only [if_true]
    split_ifs
    · refine ⟨_, rfl, rfl, ?_, ?_, fun h => absurd h (by decide)⟩
      · simp only [LLIMModel.addMessageSilently_requests, MgrState.emit,
          IMState.requests_emit_append, hr]
        rfl
      · intro j
        simp only [LLIMModel.addMessageSilently_hasSession, MgrState.emit]
        rfl
    · refine ⟨_, rfl, rfl, ?_, fun j => rfl, fun h => absurd h (by decide)⟩
      simp only [MgrState.emit, IMState.requests_emit_append, hr]
      rfl

theorem LLIncomingCallDialog.declinePart_requests (env : MgrEnv) (st : MgrState) (sid : LLUUID)
    (payload : InvitePayload)
    (hreg : payload.type = IM_SESSION_P2P_INVITE ∨ env.hasRegion = true) :
    ∃ st1, LLIncomingCallDialog.declinePart env st sid payload = some st1 ∧
      st1.im.requests =
        st.im.requests ++
          (if payload.type = IM_SESSION_P2P_INVITE then []
           else [Event.declineInvitationRequest sid]) ∧
      st1.im.mId2SessionMap = st.im.mId2SessionMap ∧
      st1.im.events =
        st.im.events ++
          (if payload.type = IM_SESSION_P2P_INVITE then
            (if env.hasVoiceClient then [Event.declineVoiceInvite payload.session_handle] else [])
           else [Event.declineInvitationRequest sid]) := by
  obtain ⟨st1, h0, _, _, _, hm, h⟩ :=
    LLIncomingCallDialog.declinePart_buffers env st sid payload hreg
  refine ⟨st1, h0, ?_, hm, h⟩
  simp only [IMState.requests, h, List.filter_append]
  split_ifs <;> rfl

/-- C16 (as amended): while connected, for a group or ad-hoc invitation and an
agent that has a region, accept issues exactly one accept invitation request
and no decline invitation request, decline issues exactly one decline
invitation request and leaves the registry as it was, and accept without voice
issues exactly one decline invitation request and no accept invitation request,
and registers the same sessions as accept. The local session exists after
accept and after accept without voice when the session name, repaired where it
was empty, is not empty (and the invitation is not of the conference start
kind, whose id is drawn at random); when that name is empty no session is
created, and the request is still issued. For a group or ad-hoc invitation and
an agent without a region no response returns: the capability is read from the
missing region before a request is issued. For a P2P invitation decline issues
no server request, declines the voice handle when there is a voice client, and
leaves the registry as it was. While disconnected nothing happens, whatever
the response. -/
theorem processCallResponse_requests (env : MgrEnv) (st : MgrState) (payload : InvitePayload) :
    (env.gDisconnected = false → payload.type ≠ IM_SESSION_P2P_INVITE →
      env.hasRegion = true →
      ∃ st0 st1 st2,
        LLIncomingCallDialog.processCallResponse env st 0 payload = some st0 ∧
        LLIncomingCallDialog.processCallResponse env st 1 payload = some st1 ∧
        LLIncomingCallDialog.processCallResponse env st 2 payload = some st2 ∧
        (st0.im.requests =
            st.im.requests ++ [Event.acceptInvitationRequest payload.session_id] ∧
          (LLIncomingCallDialog.correctSessionName env payload ≠ "" →
            payload.type ≠ IM_SESSION_CONFERENCE_START →
            LLIMMgr.hasSession st0.im
              (LLIMMgr.computeSessionID env.toViewerEnv payload.type payload.session_id).1 =
                true) ∧
          (LLIncomingCallDialog.correctSessionName env payload = "" →
            ∀ j, LLIMMgr.hasSession st0.im j = LLIMMgr.hasSession st.im j)) ∧
        (st1.im.requests =
            st.im.requests ++ [Event.declineInvitationRequest payload.session_id] ∧
          st1.im.mId2SessionMap = st.im.mId2SessionMap) ∧
        (st2.im.requests =
            st.im.requests ++ [Event.declineInvitationRequest payload.session_id] ∧
          (∀ j, LLIMMgr.hasSession st2.im j = LLIMMgr.hasSession st0.im j) ∧
          (LLIncomingCallDialog.correctSessionName env payload = "" →
            st2.im.mId2SessionMap = st.im.mId2SessionMap))) ∧
    (env.gDisconnected = false → payload.type ≠ IM_SESSION_P2P_INVITE →
      env.hasRegion = false →
      ∀ response : Int, response = 0 ∨ response = 1 ∨ response = 2 →
        LLIncomingCallDialog.processCallResponse env st response payload = none) ∧
    (env.gDisconnected = false → payload.type = IM_SESSION_P2P_INVITE →
      ∃ st1, LLIncomingCallDialog.processCallResponse env st 1 payload = some st1 ∧
        st1.im.requests = st.im.requests ∧
        st1.im.events =
          st.im.events ++
            (if env.hasVoiceClient then [Event.declineVoiceInvite payload.session_handle]
             else []) ∧
        st1.im.mId2SessionMap = st.im.mId2SessionMap) ∧
    (env.gDisconnected = true →
      ∀ response, LLIncomingCallDialog.processCallResponse env st response payload =
        some st) := by
  refine ⟨fun hc hp hreg => ?_, fun hc hp hreg response hresp =>
      LLIncomingCallDialog.processCallResponse_no_region env st payload hc hp hreg response hresp,
    fun hc hp => ?_, fun hc response =>
      LLIncomingCallDialog.processCallResponse_disconnected env st response payload hc⟩
  · obtain ⟨ra, ha0, ha1, ha2, ha3, _⟩ :=
      LLIncomingCallDialog.acceptPart_group env st true payload hp hreg
    obtain ⟨rb, hb0, hb1, hb2, hb3, hb4⟩ :=
      LLIncomingCallDialog.acceptPart_group env st false payload hp hreg
    obtain ⟨sd, hd0, hd1, hd2, _⟩ :=
      LLIncomingCallDialog.declinePart_requests env st payload.session_id payload (Or.inr hreg)
    obtain ⟨st2, he0, he1, he2, _⟩ :=
      LLIncomingCallDialog.declinePart_requests env rb.2 rb.1 payload (Or.inr hreg)
    simp only [if_true] at ha2
    simp only [Bool.false_eq_true, if_false, List.append_nil] at hb2
    rw [if_neg hp] at hd1 he1
    refine ⟨ra.2, sd, st2, ?_, ?_, ?_, ⟨ha2, ?_, ?_⟩, ⟨hd1, hd2⟩, ?_, ?_, ?_⟩
    · rw [LLIncomingCallDialog.processCallResponse_accept env st payload hc, ha0,
        Option.map_some']
    · rw [LLIncomingCallDialog.processCallResponse_decline env st payload hc, hd0]
    · rw [LLIncomingCallDialog.processCallResponse_text_only env st payload hc, hb0,
        Option.some_bind, he0]
    · intro hn ht
      rw [ha3]
      exact (LLIMMgr.addSession_registered env st _ payload.type payload.session_id
        [payload.session_id] true LLUUID.null hn (by simp) ht).2
    · intro hn j
      rw [ha3, hn, LLIMMgr.addSessionTo, LLIMMgr.addSession_empty_name]
    · rw [he1, hb1, hb2]
    · intro j
      simp only [LLIMMgr.hasSession, LLIMModel.findIMSession, he2]
      have h1 := hb3 j
      have h2 := ha3 j
      simp only [LLIMMgr.hasSession, LLIMModel.findIMSession] at h1 h2
      rw [h1, h2]
    · intro hn
      rw [he2, hb4 rfl, hn, LLIMMgr.addSessionTo, LLIMMgr.addSession_empty_name]
  · obtain ⟨st1, h0, hq, hm, he⟩ :=
      LLIncomingCallDialog.declinePart_requests env st payload.session_id payload (Or.inl hp)
    rw [if_pos hp] at he hq
    refine ⟨st1, ?_, by rw [hq, List.append_nil], he, hm⟩
    rw [LLIncomingCallDialog.processCallResponse_decline env st payload hc, h0]

theorem processCallResponse_requests_witness :
    exampleMgrEnv.gDisconnected = false ∧ adHocInvite.type ≠ IM_SESSION_P2P_INVITE ∧
      exampleMgrEnv.hasRegion = true ∧
      (∃ st0, LLIncomingCallDialog.processCallResponse exampleMgrEnv
          (MgrState.ofIM emptyState) 0 adHocInvite = some st0 ∧
        st0.im.requests =
          (MgrState.ofIM emptyState).im.requests ++ [Event.acceptInvitationRequest invId] ∧
        LLIMMgr.hasSession st0.im invId = true) ∧
      noRegionMgrEnv.hasRegion = false ∧
      LLIncomingCallDialog.processCallResponse noRegionMgrEnv (MgrState.ofIM emptyState) 0
        adHocInvite = none := by
  obtain ⟨st0, _, _, h0, _, _, ⟨h1, h2, _⟩, _⟩ :=
    (processCallResponse_requests exampleMgrEnv (MgrState.ofIM emptyState) adHocInvite).1
      (by decide) (by decide) (by decide)
  exact ⟨by decide, by decide, by decide, ⟨st0, h0, h1, h2 (by decide) (by decide)⟩, by decide,
    (processCallResponse_requests noRegionMgrEnv (MgrState.ofIM emptyState) adHocInvite).2.1
      (by decide) (by decide) (by decide) 0 (Or.inl rfl)⟩

/-- C16 (counterexample to the claim as stated): the ad-hoc invitation arrives
with an empty session name and the name of the caller is not cached; the agent
is connected and has a region. On accept the accept invitation request is
issued, and on accept without voice the decline invitation request, but no
local session is created: the registry is empty afterwards. -/
theorem processCallResponse_unnamed_counterexample :
    exampleMgrEnv.gDisconnected = false ∧ exampleMgrEnv.hasRegion = true ∧
      unnamedInvite.type ≠ IM_SESSION_P2P_INVITE ∧
      (LLIncomingCallDialog.processCallResponse exampleMgrEnv (MgrState.ofIM emptyState) 0
          unnamedInvite).map
            (fun st1 => (st1.im.requests, st1.im.mId2SessionMap.map (fun e => e.1))) =
        some ([Event.acceptInvitationRequest invId], []) ∧
      (LLIncomingCallDialog.processCallResponse exampleMgrEnv (MgrState.ofIM emptyState) 2
          unnamedInvite).map
            (fun st1 => (st1.im.requests, st1.im.mId2SessionMap.map (fun e => e.1))) =
        some ([Event.declineInvitationRequest invId], []) := by
  refine ⟨by decide, by decide, by decide, by decide, by decide⟩

/-! ### Invitations while do-not-disturb is on -/

theorem LLIMMgr.addMessageTail_buffers (env : MgrEnv) (st : MgrState) (sid : LLUUID)
    (from_name : String) (target : LLUUID) (msg : String) (offline ann kw skip : Bool) :
    (LLIMMgr.addMessageTail env st sid from_name target msg offline ann kw
        skip).mPendingInvitations = st.mPendingInvitations ∧
      (LLIMMgr.addMessageTail env st sid from_name target msg offline ann kw
        skip).mPendingAgentListUpdates = st.mPendingAgentListUpdates := by
  unfold LLIMMgr.addMessageTail
  split_ifs <;> exact ⟨rfl, rfl⟩

theorem LLIMMgr.addSystemMessage_some (env : MgrEnv) (st : MgrState) (session_id : LLUUID)
    (message_name : String) (user_id : LLUUID) :
    ∃ st1, LLIMMgr.addSystemMessage env st session_id message_name user_id = some st1 ∧
      st1.mPendingInvitations = st.mPendingInvitations ∧
      st1.mPendingAgentListUpdates = st.mPendingAgentListUpdates := by
  unfold LLIMMgr.addSystemMessage
  by_cases hnull : session_id.isNull = true
  · simp only [hnull, if_true]
    exact ⟨_, rfl, rfl, rfl⟩
  · simp only [hnull, if_false]
    cases hs : LLIMModel.findIMSession st.im session_id with
    | none =>
      simp only [LLIMMgr.hasSession, hs, Option.isSome_none, Bool.false_eq_true, if_false]
      exact ⟨_, rfl, rfl, rfl⟩
    | some s =>
      have hres : LLIMMgr.resolveSessionID env session_id IM_NOTHING_SPECIAL LLUUID.null =
          session_id := by
        simp only [LLIMMgr.resolveSessionID, hnull, if_false, Bool.false_eq_true]
      simp only [LLIMMgr.hasSession, hs, Option.isSome_some, if_true]
      rw [LLIMMgr.addMessage_existing env st session_id LLUUID.null env.SYSTEM_FROM _ false ""
        IM_NOTHING_SPECIAL 0 false false s (by rw [hres]; exact hs)]
      exact ⟨_, rfl, (LLIMMgr.addMessageTail_buffers _ _ _ _ _ _ _ _ _ _).1,
        (LLIMMgr.addMessageTail_buffers _ _ _ _ _ _ _ _ _ _).2⟩

theorem LLIncomingCallDialog.processCallResponse_decline_effect (env : MgrEnv) (st : MgrState)
    (payload : InvitePayload)
    (hreg : payload.type = IM_SESSION_P2P_INVITE ∨ env.gDisconnected = true ∨
      env.hasRegion = true) :
    ∃ st1, LLIncomingCallDialog.processCallResponse env st 1 payload = some st1 ∧
      st1.mPendingInvitations =
        (if env.gDisconnected then st.mPendingInvitations
         else IdMap.erase st.mPendingInvitations payload.session_id) ∧
      st1.im.events =
        st.im.events ++
          (if env.gDisconnected then []
           else if payload.type = IM_SESSION_P2P_INVITE then
            (if env.hasVoiceClient then [Event.declineVoiceInvite payload.session_handle] else [])
           else [Event.declineInvitationRequest payload.session_id]) := by
  cases hc : env.gDisconnected with
  | true =>
    rw [LLIncomingCallDialog.processCallResponse_disconnected env st 1 payload hc]
    exact ⟨st, rfl, by simp, by simp⟩
  | false =>
    have hreg2 : payload.type = IM_SESSION_P2P_INVITE ∨ env.hasRegion = true := by
      rcases hreg with h | h | h
      · exact Or.inl h
      · rw [hc] at h
        cases h
      · exact Or.inr h
    rw [LLIncomingCallDialog.processCallResponse_decline env st payload hc]
    obtain ⟨st1, h0, h1, _, _, _, h5⟩ :=
      LLIncomingCallDialog.declinePart_buffers env st payload.session_id payload hreg2
    simp only [Bool.false_eq_true, if_false]
    exact ⟨st1, h0, h1, h5⟩

/-- C17 (as amended): a voice invitation handled by `inviteToSession` while
do-not-disturb is on (caller not muted, or a Linden; no call to that session
already started) is auto-declined by `processCallResponse` with response
decline. When the invitation is a P2P one, or the agent is disconnected, or
the agent has a region, the call returns and no pending invitation is staged:
while connected the entry of the session is erased from the pending
invitations, and while disconnected they are as before; the automated decline
notice is sent to the caller, after the system message of the session, only
when none of the other reject policies (reject group calls, friends only,
reject ad-hoc calls, reject P2P calls) applies to the invitation; when one of
them applies, the only calls made are those of the decline. For a group or
ad-hoc invitation while the agent is connected and has no region the call does
not return: the decline reads the capability from the missing region. -/
theorem inviteToSession_do_not_disturb (env : MgrEnv) (st : MgrState) (session_id : LLUUID)
    (session_name : String) (caller_id : LLUUID) (caller_name : String)
    (type : EInstantMessage) (inv_type : EInvitationType) (session_handle session_uri : String)
    (hv : (LLIMMgr.classifyInvite env session_id type inv_type).2.2 = true)
    (hdnd : env.isDoNotDisturb = true)
    (hm : (env.isMuted caller_id && !env.isLinden caller_name) = false)
    (hcall : env.callStarted session_id = false) :
    ((type = IM_SESSION_P2P_INVITE ∨ env.gDisconnected = true ∨ env.hasRegion = true) →
      ∃ st2, LLIMMgr.inviteToSession env st session_id session_name caller_id caller_name type
            inv_type session_handle session_uri = some st2 ∧
        st2.mPendingInvitations =
          (if env.gDisconnected then st.mPendingInvitations
           else IdMap.erase st.mPendingInvitations session_id) ∧
        (LLIMMgr.otherRejectPolicy env caller_id
            (LLIMMgr.classifyInvite env session_id type inv_type).1 = true →
          st2.im.events = st.im.events ++
            (if env.gDisconnected then []
             else if type = IM_SESSION_P2P_INVITE then
              (if env.hasVoiceClient then [Event.declineVoiceInvite session_handle] else [])
             else [Event.declineInvitationRequest session_id])) ∧
        (LLIMMgr.otherRejectPolicy env caller_id
            (LLIMMgr.classifyInvite env session_id type inv_type).1 = false →
          ∃ st1, LLIMMgr.addSystemMessage env st session_id "you_auto_rejected_call"
              LLUUID.null = some st1 ∧
            st2.im.events =
              st1.im.events ++ [Event.doNotDisturbMessage caller_id session_id] ++
              (if env.gDisconnected then []
               else if type = IM_SESSION_P2P_INVITE then
                (if env.hasVoiceClient then [Event.declineVoiceInvite session_handle] else [])
               else [Event.declineInvitationRequest session_id]))) ∧
      (type ≠ IM_SESSION_P2P_INVITE → env.gDisconnected = false → env.hasRegion = false →
        LLIMMgr.inviteToSession env st session_id session_name caller_id caller_name type
          inv_type session_handle session_uri = none) := by
  obtain ⟨st1, hs1, hp1, _⟩ :=
    LLIMMgr.addSystemMessage_some env st session_id "you_auto_rejected_call" LLUUID.null
  unfold LLIMMgr.inviteToSession
  simp only [hm, hcall, hv, hdnd, Bool.false_eq_true, if_false, Bool.or_true, Bool.and_self,
    Bool.true_and, if_true]
  constructor
  · intro hreg
    cases ho : LLIMMgr.otherRejectPolicy env caller_id
        (LLIMMgr.classifyInvite env session_id type inv_type).1 with
    | true =>
      simp only [Bool.not_true, Bool.false_eq_true, if_false]
      obtain ⟨st2, h0, h1, h2⟩ :=
        LLIncomingCallDialog.processCallResponse_decline_effect env st
          { session_id := session_id, session_name := session_name, caller_id := caller_id,
            caller_name := caller_name, type := type, inv_type := inv_type,
            session_handle := session_handle, session_uri := session_uri,
            notify_box_type := (LLIMMgr.classifyInvite env session_id type inv_type).1,
            question_type := (LLIMMgr.classifyInvite env session_id type inv_type).2.1 } hreg
      exact ⟨st2, h0, h1, fun _ => h2, fun h => absurd h (by decide)⟩
    | false =>
      simp only [Bool.not_false, if_true, hs1]
      obtain ⟨st2, h0, h1, h2⟩ :=
        LLIncomingCallDialog.processCallResponse_decline_effect env
          (st1.emit [Event.doNotDisturbMessage caller_id session_id])
          { session_id := session_id, session_name := session_name, caller_id := caller_id,
            caller_name := caller_name, type := type, inv_type := inv_type,
            session_handle := session_handle, session_uri := session_uri,
            notify_box_type := (LLIMMgr.classifyInvite env session_id type inv_type).1,
            question_type := (LLIMMgr.classifyInvite env session_id type inv_type).2.1 } hreg
      refine ⟨st2, h0, ?_, fun h => absurd h (by decide), fun _ => ⟨st1, rfl, ?_⟩⟩
      · rw [h1]
        simp only [MgrState.emit, hp1]
      · rw [h2]
        simp only [MgrState.emit, IMState.emit_events]
  · intro hp hc hr
    cases ho : LLIMMgr.otherRejectPolicy env caller_id
        (LLIMMgr.classifyInvite env session_id type inv_type).1 with
    | true =>
      simp only [Bool.not_true, Bool.false_eq_true, if_false]
      exact LLIncomingCallDialog.processCallResponse_no_region env st _ hc hp hr 1
        (Or.inr (Or.inl rfl))
    | false =>
      simp only [Bool.not_false, if_true, hs1]
      exact LLIncomingCallDialog.processCallResponse_no_region env _ _ hc hp hr 1
        (Or.inr (Or.inl rfl))

theorem inviteToSession_do_not_disturb_witness :
    (LLIMMgr.classifyInvite dndMgrEnv invId IM_SESSION_INVITE
        EInvitationType.INVITATION_TYPE_VOICE).2.2 = true ∧
      dndMgrEnv.isDoNotDisturb = true ∧
      (dndMgrEnv.isMuted aliceId && !dndMgrEnv.isLinden "Alice") = false ∧
      dndMgrEnv.callStarted invId = false ∧ dndMgrEnv.hasRegion = true ∧
      (LLIMMgr.inviteToSession dndMgrEnv pendingState invId "Alice Conference" aliceId "Alice"
        IM_SESSION_INVITE EInvitationType.INVITATION_TYPE_VOICE "" "").map
          (fun s => (s.mPendingInvitations.map (fun e => e.1), s.im.events)) =
        some ([], [Event.logToFile (dndMgrEnv.systemLogName LLUUID.null) dndMgrEnv.SYSTEM_FROM
            LLUUID.null (dndMgrEnv.getString "you_auto_rejected_call-im"),
          Event.doNotDisturbMessage aliceId invId, Event.declineInvitationRequest invId]) := by
  refine ⟨by decide, by decide, by decide, by decide, by decide, ?_⟩
  obtain ⟨st2, h1, h2, _, h4⟩ := (inviteToSession_do_not_disturb dndMgrEnv pendingState invId
    "Alice Conference" aliceId "Alice" IM_SESSION_INVITE EInvitationType.INVITATION_TYPE_VOICE
    "" "" (by decide) (by decide) (by decide) (by decide)).1 (Or.inr (Or.inr (by decide)))
  obtain ⟨st1, h5, h6⟩ := h4 (by decide)
  have h7 : LLIMMgr.addSystemMessage dndMgrEnv pendingState invId "you_auto_rejected_call"
      LLUUID.null = some (pendingState.emit [Event.logToFile (dndMgrEnv.systemLogName LLUUID.null)
        dndMgrEnv.SYSTEM_FROM LLUUID.null (dndMgrEnv.getString "you_auto_rejected_call-im")]) := by
    simp only [LLIMMgr.addSystemMessage]
    rfl
  rw [h7] at h5
  cases h5
  rw [h1, Option.map_some', h2, h6]
  rfl

/-- C17 (counterexample to the claim as stated): do-not-disturb is on and P2P
calls are rejected; Alice, who is not muted, invites the agent to a P2P call,
and no call to the session has started. The invitation is declined (the voice
handle is declined), and no automated decline notice is sent to Alice: the
decline of the handle is the only call made. -/
theorem inviteToSession_no_notice_counterexample :
    (LLIMMgr.classifyInvite dndRejectP2PMgrEnv invId IM_SESSION_P2P_INVITE
        EInvitationType.INVITATION_TYPE_VOICE).2.2 = true ∧
      dndRejectP2PMgrEnv.isDoNotDisturb = true ∧
      dndRejectP2PMgrEnv.isMuted aliceId = false ∧
      dndRejectP2PMgrEnv.callStarted invId = false ∧
      (LLIMMgr.inviteToSession dndRejectP2PMgrEnv (MgrState.ofIM emptyState) invId "Alice"
        aliceId "Alice" IM_SESSION_P2P_INVITE EInvitationType.INVITATION_TYPE_VOICE "handle"
        "").map (fun s => s.im.events) = some [Event.declineVoiceInvite "handle"] ∧
      (LLIMMgr.inviteToSession dndMgrEnv (MgrState.ofIM emptyState) invId "Alice"
        aliceId "Alice" IM_SESSION_P2P_INVITE EInvitationType.INVITATION_TYPE_VOICE "handle"
        "").map (fun s => s.im.events.contains (Event.doNotDisturbMessage aliceId invId)) =
          some true := by
  refine ⟨by decide, by decide, by decide, by decide, by decide, by decide⟩

/-! ### The registry invariant -/

theorem IdMap.mem_of_find {α : Type} (m : IdMap α) (k : LLUUID) (v : α)
    (h : IdMap.find m k = some v) : (k, v) ∈ m := by
  induction m with
  | nil => simp [IdMap.find] at h
  | cons e rest ih =>
    obtain ⟨k1, v1⟩ := e
    simp only [IdMap.find] at h
    split_ifs at h with hk
    · cases h
      subst hk
      exact List.mem_cons_self _ _
    · exact List.mem_cons_of_mem _ (ih h)

theorem IdMap.mem_set {α : Type} (m : IdMap α) (k : LLUUID) (v : α) (e : LLUUID × α)
    (h : e ∈ IdMap.set m k v) : e = (k, v) ∨ e ∈ m := by
  induction m with
  | nil =>
    simp only [IdMap.set, List.mem_singleton] at h
    exact Or.inl h
  | cons e1 rest ih =>
    obtain ⟨k1, v1⟩ := e1
    simp only [IdMap.set] at h
    split_ifs at h with h1 h2
    · rcases List.mem_cons.1 h with h | h
      · exact Or.inl h
      · exact Or.inr h
    · rcases List.mem_cons.1 h with h | h
      · exact Or.inl h
      · exact Or.inr (List.mem_cons_of_mem _ h)
    · rcases List.mem_cons.1 h with h | h
      · exact Or.inr (h ▸ List.mem_cons_self _ _)
      · rcases ih h with h | h
        · exact Or.inl h
        · exact Or.inr (List.mem_cons_of_mem _ h)

theorem IdMap.erase_sublist {α : Type} (m : IdMap α) (k : LLUUID) :
    (IdMap.erase m k).Sublist m := by
  induction m with
  | nil => exact List.Sublist.refl _
  | cons e rest ih =>
    obtain ⟨k1, v1⟩ := e
    simp only [IdMap.erase]
    split_ifs
    · exact List.Sublist.cons _ ih
    · exact List.Sublist.cons₂ _ ih

theorem IdMap.mem_erase {α : Type} (m : IdMap α) (k : LLUUID) (e : LLUUID × α)
    (h : e ∈ IdMap.erase m k) : e ∈ m :=
  (IdMap.erase_sublist m k).subset h

theorem IdMap.key_ne_of_mem_erase {α : Type} (m : IdMap α) (k : LLUUID) (e : LLUUID × α)
    (h : e ∈ IdMap.erase m k) : e.1 ≠ k := by
  induction m with
  | nil => simp [IdMap.erase] at h
  | cons e1 rest ih =>
    obtain ⟨k1, v1⟩ := e1
    simp only [IdMap.erase] at h
    split_ifs at h with hk
    · exact ih h
    · rcases List.mem_cons.1 h with h | h
      · subst h; exact hk
      · exact ih h

theorem IdMap.sorted_erase {α : Type} (m : IdMap α) (k : LLUUID)
    (h : m.Pairwise (fun a b => a.1.val < b.1.val)) :
    (IdMap.erase m k).Pairwise (fun a b => a.1.val < b.1.val) :=
  List.Pairwise.sublist (IdMap.erase_sublist m k) h

theorem IdMap.sorted_set {α : Type} (m : IdMap α) (k : LLUUID) (v : α)
    (h : m.Pairwise (fun a b => a.1.val < b.1.val)) :
    (IdMap.set m k v).Pairwise (fun a b => a.1.val < b.1.val) := by
  induction m with
  | nil => simp [IdMap.set]
  | cons e rest ih =>
    obtain ⟨k1, v1⟩ := e
    obtain ⟨hhead, htail⟩ := List.pairwise_cons.1 h
    simp only [IdMap.set]
    split_ifs with h1 h2
    · refine List.pairwise_cons.2 ⟨?_, h⟩
      intro b hb
      rcases List.mem_cons.1 hb with hb | hb
      · subst hb; exact h1
      · exact lt_trans h1 (hhead b hb)
    · subst h2
      exact List.pairwise_cons.2 ⟨hhead, htail⟩
    · refine List.pairwise_cons.2 ⟨?_, ih htail⟩
      intro b hb
      rcases IdMap.mem_set rest k v b hb with hb | hb
      · subst hb
        have hne : k.val ≠ k1.val := by
          intro hv
          apply h2
          cases k; cases k1
          simp only at hv
          subst hv
          rfl
        exact lt_of_le_of_ne (not_lt.1 h1) (Ne.symm hne)
      · exact hhead b hb

theorem IdMap.sorted_nodup {α : Type} (m : IdMap α)
    (h : m.Pairwise (fun a b => a.1.val < b.1.val)) : (m.map (fun e => e.1)).Nodup := by
  rw [List.Nodup, List.pairwise_map]
  exact h.imp (fun hab heq => by rw [heq] at hab; exact lt_irrefl _ hab)

theorem RegistryInv.of_map (st st1 : IMState) (hi : RegistryInv st)
    (h : st1.mId2SessionMap = st.mId2SessionMap) : RegistryInv st1 := by
  unfold RegistryInv at hi ⊢
  rw [h]
  exact hi

theorem RegistryInv.found (st : IMState) (hi : RegistryInv st) (k : LLUUID) (s : LLIMSession)
    (h : LLIMModel.findIMSession st k = some s) : s.mSessionID = k :=
  hi.2 (k, s) (IdMap.mem_of_find _ _ _ h)

theorem RegistryInv.of_set (st st1 : IMState) (hi : RegistryInv st) (k : LLUUID)
    (s : LLIMSession) (hs : s.mSessionID = k)
    (h : st1.mId2SessionMap = IdMap.set st.mId2SessionMap k s) : RegistryInv st1 := by
  unfold RegistryInv at hi ⊢
  rw [h]
  refine ⟨IdMap.sorted_set _ _ _ hi.1, fun e he => ?_⟩
  rcases IdMap.mem_set _ _ _ _ he with he | he
  · subst he; exact hs
  · exact hi.2 e he

theorem RegistryInv.of_erase (st st1 : IMState) (hi : RegistryInv st) (k : LLUUID)
    (h : st1.mId2SessionMap = IdMap.erase st.mId2SessionMap k) : RegistryInv st1 := by
  unfold RegistryInv at hi ⊢
  rw [h]
  exact ⟨IdMap.sorted_erase _ _ hi.1, fun e he => hi.2 e (IdMap.mem_erase _ _ _ he)⟩

theorem LLIMSession.create_sessionID (env : ViewerEnv) (id : LLUUID) (name : String)
    (type : EInstantMessage) (other : LLUUID) (ids : List LLUUID) (voice offline : Bool) :
    (LLIMSession.create env id name type other ids voice offline).1.mSessionID = id := by
  have hadd : ∀ (l : List HistoryLine) (s : LLIMSession),
      (s.addMessagesFromHistory l).mSessionID = s.mSessionID := by
    intro l
    induction l with
    | nil => intro s; rfl
    | cons a rest ih =>
      intro s
      simp only [LLIMSession.addMessagesFromHistory]
      rw [ih]
      rfl
  simp only [LLIMSession.create, LLIMSession.loadHistory, LLIMSession.buildHistoryFileName]
  split_ifs <;> first | rfl | (rw [hadd])

theorem LLIMModel.newSession_inv (env : ViewerEnv) (st : IMState) (id : LLUUID) (name : String)
    (type : EInstantMessage) (other : LLUUID) (ids : List LLUUID) (voice offline : Bool)
    (hi : RegistryInv st) :
    RegistryInv (LLIMModel.newSession env st id name type other ids voice offline).2 := by
  by_cases hn : name = ""
  · rw [LLIMModel.newSession_fail env st id name type other ids voice offline (Or.inl hn)]
    exact hi
  · cases hf : LLIMModel.findIMSession st id with
    | some s =>
      rw [LLIMModel.newSession_fail env st id name type other ids voice offline
        (Or.inr (by rw [hf]; rfl))]
      exact hi
    | none =>
      rw [LLIMModel.newSession_ok env st id name type other ids voice offline hn hf]
      exact RegistryInv.of_set st _ hi id _
        (LLIMSession.create_sessionID env id name type other ids voice offline) rfl

theorem LLIMModel.clearSession_inv (st : IMState) (id : LLUUID) (hi : RegistryInv st) :
    RegistryInv (LLIMModel.clearSession st id).2 := by
  unfold LLIMModel.clearSession
  split_ifs
  · exact hi
  · exact RegistryInv.of_erase st _ hi id rfl

theorem LLIMModel.addToHistory_inv (env : ViewerEnv) (st : IMState) (id : LLUUID)
    (from_name : String) (from_id : LLUUID) (text : String) (ann : Bool)
    (hi : RegistryInv st) :
    RegistryInv (LLIMModel.addToHistory env st id from_name from_id text ann).2 := by
  unfold LLIMModel.addToHistory
  cases hf : LLIMModel.findIMSession st id with
  | none => exact hi
  | some s =>
    have hs := RegistryInv.found st hi id s hf
    simp only
    split_ifs
    · exact RegistryInv.of_set st _ hi id (s.addMessage from_name from_id text env.timestamp false)
        hs rfl
    · exact RegistryInv.of_set st _ hi id (s.addMessage from_name from_id text env.timestamp false)
        hs rfl

theorem LLIMModel.addMessageSilently_inv (env : ViewerEnv) (st : IMState) (id : LLUUID)
    (from_name : String) (from_id : LLUUID) (text : String) (log2file ann : Bool)
    (hi : RegistryInv st) :
    RegistryInv (LLIMModel.addMessageSilently env st id from_name from_id text log2file ann).2 := by
  unfold LLIMModel.addMessageSilently
  cases LLIMModel.findIMSession st id with
  | none => exact hi
  | some s =>
    simp only
    generalize hst1 : (LLIMModel.addToHistory env st id
      (if env.INTERACTIVE_SYSTEM_FROM = from_name then env.SYSTEM_FROM else from_name)
      from_id text ann).2 = st1
    have h1 : RegistryInv st1 := by
      rw [← hst1]; exact LLIMModel.addToHistory_inv _ _ _ _ _ _ _ hi
    generalize hst2 : (if (log2file && !ann) = true then
        st1.emit [Event.logToFile
          (match LLIMModel.findIMSession st1 id with
            | none => ""
            | some s => s.mHistoryFileName)
          (if env.INTERACTIVE_SYSTEM_FROM = from_name then env.SYSTEM_FROM else from_name)
          from_id text]
      else st1) = st2
    have h2 : RegistryInv st2 := by
      rw [← hst2]
      by_cases hc : (log2file && !ann) = true
      · rw [if_pos hc]
        exact RegistryInv.of_map st1 _ h1 rfl
      · rw [if_neg hc]
        exact h1
    cases hf2 : LLIMModel.findIMSession st2 id with
    | none => exact h2
    | some s2 =>
      have hs2 := RegistryInv.found st2 h2 id s2 hf2
      simp only
      refine RegistryInv.of_set st2 _ h2 id _ ?_ rfl
      split_ifs <;> exact hs2

theorem LLIMModel.addMessage_inv (env : ViewerEnv) (st : IMState) (id : LLUUID)
    (from_name : String) (from_id : LLUUID) (text : String) (log2file ann kw : Bool)
    (hi : RegistryInv st) :
    RegistryInv (LLIMModel.addMessage env st id from_name from_id text log2file ann kw).2 := by
  have h := LLIMModel.addMessageSilently_inv env st id from_name from_id text log2file ann hi
  unfold LLIMModel.addMessage
  generalize LLIMModel.addMessageSilently env st id from_name from_id text log2file ann = r
    at h ⊢
  obtain ⟨r1, r2⟩ := r
  cases r1 with
  | none => exact h
  | some s =>
    simp only at h ⊢
    refine RegistryInv.of_map r2 _ h ?_
    split_ifs <;> rfl

theorem LLIMModel.sendNoUnreadMessages_inv (st : IMState) (id : LLUUID) (hi : RegistryInv st) :
    RegistryInv (LLIMModel.sendNoUnreadMessages st id) := by
  unfold LLIMModel.sendNoUnreadMessages
  cases hf : LLIMModel.findIMSession st id with
  | none => exact hi
  | some s =>
    exact RegistryInv.of_set st _ hi id
      { s with mNumUnread := 0, mParticipantUnreadMessageCount := 0 }
      (RegistryInv.found st hi id s hf) rfl

theorem LLIMSession.sessionInitReplyReceived_sessionID (s : LLIMSession) (new : LLUUID) :
    (s.sessionInitReplyReceived new).mSessionID = new := by
  simp only [LLIMSession.sessionInitReplyReceived]
  split_ifs with h
  · rfl
  · simp only [ne_eq, not_not] at h
    rw [h]

theorem LLIMModel.processSessionInitializedReply_inv (env : ViewerEnv) (st : IMState)
    (old new : LLUUID) (hi : RegistryInv st) :
    RegistryInv (LLIMModel.processSessionInitializedReply env st old new) := by
  cases hf : LLIMModel.findIMSession st old with
  | none =>
    rw [LLIMModel.processSessionInitializedReply_none env st old new hf]
    exact hi
  | some s =>
    have hnew := LLIMSession.sessionInitReplyReceived_sessionID s new
    have hmap := LLIMModel.processSessionInitializedReply_map env st old new s hf
    by_cases hon : old = new
    · rw [if_neg (not_not.2 hon)] at hmap
      exact RegistryInv.of_set st _ hi old _ (by rw [hnew, hon]) hmap
    · rw [if_pos hon] at hmap
      unfold RegistryInv at hi ⊢
      rw [hmap]
      refine ⟨IdMap.sorted_set _ _ _ (IdMap.sorted_erase _ _ (IdMap.sorted_set _ _ _ hi.1)),
        fun e he => ?_⟩
      rcases IdMap.mem_set _ _ _ _ he with he | he
      · subst he; exact hnew
      · have hk := IdMap.key_ne_of_mem_erase _ _ _ he
        rcases IdMap.mem_set _ _ _ _ (IdMap.mem_erase _ _ _ he) with he2 | he2
        · subst he2
          exact absurd rfl hk
        · exact hi.2 e he2

theorem LLIMMgr.autoStartCallOnStartup_inv (st : IMState) (id : LLUUID) (hi : RegistryInv st) :
    RegistryInv (LLIMMgr.autoStartCallOnStartup st id) := by
  unfold LLIMMgr.autoStartCallOnStartup
  cases hf : LLIMModel.findIMSession st id with
  | none => exact hi
  | some s =>
    simp only
    split_ifs
    · exact RegistryInv.of_map st _ hi rfl
    · exact RegistryInv.of_set st _ hi id { s with mStartCallOnInitialize := true }
        (RegistryInv.found st hi id s hf) rfl

theorem RegistryOp.apply_inv (env : ViewerEnv) (st : IMState) (op : RegistryOp)
    (hi : RegistryInv st) : RegistryInv (op.apply env st) := by
  cases op with
  | newSession id name type other ids voice offline =>
    exact LLIMModel.newSession_inv env st id name type other ids voice offline hi
  | clearSession id => exact LLIMModel.clearSession_inv st id hi
  | addMessage id from_name from_id text log2file ann kw =>
    exact LLIMModel.addMessage_inv env st id from_name from_id text log2file ann kw hi
  | addMessageSilently id from_name from_id text log2file ann =>
    exact LLIMModel.addMessageSilently_inv env st id from_name from_id text log2file ann hi
  | sendNoUnreadMessages id => exact LLIMModel.sendNoUnreadMessages_inv st id hi
  | processSessionInitializedReply old new =>
    exact LLIMModel.processSessionInitializedReply_inv env st old new hi
  | autoStartCallOnStartup id => exact LLIMMgr.autoStartCallOnStartup_inv st id hi
  | timerTick id =>
    exact RegistryInv.of_map st _ hi (LLSessionTimeoutTimer.tick_map env st id).1
  | addSessionObserver o => exact RegistryInv.of_map st _ hi rfl
  | removeSessionObserver o => exact RegistryInv.of_map st _ hi rfl

theorem MgrOp.apply_keeps_inv (env : MgrEnv) (st st1 : MgrState) (op : MgrOp)
    (hi : RegistryInv st.im) (h : op.apply env st = some st1) : RegistryInv st1.im := by
  cases op with
  | registry rop =>
    simp only [MgrOp.apply, Option.some.injEq] at h
    subst h
    exact RegistryOp.apply_inv env.toViewerEnv st.im rop hi
  | removeSession id =>
    simp only [MgrOp.apply] at h
    cases hf : LLIMModel.findIMSession st.im id with
    | none =>
      rw [LLIMMgr.removeSession_none st id hf] at h
      cases h
    | some s =>
      rw [LLIMMgr.removeSession_found st id s hf] at h
      cases h
      exact RegistryInv.of_erase st.im _ hi id rfl
  | leaveSession id =>
    simp only [MgrOp.apply, Option.some.injEq] at h
    subst h
    cases hf : LLIMModel.findIMSession st.im id with
    | none =>
      rw [LLIMMgr.leaveSession_none st id hf]
      exact hi
    | some s =>
      rw [LLIMMgr.leaveSession_found st id s hf]
      exact RegistryInv.of_erase st.im _ hi id rfl

theorem MgrOp.run_inv (ops : List (MgrEnv × MgrOp)) (st st1 : MgrState)
    (hi : RegistryInv st.im) (h : MgrOp.run st ops = some st1) : RegistryInv st1.im := by
  induction ops generalizing st with
  | nil =>
    simp only [MgrOp.run, Option.some.injEq] at h
    subst h
    exact hi
  | cons a rest ih =>
    obtain ⟨env, op⟩ := a
    simp only [MgrOp.run] at h
    cases hop : op.apply env st with
    | none => rw [hop] at h; cases h
    | some st2 =>
      rw [hop] at h
      exact ih st2 (MgrOp.apply_keeps_inv env st st2 op hi hop) h

theorem RegistryInv.of_empty (st : IMState) (h : st.mId2SessionMap = []) : RegistryInv st := by
  unfold RegistryInv
  rw [h]
  exact ⟨List.Pairwise.nil, fun e he => absurd he (List.not_mem_nil e)⟩

/-- C20: in every state reached from a state with an empty registry by a run
of registry operations (`newSession`, `clearSession`, the message appends,
`sendNoUnreadMessages`, `processSessionInitializedReply`, the start-call
request, timer ticks, observer registration), `removeSession` and
`leaveSession`, every record stored in the id-to-session map has as session id
the key it is stored under, the record found under a key carries that key, and
no key occurs twice, so that no two registered records share a session id. -/
theorem registry_invariant (st0 : MgrState) (ops : List (MgrEnv × MgrOp)) (st : MgrState)
    (h0 : st0.im.mId2SessionMap = []) (hrun : MgrOp.run st0 ops = some st) :
    (∀ e ∈ st.im.mId2SessionMap, e.2.mSessionID = e.1) ∧
      (∀ k s, LLIMModel.findIMSession st.im k = some s → s.mSessionID = k) ∧
      (st.im.mId2SessionMap.map (fun e => e.1)).Nodup ∧
      (st.im.mId2SessionMap.map (fun e => e.2.mSessionID)).Nodup := by
  have hi := MgrOp.run_inv ops st0 st (RegistryInv.of_empty st0.im h0) hrun
  have hkeys := IdMap.sorted_nodup _ hi.1
  refine ⟨hi.2, fun k s h => RegistryInv.found st.im hi k s h, hkeys, ?_⟩
  have hmap : st.im.mId2SessionMap.map (fun e => e.2.mSessionID) =
      st.im.mId2SessionMap.map (fun e => e.1) :=
    List.map_congr_left (fun e he => hi.2 e he)
  rw [hmap]
  exact hkeys

theorem registry_invariant_witness :
    (MgrState.ofIM emptyState).im.mId2SessionMap = [] ∧
      ∃ st, MgrOp.run (MgrState.ofIM emptyState) lifecycleOps = some st ∧
        st.im.mId2SessionMap.map (fun e => (e.1, e.2.mSessionID, e.2.mMsgs.length)) =
          [(serverConfId, serverConfId, 1)] ∧
        (∀ e ∈ st.im.mId2SessionMap, e.2.mSessionID = e.1) ∧
        (st.im.mId2SessionMap.map (fun e => e.2.mSessionID)).Nodup := by
  refine ⟨rfl, ?_⟩
  have hlist : (MgrOp.run (MgrState.ofIM emptyState) lifecycleOps).map
      (fun st => st.im.mId2SessionMap.map (fun e => (e.1, e.2.mSessionID, e.2.mMsgs.length))) =
      some [(serverConfId, serverConfId, 1)] := by decide
  cases h : MgrOp.run (MgrState.ofIM emptyState) lifecycleOps with
  | none =>
    rw [h] at hlist
    cases hlist
  | some st =>
    rw [h] at hlist
    exact ⟨st, rfl, Option.some.inj hlist,
      (registry_invariant (MgrState.ofIM emptyState) lifecycleOps st rfl h).1,
      (registry_invariant (MgrState.ofIM emptyState) lifecycleOps st rfl h).2.2.2⟩

/-! ### Unread counters -/

theorem LLIMModel.participantCondition_iff (env : ViewerEnv) (from_name : String)
    (from_id : LLUUID) :
    ((!(from_id.isNull || decide (from_id = env.gAgentID)
          || decide (env.SYSTEM_FROM = from_name)))
        || decide (env.INTERACTIVE_SYSTEM_FROM = from_name)) = true ↔
      ((from_id ≠ LLUUID.null ∧ from_id ≠ env.gAgentID ∧ from_name ≠ env.SYSTEM_FROM) ∨
        from_name = env.INTERACTIVE_SYSTEM_FROM) := by
  simp only [LLUUID.isNull, Bool.or_eq_true, Bool.not_eq_true', Bool.or_eq_false_iff,
    decide_eq_true_eq, decide_eq_false_iff_not, ne_eq, and_assoc]
  constructor
  · rintro (⟨h1, h2, h3⟩ | h)
    · exact Or.inl ⟨h1, h2, fun e => h3 e.symm⟩
    · exact Or.inr h.symm
  · rintro (⟨h1, h2, h3⟩ | h)
    · exact Or.inl ⟨h1, h2, fun e => h3 e.symm⟩
    · exact Or.inr h.symm

/-- C21 (as amended): an append to an existing session by
`LLIMModel::addMessageSilently` raises `mParticipantUnreadMessageCount` by one
in 32-bit arithmetic exactly when the sender id is neither null nor the agent
id and the sender name is not the system sender, or the sender name is the
interactive system tag: the new value is the counter plus one when the counter
is below 2^31 - 1, and the wrapped value otherwise. In every other case the
participant counter and `mParticipantLastMessageTime` are unchanged. The new
entry is at the front of the buffer, and the interactive system tag is stored
in it as the system sender name; `mNumUnread` is raised by one in 32-bit
arithmetic in all cases. -/
theorem addMessageSilently_participant_unread (env : ViewerEnv) (st : IMState) (id : LLUUID)
    (s : LLIMSession) (from_name : String) (from_id : LLUUID) (text : String)
    (log2file ann : Bool) (h : LLIMModel.findIMSession st id = some s) :
    ∃ s1 m, (LLIMModel.addMessageSilently env st id from_name from_id text log2file ann).1 =
          some s1 ∧
      LLIMModel.findIMSession
          (LLIMModel.addMessageSilently env st id from_name from_id text log2file ann).2 id =
        some s1 ∧
      (((from_id ≠ LLUUID.null ∧ from_id ≠ env.gAgentID ∧ from_name ≠ env.SYSTEM_FROM) ∨
          from_name = env.INTERACTIVE_SYSTEM_FROM) →
        s1.mParticipantUnreadMessageCount = toS32 (s.mParticipantUnreadMessageCount + 1) ∧
          (-2 ^ 31 ≤ s.mParticipantUnreadMessageCount ∧
              s.mParticipantUnreadMessageCount < 2 ^ 31 - 1 →
            s1.mParticipantUnreadMessageCount = s.mParticipantUnreadMessageCount + 1) ∧
          (s.mParticipantUnreadMessageCount = 2 ^ 31 - 1 →
            s1.mParticipantUnreadMessageCount = -2 ^ 31)) ∧
      (¬ ((from_id ≠ LLUUID.null ∧ from_id ≠ env.gAgentID ∧ from_name ≠ env.SYSTEM_FROM) ∨
          from_name = env.INTERACTIVE_SYSTEM_FROM) →
        s1.mParticipantUnreadMessageCount = s.mParticipantUnreadMessageCount ∧
          s1.mParticipantLastMessageTime = s.mParticipantLastMessageTime) ∧
      s1.mNumUnread = toS32 (s.mNumUnread + 1) ∧
      (-2 ^ 31 ≤ s.mNumUnread ∧ s.mNumUnread < 2 ^ 31 - 1 → s1.mNumUnread = s.mNumUnread + 1) ∧
      s1.mMsgs = m :: s.mMsgs ∧
      m.from_name =
        (if from_name = env.INTERACTIVE_SYSTEM_FROM then env.SYSTEM_FROM else from_name) ∧
      m.from_id = from_id ∧ m.message = text := by
  obtain ⟨h1, h2, _⟩ :=
    LLIMModel.addMessageSilently_found env st id s from_name from_id text log2file ann h
  have hiff := LLIMModel.participantCondition_iff env from_name from_id
  refine ⟨_, _, h1, h2.trans h1, ?_, ?_, rfl, ?_, rfl, ?_, rfl, rfl⟩
  · intro hc
    simp only [hiff.2 hc, if_true, true_and]
    refine ⟨fun hr => toS32_of_range _ (by omega) (by omega), fun hmax => ?_⟩
    rw [hmax]
    decide
  · intro hc
    have hb : ¬ ((!(from_id.isNull || decide (from_id = env.gAgentID)
          || decide (env.SYSTEM_FROM = from_name)))
        || decide (env.INTERACTIVE_SYSTEM_FROM = from_name)) = true := fun hb => hc (hiff.1 hb)
    rw [Bool.not_eq_true] at hb
    simp only [hb, Bool.false_eq_true, if_false, and_self]
  · intro hr
    exact toS32_of_range _ (by omega) (by omega)
  · by_cases he : from_name = env.INTERACTIVE_SYSTEM_FROM
    · simp only [he, if_true]
    · have he2 : ¬ env.INTERACTIVE_SYSTEM_FROM = from_name := fun e => he e.symm
      simp only [he, he2, if_false]

theorem addMessageSilently_participant_unread_witness :
    LLIMModel.findIMSession aliceState idX =
        some (LLIMSession.create exampleEnv idX "Alice" IM_NOTHING_SPECIAL aliceId [aliceId]
          false false).1 ∧
      (LLIMModel.findIMSession
          (LLIMModel.addMessageSilently exampleEnv aliceState idX "Alice" aliceId "hi" true
            false).2 idX).map
        (fun s => (s.mParticipantUnreadMessageCount, s.mNumUnread)) = some (1, 1) := by
  have hs : LLIMModel.findIMSession aliceState idX =
      some (LLIMSession.create exampleEnv idX "Alice" IM_NOTHING_SPECIAL aliceId [aliceId]
        false false).1 := by decide
  obtain ⟨s1, m, _, h2, h3, _, _, h5, _⟩ :=
    addMessageSilently_participant_unread exampleEnv aliceState idX _ "Alice" aliceId "hi" true
      false hs
  refine ⟨hs, ?_⟩
  rw [h2, Option.map_some', (h3 (Or.inl (by decide))).2.1 (by decide), h5 (by decide)]
  rfl

/-- C21 (counterexample to the claim as stated): after 2^31 - 1 messages from
Alice in the new P2P session both counters are 2^31 - 1; one more append from
Alice, a sender that is counted, does not raise the participant counter by
one: it leaves -2^31 in both counters. -/
theorem addMessageSilently_wrap_counterexample :
    ∃ s, LLIMModel.findIMSession
          (LLIMModel.addMessagesFrom aliceState idX "Alice" aliceId
            (List.replicate 2147483647 hiCall)) idX = some s ∧
        s.mParticipantUnreadMessageCount = 2147483647 ∧ s.mNumUnread = 2147483647 ∧
        aliceId ≠ LLUUID.null ∧ aliceId ≠ exampleEnv.gAgentID ∧
        "Alice" ≠ exampleEnv.SYSTEM_FROM ∧
        ∃ s1, (LLIMModel.addMessageSilently exampleEnv
              (LLIMModel.addMessagesFrom aliceState idX "Alice" aliceId
                (List.replicate 2147483647 hiCall)) idX "Alice" aliceId "hi" true false).1 =
            some s1 ∧
          s1.mParticipantUnreadMessageCount = -2147483648 ∧ s1.mNumUnread = -2147483648 := by
  have hs : LLIMModel.findIMSession aliceState idX =
      some (LLIMSession.create exampleEnv idX "Alice" IM_NOTHING_SPECIAL aliceId [aliceId]
        false false).1 := by decide
  obtain ⟨s, h1, h2, h3⟩ := LLIMModel.addMessagesFrom_counters aliceState idX _ "Alice" aliceId
    (List.replicate 2147483647 hiCall) hs (by decide)
    (by intro c hc; rw [List.eq_of_mem_replicate hc]; decide) (by decide) (by decide)
  have e2 : s.mNumUnread = 2147483647 := by
    rw [h2, List.length_replicate]
    decide
  have e3 : s.mParticipantUnreadMessageCount = 2147483647 := by
    rw [h3, List.length_replicate]
    decide
  obtain ⟨g1, _, _⟩ := LLIMModel.addMessageSilently_found exampleEnv _ idX s "Alice" aliceId "hi"
    true false h1
  refine ⟨s, h1, e3, e2, by decide, by decide, by decide, _, g1, ?_, ?_⟩
  · have hc : ((!(aliceId.isNull || decide (aliceId = exampleEnv.gAgentID)
          || decide (exampleEnv.SYSTEM_FROM = "Alice")))
        || decide (exampleEnv.INTERACTIVE_SYSTEM_FROM = "Alice")) = true := by decide
    simp only [hc, if_true, e3]
    decide
  · simp only [e2]
    decide

theorem IdMap.find_of_mem {α : Type} (m : IdMap α)
    (h : m.Pairwise (fun a b => a.1.val < b.1.val)) (e : LLUUID × α) (he : e ∈ m) :
    IdMap.find m e.1 = some e.2 := by
  induction m with
  | nil => exact absurd he (List.not_mem_nil e)
  | cons e1 rest ih =>
    obtain ⟨k1, v1⟩ := e1
    obtain ⟨hhead, htail⟩ := List.pairwise_cons.1 h
    simp only [IdMap.find]
    rcases List.mem_cons.1 he with he | he
    · subst he
      simp only [if_true]
    · have hlt := hhead e he
      have hne : ¬ k1 = e.1 := by
        intro hk
        rw [hk] at hlt
        exact lt_irrefl _ hlt
      simp only [hne, if_false]
      exact ih htail he

theorem LLIMSession.create_counters (env : ViewerEnv) (id : LLUUID) (name : String)
    (type : EInstantMessage) (other : LLUUID) (ids : List LLUUID) (voice offline : Bool) :
    (LLIMSession.create env id name type other ids voice offline).1.mNumUnread = 0 ∧
      (LLIMSession.create env id name type other ids voice
        offline).1.mParticipantUnreadMessageCount = 0 := by
  have hadd : ∀ (l : List HistoryLine) (s : LLIMSession),
      (s.addMessagesFromHistory l).mNumUnread = s.mNumUnread ∧
        (s.addMessagesFromHistory l).mParticipantUnreadMessageCount =
          s.mParticipantUnreadMessageCount := by
    intro l
    induction l with
    | nil => intro s; exact ⟨rfl, rfl⟩
    | cons a rest ih =>
      intro s
      simp only [LLIMSession.addMessagesFromHistory]
      rw [(ih _).1, (ih _).2]
      exact ⟨rfl, rfl⟩
  simp only [LLIMSession.create, LLIMSession.loadHistory, LLIMSession.buildHistoryFileName]
  split_ifs <;> first | exact ⟨rfl, rfl⟩ | (rw [(hadd _ _).1, (hadd _ _).2]; exact ⟨rfl, rfl⟩)

theorem LLIMModel.processSessionInitializedReply_find_old (env : ViewerEnv) (st : IMState)
    (old new : LLUUID) (s : LLIMSession) (hs : LLIMModel.findIMSession st old = some s)
    (hne : old ≠ new) :
    LLIMModel.findIMSession (LLIMModel.processSessionInitializedReply env st old new) old =
      none := by
  have hmap := LLIMModel.processSessionInitializedReply_map env st old new s hs
  simp only [LLIMModel.findIMSession, hmap, if_pos hne]
  rw [IdMap.find_set_ne _ _ _ _ hne, IdMap.find_erase_self]

theorem RegistryOp.apply_records_step (P Q : LLIMSession → Prop)
    (hPQ : ∀ s : LLIMSession, P s → Q s)
    (hcreate : ∀ (env : ViewerEnv) (id : LLUUID) (name : String) (type : EInstantMessage)
      (other : LLUUID) (ids : List LLUUID) (voice offline : Bool),
      Q (LLIMSession.create env id name type other ids voice offline).1)
    (happend : ∀ (s : LLIMSession) (m : IMMessage) (c : Bool) (now : Int),
      m.index = (s.mMsgs.length : Int) → P s →
      Q { s with
          mMsgs := m :: s.mMsgs
          mNumUnread := toS32 (s.mNumUnread + 1)
          mParticipantUnreadMessageCount :=
            if c then toS32 (s.mParticipantUnreadMessageCount + 1)
            else s.mParticipantUnreadMessageCount
          mParticipantLastMessageTime := if c then now else s.mParticipantLastMessageTime })
    (hread : ∀ s : LLIMSession, P s →
      Q { s with mNumUnread := 0, mParticipantUnreadMessageCount := 0 })
    (hreply : ∀ (s : LLIMSession) (new : LLUUID), P s → Q (s.sessionInitReplyReceived new))
    (hstart : ∀ s : LLIMSession, P s → Q { s with mStartCallOnInitialize := true })
    (env : ViewerEnv) (st : IMState) (op : RegistryOp)
    (hi : ∀ k s, LLIMModel.findIMSession st k = some s → P s) :
    ∀ k s, LLIMModel.findIMSession (op.apply env st) k = some s → Q s := by
  have silently : ∀ (id : LLUUID) (from_name : String) (from_id : LLUUID) (text : String)
      (log2file ann : Bool) (k : LLUUID) (s : LLIMSession),
      LLIMModel.findIMSession
        (LLIMModel.addMessageSilently env st id from_name from_id text log2file ann).2 k =
        some s → Q s := by
    intro id from_name from_id text log2file ann k s hk
    cases hf : LLIMModel.findIMSession st id with
    | none =>
      rw [LLIMModel.addMessageSilently_none env st id from_name from_id text log2file ann hf]
        at hk
      exact hPQ _ (hi k s hk)
    | some s0 =>
      obtain ⟨h1, h2, h3⟩ :=
        LLIMModel.addMessageSilently_found env st id s0 from_name from_id text log2file ann hf
      by_cases hkid : k = id
      · subst hkid
        rw [h2, h1] at hk
        cases hk
        exact happend s0 _ _ _ rfl (hi _ s0 hf)
      · rw [h3 k hkid] at hk
        exact hPQ _ (hi k s hk)
  intro k s hk
  cases op with
  | newSession id name type other ids voice offline =>
    simp only [RegistryOp.apply] at hk
    by_cases hn : name = ""
    · rw [LLIMModel.newSession_fail env st id name type other ids voice offline (Or.inl hn)] at hk
      exact hPQ _ (hi k s hk)
    · cases hf : LLIMModel.findIMSession st id with
      | some s0 =>
        rw [LLIMModel.newSession_fail env st id name type other ids voice offline
          (Or.inr (by rw [hf]; rfl))] at hk
        exact hPQ _ (hi k s hk)
      | none =>
        rw [LLIMModel.newSession_ok env st id name type other ids voice offline hn hf] at hk
        by_cases hkid : k = id
        · subst hkid
          simp only [LLIMModel.findIMSession, IdMap.find_set_self, Option.some.injEq] at hk
          subst hk
          exact hcreate env k name type other ids voice offline
        · simp only [LLIMModel.findIMSession, IdMap.find_set_ne _ _ _ _ hkid] at hk
          exact hPQ _ (hi k s hk)
  | clearSession id =>
    simp only [RegistryOp.apply, LLIMModel.clearSession_find] at hk
    split_ifs at hk
    exact hPQ _ (hi k s hk)
  | addMessage id from_name from_id text log2file ann kw =>
    simp only [RegistryOp.apply] at hk
    cases hf : LLIMModel.findIMSession st id with
    | none =>
      rw [LLIMModel.addMessage_none env st id from_name from_id text log2file ann kw hf] at hk
      exact hPQ _ (hi k s hk)
    | some s0 =>
      obtain ⟨_, h2, h3⟩ :=
        LLIMModel.addMessage_found env st id s0 from_name from_id text log2file ann kw hf
      obtain ⟨_, g2, _⟩ :=
        LLIMModel.addMessageSilently_found env st id s0 from_name from_id text log2file ann hf
      by_cases hkid : k = id
      · subst hkid
        rw [h2, ← g2] at hk
        exact silently _ _ _ _ _ _ _ s hk
      · rw [h3 k hkid] at hk
        exact hPQ _ (hi k s hk)
  | addMessageSilently id from_name from_id text log2file ann =>
    exact silently id from_name from_id text log2file ann k s hk
  | sendNoUnreadMessages id =>
    simp only [RegistryOp.apply] at hk
    cases hf : LLIMModel.findIMSession st id with
    | none =>
      simp only [LLIMModel.sendNoUnreadMessages, hf] at hk
      exact hPQ _ (hi k s hk)
    | some s0 =>
      obtain ⟨h1, h2⟩ := LLIMModel.sendNoUnreadMessages_found st id s0 hf
      by_cases hkid : k = id
      · subst hkid
        rw [h1] at hk
        cases hk
        exact hread s0 (hi _ s0 hf)
      · rw [h2 k hkid] at hk
        exact hPQ _ (hi k s hk)
  | processSessionInitializedReply old new =>
    simp only [RegistryOp.apply] at hk
    cases hf : LLIMModel.findIMSession st old with
    | none =>
      rw [LLIMModel.processSessionInitializedReply_none env st old new hf] at hk
      exact hPQ _ (hi k s hk)
    | some s0 =>
      by_cases hknew : k = new
      · subst hknew
        rw [LLIMModel.processSessionInitializedReply_find_new env st old k s0 hf] at hk
        cases hk
        exact hreply s0 k (hi _ s0 hf)
      · by_cases hkold : k = old
        · subst hkold
          rw [LLIMModel.processSessionInitializedReply_find_old env st k new s0 hf
            (fun e => hknew e)] at hk
          cases hk
        · rw [LLIMModel.processSessionInitializedReply_find_other env st old new k hkold hknew]
            at hk
          exact hPQ _ (hi k s hk)
  | autoStartCallOnStartup id =>
    simp only [RegistryOp.apply] at hk
    unfold LLIMMgr.autoStartCallOnStartup at hk
    cases hf : LLIMModel.findIMSession st id with
    | none =>
      rw [hf] at hk
      exact hPQ _ (hi k s hk)
    | some s0 =>
      rw [hf] at hk
      simp only at hk
      split_ifs at hk
      · exact hPQ _ (hi k s hk)
      · by_cases hkid : k = id
        · subst hkid
          simp only [LLIMModel.findIMSession, IdMap.find_set_self, Option.some.injEq] at hk
          subst hk
          exact hstart s0 (hi _ s0 hf)
        · simp only [LLIMModel.findIMSession, IdMap.find_set_ne _ _ _ _ hkid] at hk
          exact hPQ _ (hi k s hk)
  | timerTick id =>
    simp only [RegistryOp.apply, LLIMModel.findIMSession,
      (LLSessionTimeoutTimer.tick_map env st id).1] at hk
    exact hPQ _ (hi k s hk)
  | addSessionObserver o => exact hPQ _ (hi k s hk)
  | removeSessionObserver o => exact hPQ _ (hi k s hk)

theorem RegistryOp.apply_records (P : LLIMSession → Prop)
    (hcreate : ∀ (env : ViewerEnv) (id : LLUUID) (name : String) (type : EInstantMessage)
      (other : LLUUID) (ids : List LLUUID) (voice offline : Bool),
      P (LLIMSession.create env id name type other ids voice offline).1)
    (happend : ∀ (s : LLIMSession) (m : IMMessage) (c : Bool) (now : Int),
      m.index = (s.mMsgs.length : Int) → P s →
      P { s with
          mMsgs := m :: s.mMsgs
          mNumUnread := toS32 (s.mNumUnread + 1)
          mParticipantUnreadMessageCount :=
            if c then toS32 (s.mParticipantUnreadMessageCount + 1)
            else s.mParticipantUnreadMessageCount
          mParticipantLastMessageTime := if c then now else s.mParticipantLastMessageTime })
    (hread : ∀ s : LLIMSession, P s →
      P { s with mNumUnread := 0, mParticipantUnreadMessageCount := 0 })
    (hreply : ∀ (s : LLIMSession) (new : LLUUID), P s → P (s.sessionInitReplyReceived new))
    (hstart : ∀ s : LLIMSession, P s → P { s with mStartCallOnInitialize := true })
    (env : ViewerEnv) (st : IMState) (op : RegistryOp)
    (hi : ∀ k s, LLIMModel.findIMSession st k = some s → P s) :
    ∀ k s, LLIMModel.findIMSession (op.apply env st) k = some s → P s :=
  RegistryOp.apply_records_step P P (fun _ h => h) hcreate happend hread hreply hstart env st op hi

theorem MgrOp.step_records (P Q : LLIMSession → Prop)
    (hPQ : ∀ s : LLIMSession, P s → Q s)
    (hcreate : ∀ (env : ViewerEnv) (id : LLUUID) (name : String) (type : EInstantMessage)
      (other : LLUUID) (ids : List LLUUID) (voice offline : Bool),
      Q (LLIMSession.create env id name type other ids voice offline).1)
    (happend : ∀ (s : LLIMSession) (m : IMMessage) (c : Bool) (now : Int),
      m.index = (s.mMsgs.length : Int) → P s →
      Q { s with
          mMsgs := m :: s.mMsgs
          mNumUnread := toS32 (s.mNumUnread + 1)
          mParticipantUnreadMessageCount :=
            if c then toS32 (s.mParticipantUnreadMessageCount + 1)
            else s.mParticipantUnreadMessageCount
          mParticipantLastMessageTime := if c then now else s.mParticipantLastMessageTime })
    (hread : ∀ s : LLIMSession, P s →
      Q { s with mNumUnread := 0, mParticipantUnreadMessageCount := 0 })
    (hreply : ∀ (s : LLIMSession) (new : LLUUID), P s → Q (s.sessionInitReplyReceived new))
    (hstart : ∀ s : LLIMSession, P s → Q { s with mStartCallOnInitialize := true })
    (env : MgrEnv) (st st2 : MgrState) (op : MgrOp)
    (hi : ∀ k s, LLIMModel.findIMSession st.im k = some s → P s)
    (hop : op.apply env st = some st2) :
    ∀ k s, LLIMModel.findIMSession st2.im k = some s → Q s := by
  intro k s hk
  cases op with
  | registry rop =>
    simp only [MgrOp.apply, Option.some.injEq] at hop
    subst hop
    exact RegistryOp.apply_records_step P Q hPQ hcreate happend hread hreply hstart
      env.toViewerEnv st.im rop hi k s hk
  | removeSession id =>
    simp only [MgrOp.apply] at hop
    cases hf : LLIMModel.findIMSession st.im id with
    | none =>
      rw [LLIMMgr.removeSession_none st id hf] at hop
      cases hop
    | some s0 =>
      rw [LLIMMgr.removeSession_found st id s0 hf] at hop
      cases hop
      by_cases hkid : k = id
      · subst hkid
        simp only [LLIMModel.findIMSession, IdMap.find_erase_self] at hk
        cases hk
      · simp only [LLIMModel.findIMSession, IdMap.find_erase_ne _ _ _ hkid] at hk
        exact hPQ _ (hi k s hk)
  | leaveSession id =>
    simp only [MgrOp.apply, Option.some.injEq] at hop
    subst hop
    cases hf : LLIMModel.findIMSession st.im id with
    | none =>
      rw [LLIMMgr.leaveSession_none st id hf] at hk
      exact hPQ _ (hi k s hk)
    | some s0 =>
      rw [LLIMMgr.leaveSession_found st id s0 hf] at hk
      by_cases hkid : k = id
      · subst hkid
        simp only [LLIMModel.findIMSession, IdMap.find_erase_self] at hk
        cases hk
      · simp only [LLIMModel.findIMSession, IdMap.find_erase_ne _ _ _ hkid] at hk
        exact hPQ _ (hi k s hk)

/-- The bound that a run of `n` operations keeps: as long as `n` is below 2^31
the counters of a record are ordered and `mNumUnread` is at most `n`. -/
theorem MgrOp.run_counters (ops : List (MgrEnv × MgrOp)) (st st1 : MgrState) (n : Nat)
    (hi : ∀ k s, LLIMModel.findIMSession st.im k = some s →
      s.CountersOk ∧ s.mNumUnread ≤ (n : Int))
    (hlen : n + ops.length < 2 ^ 31)
    (h : MgrOp.run st ops = some st1) :
    ∀ k s, LLIMModel.findIMSession st1.im k = some s →
      s.CountersOk ∧ s.mNumUnread ≤ ((n + ops.length : Nat) : Int) := by
  induction ops generalizing st n with
  | nil =>
    simp only [MgrOp.run, Option.some.injEq] at h
    subst h
    exact hi
  | cons a rest ih =>
    obtain ⟨env, op⟩ := a
    simp only [MgrOp.run] at h
    simp only [List.length_cons] at hlen
    cases hop : op.apply env st with
    | none => rw [hop] at h; cases h
    | some st2 =>
      rw [hop] at h
      have hstep : ∀ k s, LLIMModel.findIMSession st2.im k = some s →
          s.CountersOk ∧ s.mNumUnread ≤ ((n + 1 : Nat) : Int) := by
        refine MgrOp.step_records
          (fun s => s.CountersOk ∧ s.mNumUnread ≤ (n : Int))
          (fun s => s.CountersOk ∧ s.mNumUnread ≤ ((n + 1 : Nat) : Int))
          ?_ ?_ ?_ ?_ ?_ ?_ env st st2 op hi hop
        · intro s hs
          refine ⟨hs.1, ?_⟩
          have := hs.2
          push_cast
          omega
        · intro env id name type other ids voice offline
          obtain ⟨h1, h2⟩ := LLIMSession.create_counters env id name type other ids voice offline
          unfold LLIMSession.CountersOk
          rw [h1, h2]
          refine ⟨⟨le_refl _, le_refl _⟩, ?_⟩
          push_cast
          omega
        · intro s m c now _ hs
          unfold LLIMSession.CountersOk at hs ⊢
          obtain ⟨⟨h1, h2⟩, h3⟩ := hs
          have e1 : toS32 (s.mNumUnread + 1) = s.mNumUnread + 1 :=
            toS32_of_range _ (by omega) (by omega)
          have e2 : toS32 (s.mParticipantUnreadMessageCount + 1) =
              s.mParticipantUnreadMessageCount + 1 :=
            toS32_of_range _ (by omega) (by omega)
          cases c
          · simp only [Bool.false_eq_true, if_false, e1]
            refine ⟨⟨h1, by omega⟩, ?_⟩
            push_cast
            omega
          · simp only [if_true, e1, e2]
            refine ⟨⟨by omega, by omega⟩, ?_⟩
            push_cast
            omega
        · intro s hs
          refine ⟨⟨le_refl _, le_refl _⟩, ?_⟩
          push_cast
          omega
        · intro s new hs
          obtain ⟨_, _, _, h4, h5, _⟩ := LLIMSession.sessionInitReplyReceived_fields s new
          unfold LLIMSession.CountersOk at hs ⊢
          rw [h4, h5]
          refine ⟨hs.1, ?_⟩
          have := hs.2
          push_cast
          omega
        · intro s hs
          unfold LLIMSession.CountersOk at hs ⊢
          refine ⟨hs.1, ?_⟩
          have := hs.2
          push_cast
          omega
      have hfin := ih st2 (n + 1) hstep (by omega) h
      intro k s hk
      have := hfin k s hk
      have e : n + ((env, op) :: rest).length = n + 1 + rest.length := by
        simp only [List.length_cons]
        omega
      rw [e]
      exact this

theorem MgrOp.run_addMessages (env : MgrEnv) (st : MgrState) (id : LLUUID)
    (from_name : String) (from_id : LLUUID) (text : String) (log2file ann kw : Bool) (n : Nat) :
    ∃ st1, MgrOp.run st (List.replicate n
        (env, MgrOp.registry (RegistryOp.addMessage id from_name from_id text log2file ann kw))) =
        some st1 ∧
      st1.im = LLIMModel.addMessagesFrom st.im id from_name from_id
        (List.replicate n
          { env := env.toViewerEnv, utf8_text := text, log2file := log2file,
            is_announcement := ann, keyword_alert_performed := kw }) := by
  induction n generalizing st with
  | zero => exact ⟨st, rfl, rfl⟩
  | succ n ih =>
    simp only [List.replicate_succ, MgrOp.run, MgrOp.apply, LLIMModel.addMessagesFrom,
      RegistryOp.apply]
    exact ih _

theorem counterWrapOps_run (n : Nat) :
    ∃ st s, MgrOp.run (MgrState.ofIM emptyState) (counterWrapOps n) = some st ∧
      LLIMModel.findIMSession st.im idX = some s ∧
      s.mNumUnread = toS32 n ∧ s.mParticipantUnreadMessageCount = toS32 n := by
  obtain ⟨st1, h1, h2⟩ := MgrOp.run_addMessages exampleMgrEnv
    { MgrState.ofIM emptyState with
      im := (RegistryOp.newSession idX "Alice" IM_NOTHING_SPECIAL aliceId [aliceId] false
        false).apply exampleMgrEnv.toViewerEnv emptyState }
    idX "Alice" aliceId "hi" true false false n
  have hs : LLIMModel.findIMSession
      ((RegistryOp.newSession idX "Alice" IM_NOTHING_SPECIAL aliceId [aliceId] false
        false).apply exampleMgrEnv.toViewerEnv emptyState) idX =
      some (LLIMSession.create exampleMgrEnv.toViewerEnv idX "Alice" IM_NOTHING_SPECIAL aliceId
        [aliceId] false false).1 := by decide
  obtain ⟨s, g1, g2, g3⟩ := LLIMModel.addMessagesFrom_counters _ idX _ "Alice" aliceId
    (List.replicate n
      { env := exampleMgrEnv.toViewerEnv, utf8_text := "hi", log2file := true,
        is_announcement := false, keyword_alert_performed := false }) hs (by decide)
    (by intro c hc; rw [List.eq_of_mem_replicate hc]; decide) (by decide) (by decide)
  refine ⟨st1, s, ?_, ?_, ?_, ?_⟩
  · simp only [counterWrapOps, MgrOp.run, MgrOp.apply]
    exact h1
  · rw [h2]
    exact g1
  · rw [g2, List.length_replicate]
    congr 1
    have : (LLIMSession.create exampleMgrEnv.toViewerEnv idX "Alice" IM_NOTHING_SPECIAL aliceId
        [aliceId] false false).1.mNumUnread = 0 := by decide
    rw [this, zero_add]
  · rw [g3, List.length_replicate]
    congr 1
    have : (LLIMSession.create exampleMgrEnv.toViewerEnv idX "Alice" IM_NOTHING_SPECIAL aliceId
        [aliceId] false false).1.mParticipantUnreadMessageCount = 0 := by decide
    rw [this, zero_add]

/-- C22 (as amended): in every state reached from a state with an empty
registry by a run of fewer than 2^31 operations (registry operations: session
creation, message appends, `sendNoUnreadMessages` and the others;
`removeSession`; `leaveSession`), every registered session has
`0 <= mParticipantUnreadMessageCount <= mNumUnread`, so that `mNumUnread` is
not negative, and `getNumUnread` returns -1 exactly for the ids under which no
session is registered. -/
theorem counter_invariant (st0 : MgrState) (ops : List (MgrEnv × MgrOp)) (st : MgrState)
    (h0 : st0.im.mId2SessionMap = []) (hlen : ops.length < 2 ^ 31)
    (hrun : MgrOp.run st0 ops = some st) :
    (∀ e ∈ st.im.mId2SessionMap, e.2.CountersOk ∧ 0 ≤ e.2.mNumUnread) ∧
      (∀ k s, LLIMModel.findIMSession st.im k = some s →
        0 ≤ s.mParticipantUnreadMessageCount ∧
          s.mParticipantUnreadMessageCount ≤ s.mNumUnread ∧ 0 ≤ s.mNumUnread) ∧
      (∀ k, LLIMModel.getNumUnread st.im k = -1 ↔ LLIMModel.findIMSession st.im k = none) := by
  have hfind : ∀ k s, LLIMModel.findIMSession st.im k = some s → s.CountersOk := by
    intro k s hk
    refine (MgrOp.run_counters ops st0 st 0 ?_ (by omega) hrun k s hk).1
    intro k s hk
    simp only [LLIMModel.findIMSession, h0, IdMap.find] at hk
    cases hk
  have hinv := MgrOp.run_inv ops st0 st (RegistryInv.of_empty st0.im h0) hrun
  refine ⟨fun e he => ?_, fun k s hk => ?_, fun k => ?_⟩
  · have hc := hfind e.1 e.2 (IdMap.find_of_mem _ hinv.1 e he)
    exact ⟨hc, le_trans hc.1 hc.2⟩
  · have hc := hfind k s hk
    exact ⟨hc.1, hc.2, le_trans hc.1 hc.2⟩
  · unfold LLIMModel.getNumUnread
    cases hk : LLIMModel.findIMSession st.im k with
    | none => simp
    | some s =>
      have hc := hfind k s hk
      have hn : 0 ≤ s.mNumUnread := le_trans hc.1 hc.2
      simp only [reduceCtorEq, iff_false]
      omega

theorem counter_invariant_witness :
    (MgrState.ofIM emptyState).im.mId2SessionMap = [] ∧ counterOps.length < 2 ^ 31 ∧
      ∃ st, MgrOp.run (MgrState.ofIM emptyState) counterOps = some st ∧
        st.im.mId2SessionMap.map
            (fun e => (e.2.mParticipantUnreadMessageCount, e.2.mNumUnread, e.2.mMsgs.length)) =
          [(0, 1, 3)] ∧
        (∀ e ∈ st.im.mId2SessionMap, e.2.CountersOk ∧ 0 ≤ e.2.mNumUnread) ∧
        (LLIMModel.getNumUnread st.im confId = -1 ↔
          LLIMModel.findIMSession st.im confId = none) := by
  refine ⟨rfl, by decide, ?_⟩
  have hlist : (MgrOp.run (MgrState.ofIM emptyState) counterOps).map
      (fun st => st.im.mId2SessionMap.map
        (fun e => (e.2.mParticipantUnreadMessageCount, e.2.mNumUnread, e.2.mMsgs.length))) =
      some [(0, 1, 3)] := by decide
  cases h : MgrOp.run (MgrState.ofIM emptyState) counterOps with
  | none =>
    rw [h] at hlist
    cases hlist
  | some st =>
    rw [h] at hlist
    exact ⟨st, rfl, Option.some.inj hlist,
      (counter_invariant (MgrState.ofIM emptyState) counterOps st rfl (by decide) h).1,
      (counter_invariant (MgrState.ofIM emptyState) counterOps st rfl (by decide) h).2.2 confId⟩

/-- C22 (counterexample to the claim as stated): the run creates the P2P
session with Alice in the empty registry and appends messages from Alice to
it. After 2^31 appends both counters of the registered session are -2^31, so
`mNumUnread` is negative; after 2^32 - 1 appends `getNumUnread` returns -1 for
the id of the session, which is registered. -/
theorem counter_invariant_wrap_counterexample :
    (∃ st s, MgrOp.run (MgrState.ofIM emptyState) (counterWrapOps 2147483648) = some st ∧
        LLIMModel.findIMSession st.im idX = some s ∧
        s.mNumUnread = -2147483648 ∧ s.mParticipantUnreadMessageCount = -2147483648) ∧
      (∃ st s, MgrOp.run (MgrState.ofIM emptyState) (counterWrapOps 4294967295) = some st ∧
        LLIMModel.findIMSession st.im idX = some s ∧
        LLIMModel.getNumUnread st.im idX = -1) := by
  constructor
  · obtain ⟨st, s, h1, h2, h3, h4⟩ := counterWrapOps_run 2147483648
    refine ⟨st, s, h1, h2, ?_, ?_⟩
    · rw [h3]; decide
    · rw [h4]; decide
  · obtain ⟨st, s, h1, h2, h3, _⟩ := counterWrapOps_run 4294967295
    refine ⟨st, s, h1, h2, ?_⟩
    simp only [LLIMModel.getNumUnread, h2, h3]
    decide

/-! ### The message buffer -/

theorem LLUUID.eq_of_val_eq (a b : LLUUID) (h : a.val = b.val) : a = b := by
  cases a
  cases b
  simp only at h
  subst h
  rfl

theorem LLUUID.xor_eq_null_iff (a b : LLUUID) : a.xor b = LLUUID.null ↔ a = b := by
  constructor
  · intro h
    have hv : (a.xor b).val = 0 := by rw [h]; rfl
    exact LLUUID.eq_of_val_eq a b (Nat.xor_eq_zero.1 hv)
  · intro h
    subst h
    exact LLUUID.eq_of_val_eq _ _ (Nat.xor_self a.val)

theorem LLUUID.xor_left_cancel (a b c : LLUUID) (h : a.xor c = b.xor c) : a = b := by
  have hv : a.val ^^^ c.val = b.val ^^^ c.val := congrArg LLUUID.val h
  exact LLUUID.eq_of_val_eq a b (Nat.xor_left_injective hv)

theorem LLUUID.xor_eq_right_iff (a b : LLUUID) : a.xor b = b ↔ a = LLUUID.null := by
  constructor
  · intro h
    have hv : a.val ^^^ b.val = 0 ^^^ b.val := by
      rw [Nat.zero_xor]
      exact congrArg LLUUID.val h
    exact LLUUID.eq_of_val_eq a LLUUID.null (Nat.xor_left_injective hv)
  · intro h
    subst h
    exact LLUUID.eq_of_val_eq _ _ (Nat.zero_xor b.val)

/-- C29: for one agent id, the session ids that `computeSessionID` computes for
P2P sessions (every dialog kind but group start, conference start and invite)
do not collide: two distinct other-participant ids, neither of them null,
get distinct session ids, and the session id of an other participant that is
not null is never the null id. -/
theorem computeSessionID_p2p_injective (env : ViewerEnv) (dialog : EInstantMessage)
    (other1 other2 : LLUUID)
    (hd : dialog ≠ IM_SESSION_GROUP_START ∧ dialog ≠ IM_SESSION_CONFERENCE_START ∧
      dialog ≠ IM_SESSION_INVITE)
    (h1 : other1 ≠ LLUUID.null) (h2 : other2 ≠ LLUUID.null) (hne : other1 ≠ other2) :
    (LLIMMgr.computeSessionID env dialog other1).1 ≠
        (LLIMMgr.computeSessionID env dialog other2).1 ∧
      (LLIMMgr.computeSessionID env dialog other1).1 ≠ LLUUID.null := by
  obtain ⟨hd1, hd2, hd3⟩ := hd
  simp only [LLIMMgr.computeSessionID, hd1, hd2, hd3, if_false]
  by_cases e1 : other1 = env.gAgentID <;> by_cases e2 : other2 = env.gAgentID
  · exact absurd (e1.trans e2.symm) hne
  · simp only [e1, e2, if_true, if_false]
    refine ⟨fun h => h2 ((LLUUID.xor_eq_right_iff _ _).1 h.symm), ?_⟩
    rw [← e1]
    exact h1
  · simp only [e1, e2, if_true, if_false]
    exact ⟨fun h => h1 ((LLUUID.xor_eq_right_iff _ _).1 h),
      fun h => e1 ((LLUUID.xor_eq_null_iff _ _).1 h)⟩
  · simp only [e1, e2, if_false]
    exact ⟨fun h => hne (LLUUID.xor_left_cancel _ _ _ h),
      fun h => e1 ((LLUUID.xor_eq_null_iff _ _).1 h)⟩

theorem computeSessionID_p2p_injective_witness :
    (IM_NOTHING_SPECIAL ≠ IM_SESSION_GROUP_START ∧
        IM_NOTHING_SPECIAL ≠ IM_SESSION_CONFERENCE_START ∧
        IM_NOTHING_SPECIAL ≠ IM_SESSION_INVITE) ∧
      aliceId ≠ LLUUID.null ∧ exampleEnv.gAgentID ≠ LLUUID.null ∧
      aliceId ≠ exampleEnv.gAgentID ∧
      (LLIMMgr.computeSessionID exampleEnv IM_NOTHING_SPECIAL aliceId).1 ≠
        (LLIMMgr.computeSessionID exampleEnv IM_NOTHING_SPECIAL exampleEnv.gAgentID).1 ∧
      (LLIMMgr.computeSessionID exampleEnv IM_NOTHING_SPECIAL aliceId).1 ≠ LLUUID.null :=
  ⟨by decide, by decide, by decide, by decide,
    computeSessionID_p2p_injective exampleEnv IM_NOTHING_SPECIAL aliceId exampleEnv.gAgentID
      (by decide) (by decide) (by decide) (by decide)⟩

/-! ### The frame of the session initialization reply -/

theorem IdMap.find_none_of_lt {α : Type} (m : IdMap α) (k : LLUUID)
    (h : ∀ e ∈ m, k.val < e.1.val) : IdMap.find m k = none := by
  induction m with
  | nil => rfl
  | cons e rest ih =>
    obtain ⟨k1, v1⟩ := e
    have hlt := h (k1, v1) (List.mem_cons_self _ _)
    have hne : ¬ k1 = k := by
      intro hk
      rw [hk] at hlt
      exact lt_irrefl _ hlt
    simp only [IdMap.find, hne, if_false]
    exact ih (fun e he => h e (List.mem_cons_of_mem _ he))

theorem IdMap.length_set {α : Type} (m : IdMap α) (k : LLUUID) (v : α)
    (h : m.Pairwise (fun a b => a.1.val < b.1.val)) :
    (IdMap.set m k v).length =
      if (IdMap.find m k).isSome then m.length else m.length + 1 := by
  induction m with
  | nil => simp [IdMap.set, IdMap.find]
  | cons e rest ih =>
    obtain ⟨k1, v1⟩ := e
    obtain ⟨hhead, htail⟩ := List.pairwise_cons.1 h
    by_cases h1 : k.val < k1.val
    · have hnone : IdMap.find ((k1, v1) :: rest) k = none :=
        IdMap.find_none_of_lt _ k (fun e he => by
          rcases List.mem_cons.1 he with he | he
          · subst he; exact h1
          · exact lt_trans h1 (hhead e he))
      simp only [IdMap.set, h1, if_true, hnone, Option.isSome_none, Bool.false_eq_true,
        if_false, List.length_cons]
    · by_cases h2 : k = k1
      · subst h2
        simp only [IdMap.set, h1, if_false, if_true, IdMap.find, Option.isSome_some,
          List.length_cons]
      · have hne : ¬ k1 = k := fun e => h2 e.symm
        simp only [IdMap.set, h1, h2, if_false, IdMap.find, hne, List.length_cons, ih htail]
        split_ifs <;> rfl

theorem IdMap.length_erase {α : Type} (m : IdMap α) (k : LLUUID)
    (h : m.Pairwise (fun a b => a.1.val < b.1.val)) :
    (IdMap.erase m k).length + (if (IdMap.find m k).isSome then 1 else 0) = m.length := by
  induction m with
  | nil => simp [IdMap.erase, IdMap.find]
  | cons e rest ih =>
    obtain ⟨k1, v1⟩ := e
    obtain ⟨hhead, htail⟩ := List.pairwise_cons.1 h
    by_cases h1 : k1 = k
    · subst h1
      have hnone : IdMap.find rest k1 = none := IdMap.find_none_of_lt _ k1 hhead
      simp only [IdMap.erase, IdMap.find, if_true, IdMap.erase_of_find_none rest k1 hnone,
        Option.isSome_some, List.length_cons]
    · have hrec := ih htail
      simp only [IdMap.erase, IdMap.find, h1, if_false, List.length_cons]
      omega

/-- C30 (as amended): `processSessionInitializedReply(old, new)` leaves every
session stored under an id different from both `old` and `new` found under its
id with unchanged contents; when no session exists under `old` the call changes
nothing and notifies nobody. When a session exists under `old`, the record
found under `new` afterwards is the rekeyed record, whatever was stored under
`new` before: a session already registered under `new` (`new` different from
`old`) is replaced by it, and the number of registered sessions then drops by
one; in every other case the number of registered sessions is unchanged. -/
theorem reply_frame (env : ViewerEnv) (st : IMState) (old new : LLUUID) :
    (∀ j, j ≠ old → j ≠ new →
        LLIMModel.findIMSession (LLIMModel.processSessionInitializedReply env st old new) j =
          LLIMModel.findIMSession st j) ∧
      (LLIMModel.findIMSession st old = none →
        LLIMModel.processSessionInitializedReply env st old new = st) ∧
      (∀ s, LLIMModel.findIMSession st old = some s →
        LLIMModel.findIMSession (LLIMModel.processSessionInitializedReply env st old new) new =
          some (s.sessionInitReplyReceived new)) ∧
      (st.mId2SessionMap.Pairwise (fun a b => a.1.val < b.1.val) →
        (LLIMModel.processSessionInitializedReply env st old new).mId2SessionMap.length +
            (if (LLIMModel.findIMSession st old).isSome ∧ old ≠ new ∧
                (LLIMModel.findIMSession st new).isSome then 1 else 0) =
          st.mId2SessionMap.length) := by
  refine ⟨fun j h1 h2 => LLIMModel.processSessionInitializedReply_find_other env st old new j h1 h2,
    fun h => LLIMModel.processSessionInitializedReply_none env st old new h,
    fun s hs => LLIMModel.processSessionInitializedReply_find_new env st old new s hs, ?_⟩
  intro hsorted
  cases hs : LLIMModel.findIMSession st old with
  | none =>
    rw [LLIMModel.processSessionInitializedReply_none env st old new hs]
    simp
  | some s =>
    have hfold : (IdMap.find st.mId2SessionMap old).isSome = true := by
      have : IdMap.find st.mId2SessionMap old = some s := hs
      rw [this]; rfl
    have hmap := LLIMModel.processSessionInitializedReply_map env st old new s hs
    have hlen1 := IdMap.length_set st.mId2SessionMap old (s.sessionInitReplyReceived new) hsorted
    rw [if_pos hfold] at hlen1
    by_cases hon : old = new
    · rw [if_neg (not_not.2 hon)] at hmap
      rw [hmap, hlen1]
      simp [hon]
    · rw [if_pos hon] at hmap
      have hs1 := IdMap.sorted_set st.mId2SessionMap old (s.sessionInitReplyReceived new) hsorted
      have hlen2 := IdMap.length_erase _ old hs1
      rw [IdMap.find_set_self] at hlen2
      have hs2 := IdMap.sorted_erase _ old hs1
      have hlen3 := IdMap.length_set _ new (s.sessionInitReplyReceived new) hs2
      have hnew : IdMap.find (IdMap.erase (IdMap.set st.mId2SessionMap old
          (s.sessionInitReplyReceived new)) old) new = IdMap.find st.mId2SessionMap new := by
        rw [IdMap.find_erase_ne _ _ _ (Ne.symm hon), IdMap.find_set_ne _ _ _ _ (Ne.symm hon)]
      rw [hnew] at hlen3
      rw [hmap, hlen3]
      simp only [Option.isSome_some, if_true] at hlen2
      simp only [Option.isSome_some, true_and, ne_eq, hon, not_false_eq_true,
        LLIMModel.findIMSession]
      split_ifs <;> omega

theorem reply_frame_witness :
    idX ≠ confId ∧ idX ≠ serverConfId ∧
      LLIMModel.findIMSession
          (LLIMModel.processSessionInitializedReply exampleEnv twoSessionsState confId
            serverConfId) idX =
        LLIMModel.findIMSession twoSessionsState idX ∧
      (LLIMModel.findIMSession twoSessionsState idX).map (fun s => s.mName) = some "Alice" ∧
      (LLIMModel.processSessionInitializedReply exampleEnv twoSessionsState confId
        serverConfId).mId2SessionMap.length = 2 :=
  ⟨by decide, by decide,
    (reply_frame exampleEnv twoSessionsState confId serverConfId).1 idX (by decide) (by decide),
    by decide, by decide⟩

/-- C30 (counterexample to the claim as stated): the conference waits for its
reply under its temporary id and the P2P session with Alice is registered under
another id; the reply names the id of the P2P session as the new id of the
conference. Afterwards the record found under the id of the P2P session is the
conference, the P2P session is no longer registered anywhere, and the number of
registered sessions has dropped from 2 to 1. -/
theorem reply_overwrites_counterexample :
    idX ≠ confId ∧
      (LLIMModel.findIMSession twoSessionsState idX).map (fun s => s.mName) = some "Alice" ∧
      twoSessionsState.mId2SessionMap.length = 2 ∧
      (LLIMModel.findIMSession
          (LLIMModel.processSessionInitializedReply exampleEnv twoSessionsState confId idX)
          idX).map (fun s => s.mName) = some "Conference" ∧
      (LLIMModel.processSessionInitializedReply exampleEnv twoSessionsState confId
        idX).mId2SessionMap.map (fun e => (e.1, e.2.mName)) = [(idX, "Conference")] := by
  refine ⟨by decide, by decide, by decide, by decide, by decide⟩

/-! ### Observer fan-out -/

/-- C25: every notify operation delivers its event once per registration, in
registration order (a registration is appended to the end of the observer
list), and leaves the registry as it is. The notifications are made after the
mutation: a successful `newSession` is `notifyObserverSessionAdded` run in a
state in which the id is already found; `removeSession` is
`notifyObserverSessionRemoved` run in a state in which the id is no longer
found; and a reply that changes the id is `notifyObserverSessionIDUpdated` run
in a state in which the record is found under the new id and not under the old
one, followed at most by the start of the call. -/
theorem observer_fanout (env : ViewerEnv) (st : IMState) (mst : MgrState) :
    (∀ o, (LLIMMgr.addSessionObserver st o).mSessionObservers = st.mSessionObservers ++ [o]) ∧
      (∀ id name other offline,
        (LLIMMgr.notifyObserverSessionAdded st id name other offline).events =
            st.events ++
              st.mSessionObservers.map (fun o => Event.sessionAdded o id name other offline) ∧
          (LLIMMgr.notifyObserverSessionAdded st id name other offline).mId2SessionMap =
            st.mId2SessionMap) ∧
      (∀ id,
        (LLIMMgr.notifyObserverSessionRemoved st id).events =
            st.events ++ st.mSessionObservers.map (fun o => Event.sessionRemoved o id) ∧
          (LLIMMgr.notifyObserverSessionRemoved st id).mId2SessionMap = st.mId2SessionMap) ∧
      (∀ old new,
        (LLIMMgr.notifyObserverSessionIDUpdated st old new).events =
            st.events ++ st.mSessionObservers.map (fun o => Event.sessionIDUpdated o old new) ∧
          (LLIMMgr.notifyObserverSessionIDUpdated st old new).mId2SessionMap =
            st.mId2SessionMap) ∧
      (∀ id name type other ids voice offline,
        (LLIMModel.newSession env st id name type other ids voice offline).1 = true →
        ∃ st1 session_name,
          (LLIMModel.findIMSession st1 id).isSome = true ∧
          st1.mSessionObservers = st.mSessionObservers ∧
          (LLIMModel.newSession env st id name type other ids voice offline).2 =
            LLIMMgr.notifyObserverSessionAdded st1 id session_name other offline) ∧
      (∀ id mst1, LLIMMgr.removeSession mst id = some mst1 →
        ∃ st1, LLIMModel.findIMSession st1 id = none ∧
          st1.mSessionObservers = mst.im.mSessionObservers ∧
          mst1.im = LLIMMgr.notifyObserverSessionRemoved st1 id) ∧
      (∀ old new s, LLIMModel.findIMSession st old = some s → old ≠ new →
        ∃ st1 later,
          LLIMModel.findIMSession st1 new = some (s.sessionInitReplyReceived new) ∧
          LLIMModel.findIMSession st1 old = none ∧
          st1.mSessionObservers = st.mSessionObservers ∧
          (∀ e ∈ later, e = Event.startCall new) ∧
          LLIMModel.processSessionInitializedReply env st old new =
            (LLIMMgr.notifyObserverSessionIDUpdated st1 old new).emit later) := by
  refine ⟨fun o => rfl, fun id name other offline => ⟨rfl, rfl⟩, fun id => ⟨rfl, rfl⟩,
    fun old new => ⟨rfl, rfl⟩, ?_, ?_, ?_⟩
  · intro id name type other ids voice offline hres
    by_cases hn : name = ""
    · rw [LLIMModel.newSession_fail env st id name type other ids voice offline (Or.inl hn)]
        at hres
      cases hres
    · cases hf : LLIMModel.findIMSession st id with
      | some s0 =>
        rw [LLIMModel.newSession_fail env st id name type other ids voice offline
          (Or.inr (by rw [hf]; rfl))] at hres
        cases hres
      | none =>
        rw [LLIMModel.newSession_ok env st id name type other ids voice offline hn hf]
        refine ⟨{ st with
            mId2SessionMap := IdMap.set st.mId2SessionMap id
              (LLIMSession.create env id name type other ids voice offline).1
            events := st.events ++
              (LLIMSession.create env id name type other ids voice offline).2 },
          (LLIMSession.create env id name type other ids voice offline).1.mName, ?_, rfl, rfl⟩
        simp only [LLIMModel.findIMSession, IdMap.find_set_self, Option.isSome_some]
  · intro id mst1 hrem
    cases hf : LLIMModel.findIMSession mst.im id with
    | none =>
      rw [LLIMMgr.removeSession_none mst id hf] at hrem
      cases hrem
    | some s0 =>
      rw [LLIMMgr.removeSession_found mst id s0 hf] at hrem
      cases hrem
      refine ⟨{ mst.im with mId2SessionMap := IdMap.erase mst.im.mId2SessionMap id }, ?_, rfl,
        rfl⟩
      simp only [LLIMModel.findIMSession, IdMap.find_erase_self]
  · intro old new s hs hne
    have hfind : IdMap.find st.mId2SessionMap old = some s := hs
    refine ⟨(if env.hasFloater old then
        ({ st with mId2SessionMap := IdMap.set (IdMap.erase (IdMap.set st.mId2SessionMap old
            (s.sessionInitReplyReceived new)) old) new (s.sessionInitReplyReceived new) } :
            IMState).emit [Event.floaterSessionInitReply old new]
        else { st with mId2SessionMap := IdMap.set (IdMap.erase (IdMap.set st.mId2SessionMap old
            (s.sessionInitReplyReceived new)) old) new (s.sessionInitReplyReceived new) }),
      (if (s.sessionInitReplyReceived new).mStartCallOnInitialize then [Event.startCall new]
        else []), ?_, ?_, ?_, ?_, ?_⟩
    · simp only [LLIMModel.findIMSession_ite_emit]
      simp only [LLIMModel.findIMSession, IdMap.find_set_self]
    · simp only [LLIMModel.findIMSession_ite_emit]
      simp only [LLIMModel.findIMSession]
      rw [IdMap.find_set_ne _ _ _ _ hne, IdMap.find_erase_self]
    · split_ifs <;> rfl
    · intro e he
      split_ifs at he
      · simpa using he
      · cases he
    · unfold LLIMModel.processSessionInitializedReply
      simp only [hs, hne, ne_eq, not_false_eq_true, if_true]
      split_ifs <;> simp [IMState.emit]

theorem observer_fanout_witness :
    (LLIMMgr.addSessionObserver emptyState 2).mSessionObservers = [1, 2] ∧
      (LLIMModel.newSession exampleEnv (LLIMMgr.addSessionObserver emptyState 2) idX "Alice"
        IM_NOTHING_SPECIAL aliceId [aliceId] false false).2.events =
        [Event.sessionAdded 1 idX "Alice" aliceId false,
          Event.sessionAdded 2 idX "Alice" aliceId false] ∧
      (LLIMMgr.notifyObserverSessionRemoved (LLIMMgr.addSessionObserver emptyState 2) idX).events =
        (LLIMMgr.addSessionObserver emptyState 2).events ++
          (LLIMMgr.addSessionObserver emptyState 2).mSessionObservers.map
            (fun o => Event.sessionRemoved o idX) :=
  ⟨by decide, by decide,
    ((observer_fanout exampleEnv (LLIMMgr.addSessionObserver emptyState 2)
      (MgrState.ofIM emptyState)).2.2.1 idX).1⟩

/-! ### Pending agent list updates -/

theorem LLSD.findEntry_setEntry_self (es : List (String × LLSD)) (k : String) (v : LLSD) :
    LLSD.findEntry (LLSD.setEntry es k v) k = some v := by
  induction es with
  | nil => simp [LLSD.setEntry, LLSD.findEntry]
  | cons e rest ih =>
    obtain ⟨k1, v1⟩ := e
    by_cases h : k1 = k
    · simp [LLSD.setEntry, LLSD.findEntry, h]
    · simp [LLSD.setEntry, LLSD.findEntry, h, ih]

theorem LLSD.findEntry_setEntry_ne (es : List (String × LLSD)) (k j : String) (v : LLSD)
    (hj : j ≠ k) : LLSD.findEntry (LLSD.setEntry es k v) j = LLSD.findEntry es j := by
  have hkj : ¬ k = j := fun e => hj e.symm
  induction es with
  | nil => simp only [LLSD.setEntry, LLSD.findEntry, hkj, if_false]
  | cons e rest ih =>
    obtain ⟨k1, v1⟩ := e
    by_cases h : k1 = k
    · subst h
      simp only [LLSD.setEntry, if_true, LLSD.findEntry, hkj, if_false]
    · by_cases h2 : k1 = j
      · subst h2
        simp only [LLSD.setEntry, h, if_false, LLSD.findEntry, if_true]
      · simp only [LLSD.setEntry, h, if_false, LLSD.findEntry, h2, ih]

theorem LLSD.setEntry_of_findEntry (es : List (String × LLSD)) (k : String) (v : LLSD)
    (h : LLSD.findEntry es k = some v) : LLSD.setEntry es k v = es := by
  induction es with
  | nil => simp [LLSD.findEntry] at h
  | cons e rest ih =>
    obtain ⟨k1, v1⟩ := e
    by_cases hk : k1 = k
    · simp only [LLSD.findEntry, hk, if_true, Option.some.injEq] at h
      simp only [LLSD.setEntry, hk, if_true, h]
    · simp only [LLSD.findEntry, hk, if_false] at h
      simp only [LLSD.setEntry, hk, if_false, ih h]

theorem LLSD.lookup_insert_self (d : LLSD) (k : String) (v : LLSD) :
    (d.insert k v).lookup k = some v :=
  LLSD.findEntry_setEntry_self d.entries k v

theorem LLSD.lookup_insert_ne (d : LLSD) (k j : String) (v : LLSD) (hj : j ≠ k) :
    (d.insert k v).lookup j = d.lookup j :=
  LLSD.findEntry_setEntry_ne d.entries k j v hj

theorem LLSD.eq_map_of_lookup (d : LLSD) (k : String) (v : LLSD) (h : d.lookup k = some v) :
    d = LLSD.map d.entries := by
  cases d with
  | map es => rfl
  | undef => simp [LLSD.lookup, LLSD.entries, LLSD.findEntry] at h
  | boolean b => simp [LLSD.lookup, LLSD.entries, LLSD.findEntry] at h
  | integer i => simp [LLSD.lookup, LLSD.entries, LLSD.findEntry] at h
  | string s => simp [LLSD.lookup, LLSD.entries, LLSD.findEntry] at h
  | uuid u => simp [LLSD.lookup, LLSD.entries, LLSD.findEntry] at h
  | array items => simp [LLSD.lookup, LLSD.entries, LLSD.findEntry] at h

theorem LLSD.insert_of_lookup (d : LLSD) (k : String) (v : LLSD) (h : d.lookup k = some v) :
    d.insert k v = d := by
  have hd := LLSD.eq_map_of_lookup d k v h
  unfold LLSD.insert
  rw [LLSD.setEntry_of_findEntry d.entries k v h]
  exact hd.symm

theorem LLSD.get_of_lookup (d : LLSD) (k : String) (v : LLSD) (h : d.lookup k = some v) :
    d.get k = v := by
  simp only [LLSD.get, h, Option.getD_some]

theorem LLSD.foldl_insert_lookup_absent (es : List (String × LLSD)) (u : LLSD) (a : String)
    (h : LLSD.findEntry es a = none) :
    (es.foldl (fun acc e => acc.insert e.1 e.2) u).lookup a = u.lookup a := by
  induction es generalizing u with
  | nil => rfl
  | cons e rest ih =>
    obtain ⟨k, v⟩ := e
    simp only [LLSD.findEntry] at h
    split_ifs at h with hk
    simp only [List.foldl_cons]
    rw [ih _ h, LLSD.lookup_insert_ne _ _ _ _ (fun e => hk e.symm)]

theorem LLSD.foldl_insert_lookup_present (es : List (String × LLSD)) (u : LLSD) (a : String)
    (v : LLSD) (hnodup : (es.map (fun e => e.1)).Nodup) (h : LLSD.findEntry es a = some v) :
    (es.foldl (fun acc e => acc.insert e.1 e.2) u).lookup a = some v := by
  induction es generalizing u with
  | nil => simp [LLSD.findEntry] at h
  | cons e rest ih =>
    obtain ⟨k, v0⟩ := e
    simp only [List.map_cons, List.nodup_cons] at hnodup
    simp only [LLSD.findEntry] at h
    simp only [List.foldl_cons]
    split_ifs at h with hk
    · cases h
      subst hk
      have habsent : LLSD.findEntry rest k = none := by
        cases hf : LLSD.findEntry rest k with
        | none => rfl
        | some w =>
          exfalso
          apply hnodup.1
          clear ih hnodup
          induction rest with
          | nil => simp [LLSD.findEntry] at hf
          | cons e2 rest2 ih2 =>
            obtain ⟨k2, v2⟩ := e2
            simp only [LLSD.findEntry] at hf
            split_ifs at hf with hk2
            · simp [hk2]
            · simp only [List.map_cons, List.mem_cons]
              exact Or.inr (ih2 hf)
      rw [LLSD.foldl_insert_lookup_absent rest _ k habsent, LLSD.lookup_insert_self]
    · exact ih _ hnodup.2 h

theorem LLIMMgr.mergeAgentUpdates_get (buffered : LLSD) (type : String)
    (es : List (String × LLSD)) :
    (LLIMMgr.mergeAgentUpdates buffered type es).get type =
      es.foldl (fun acc e => acc.insert e.1 e.2) (buffered.get type) := by
  induction es generalizing buffered with
  | nil => rfl
  | cons e rest ih =>
    have hstep := ih (buffered.insert type ((buffered.get type).insert e.1 e.2))
    rw [LLSD.get_of_lookup _ _ _ (LLSD.lookup_insert_self buffered type _)] at hstep
    simpa only [LLIMMgr.mergeAgentUpdates, List.foldl_cons] using hstep

theorem LLIMMgr.mergeAgentUpdates_lookup (buffered : LLSD) (type : String)
    (es : List (String × LLSD)) (hne : es ≠ []) :
    (LLIMMgr.mergeAgentUpdates buffered type es).lookup type =
      some (es.foldl (fun acc e => acc.insert e.1 e.2) (buffered.get type)) := by
  induction es generalizing buffered with
  | nil => exact absurd rfl hne
  | cons e rest ih =>
    cases rest with
    | nil =>
      simp only [LLIMMgr.mergeAgentUpdates, List.foldl_cons, List.foldl_nil]
      exact LLSD.lookup_insert_self _ _ _
    | cons e2 rest2 =>
      have hstep := ih (buffered.insert type ((buffered.get type).insert e.1 e.2))
        (List.cons_ne_nil _ _)
      rw [LLSD.get_of_lookup _ _ _ (LLSD.lookup_insert_self buffered type _)] at hstep
      simpa only [LLIMMgr.mergeAgentUpdates, List.foldl_cons] using hstep

theorem LLSD.findEntry_of_mem (es : List (String × LLSD)) (k : String) (v : LLSD)
    (hnodup : (es.map (fun e => e.1)).Nodup) (h : (k, v) ∈ es) :
    LLSD.findEntry es k = some v := by
  induction es with
  | nil => exact absurd h (List.not_mem_nil _)
  | cons e rest ih =>
    obtain ⟨k1, v1⟩ := e
    simp only [List.map_cons, List.nodup_cons] at hnodup
    rcases List.mem_cons.1 h with h | h
    · cases h
      simp only [LLSD.findEntry, if_true]
    · have hne : ¬ k1 = k := by
        intro hk
        apply hnodup.1
        rw [hk]
        exact List.mem_map.2 ⟨(k, v), h, rfl⟩
      simp only [LLSD.findEntry, hne, if_false]
      exact ih hnodup.2 h

theorem LLIMMgr.foldl_fixed {α β : Type} (f : α → β → α) (x : α) (l : List β)
    (h : ∀ e ∈ l, f x e = x) : l.foldl f x = x := by
  induction l with
  | nil => rfl
  | cons e rest ih =>
    rw [List.foldl_cons, h e (List.mem_cons_self _ _)]
    exact ih (fun e2 he2 => h e2 (List.mem_cons_of_mem _ he2))

theorem LLIMMgr.mergeAgentUpdates_idem (buffered : LLSD) (type : String)
    (es : List (String × LLSD)) (hnodup : (es.map (fun e => e.1)).Nodup) :
    LLIMMgr.mergeAgentUpdates (LLIMMgr.mergeAgentUpdates buffered type es) type es =
      LLIMMgr.mergeAgentUpdates buffered type es := by
  by_cases hne : es = []
  · subst hne
    rfl
  have hl := LLIMMgr.mergeAgentUpdates_lookup buffered type es hne
  have hg := LLSD.get_of_lookup _ _ _ hl
  generalize LLIMMgr.mergeAgentUpdates buffered type es = merged at hl hg ⊢
  unfold LLIMMgr.mergeAgentUpdates
  apply LLIMMgr.foldl_fixed
  intro e he
  have hfind := LLSD.findEntry_of_mem es e.1 e.2 hnodup he
  have hpresent := LLSD.foldl_insert_lookup_present es (buffered.get type) e.1 e.2 hnodup hfind
  show merged.insert type ((merged.get type).insert e.1 e.2) = merged
  rw [hg, LLSD.insert_of_lookup _ _ _ hpresent]
  exact LLSD.insert_of_lookup merged type _ hl

theorem IdMap.set_set {α : Type} (m : IdMap α) (k : LLUUID) (v : α) :
    IdMap.set (IdMap.set m k v) k v = IdMap.set m k v := by
  induction m with
  | nil => simp [IdMap.set]
  | cons e rest ih =>
    obtain ⟨k1, v1⟩ := e
    by_cases h1 : k.val < k1.val
    · simp [IdMap.set, h1]
    · by_cases h2 : k = k1
      · subst h2
        simp [IdMap.set]
      · simp [IdMap.set, h1, h2, ih]

theorem LLIMMgr.addPendingAgentListUpdates_old (st : MgrState) (session_id : LLUUID)
    (updates : LLSD)
    (hold : updates.has "updates" = true ∧ (updates.get "updates").isMap = true ∧
      ¬ (updates.has "agent_updates" = true ∧ (updates.get "agent_updates").isMap = true)) :
    LLIMMgr.addPendingAgentListUpdates st session_id updates =
      { st with mPendingAgentListUpdates :=
          (IdMap.set st.mPendingAgentListUpdates session_id
            (LLIMMgr.mergeAgentUpdates
              (match IdMap.find st.mPendingAgentListUpdates session_id with
                | none => LLSD.map []
                | some b => b)
              "updates" (updates.get "updates").entries)) } := by
  obtain ⟨h1, h2, h3⟩ := hold
  have hnew : (updates.has "agent_updates" && (updates.get "agent_updates").isMap &&
      updates.has "updates" && (updates.get "updates").isMap) = false := by
    rw [Bool.eq_false_iff]
    intro h
    simp only [Bool.and_eq_true] at h
    exact h3 ⟨h.1.1.1, h.1.1.2⟩
  unfold LLIMMgr.addPendingAgentListUpdates
  simp only [hnew, Bool.false_eq_true, if_false]
  simp only [h1, h2, Bool.and_self, if_true]

/-- C24: for old-style payloads (a map under "updates", no map under
"agent_updates") whose maps hold each agent once, after
`addPendingAgentListUpdates(s, u1)` followed by
`addPendingAgentListUpdates(s, u2)` the value buffered for `s` under "updates"
holds, for every agent of `u2`, the value of `u2`, for every agent of `u1`
that is not in `u2`, the value of `u1`, and for every other agent what was
buffered before. Adding the same payload twice gives the same state as adding
it once, the buffers of the other sessions are as before, and after
`clearPendingAgentListUpdates(s)` nothing is buffered for `s`. -/
theorem pending_updates_merge (st : MgrState) (s : LLUUID) (u1 u2 : LLSD)
    (h1 : u1.has "updates" = true ∧ (u1.get "updates").isMap = true ∧
      ¬ (u1.has "agent_updates" = true ∧ (u1.get "agent_updates").isMap = true))
    (h2 : u2.has "updates" = true ∧ (u2.get "updates").isMap = true ∧
      ¬ (u2.has "agent_updates" = true ∧ (u2.get "agent_updates").isMap = true))
    (hn1 : ((u1.get "updates").entries.map (fun e => e.1)).Nodup)
    (hn2 : ((u2.get "updates").entries.map (fun e => e.1)).Nodup) :
    (∀ a v, (u2.get "updates").lookup a = some v →
        ((LLIMMgr.getPendingAgentListUpdates
          (LLIMMgr.addPendingAgentListUpdates (LLIMMgr.addPendingAgentListUpdates st s u1) s u2)
          s).get "updates").lookup a = some v) ∧
      (∀ a v, (u2.get "updates").lookup a = none → (u1.get "updates").lookup a = some v →
        ((LLIMMgr.getPendingAgentListUpdates
          (LLIMMgr.addPendingAgentListUpdates (LLIMMgr.addPendingAgentListUpdates st s u1) s u2)
          s).get "updates").lookup a = some v) ∧
      (∀ a, (u2.get "updates").lookup a = none → (u1.get "updates").lookup a = none →
        ((LLIMMgr.getPendingAgentListUpdates
          (LLIMMgr.addPendingAgentListUpdates (LLIMMgr.addPendingAgentListUpdates st s u1) s u2)
          s).get "updates").lookup a =
        ((LLIMMgr.getPendingAgentListUpdates st s).get "updates").lookup a) ∧
      LLIMMgr.addPendingAgentListUpdates (LLIMMgr.addPendingAgentListUpdates st s u1) s u1 =
        LLIMMgr.addPendingAgentListUpdates st s u1 ∧
      (∀ j, j ≠ s →
        LLIMMgr.getPendingAgentListUpdates
            (LLIMMgr.addPendingAgentListUpdates (LLIMMgr.addPendingAgentListUpdates st s u1) s
              u2) j =
          LLIMMgr.getPendingAgentListUpdates st j) ∧
      IdMap.find (LLIMMgr.clearPendingAgentListUpdates
          (LLIMMgr.addPendingAgentListUpdates (LLIMMgr.addPendingAgentListUpdates st s u1) s u2)
          s).mPendingAgentListUpdates s = none ∧
      LLIMMgr.getPendingAgentListUpdates (LLIMMgr.clearPendingAgentListUpdates
          (LLIMMgr.addPendingAgentListUpdates (LLIMMgr.addPendingAgentListUpdates st s u1) s u2)
          s) s = LLSD.undef := by
  have hbefore : (match IdMap.find st.mPendingAgentListUpdates s with
      | none => LLSD.map []
      | some b => b).get "updates" = (LLIMMgr.getPendingAgentListUpdates st s).get "updates" := by
    unfold LLIMMgr.getPendingAgentListUpdates
    cases IdMap.find st.mPendingAgentListUpdates s <;> rfl
  generalize hb0 : (match IdMap.find st.mPendingAgentListUpdates s with
      | none => LLSD.map []
      | some b => b) = b0 at hbefore
  have e1 : LLIMMgr.addPendingAgentListUpdates st s u1 =
      { st with mPendingAgentListUpdates :=
          (IdMap.set st.mPendingAgentListUpdates s
            (LLIMMgr.mergeAgentUpdates b0 "updates" (u1.get "updates").entries)) } := by
    rw [LLIMMgr.addPendingAgentListUpdates_old st s u1 h1, hb0]
  have e2 : ∀ u, (u.has "updates" = true ∧ (u.get "updates").isMap = true ∧
        ¬ (u.has "agent_updates" = true ∧ (u.get "agent_updates").isMap = true)) →
      LLIMMgr.addPendingAgentListUpdates (LLIMMgr.addPendingAgentListUpdates st s u1) s u =
      { st with mPendingAgentListUpdates :=
          (IdMap.set (IdMap.set st.mPendingAgentListUpdates s
              (LLIMMgr.mergeAgentUpdates b0 "updates" (u1.get "updates").entries)) s
            (LLIMMgr.mergeAgentUpdates
              (LLIMMgr.mergeAgentUpdates b0 "updates" (u1.get "updates").entries)
              "updates" (u.get "updates").entries)) } := by
    intro u hu
    rw [LLIMMgr.addPendingAgentListUpdates_old _ s u hu, e1]
    simp only [IdMap.find_set_self]
  have hget : LLIMMgr.getPendingAgentListUpdates
      (LLIMMgr.addPendingAgentListUpdates (LLIMMgr.addPendingAgentListUpdates st s u1) s u2) s =
      LLIMMgr.mergeAgentUpdates
        (LLIMMgr.mergeAgentUpdates b0 "updates" (u1.get "updates").entries)
        "updates" (u2.get "updates").entries := by
    rw [e2 u2 h2]
    simp only [LLIMMgr.getPendingAgentListUpdates, IdMap.find_set_self]
  have hupd : (LLIMMgr.getPendingAgentListUpdates
      (LLIMMgr.addPendingAgentListUpdates (LLIMMgr.addPendingAgentListUpdates st s u1) s u2)
      s).get "updates" =
      (u2.get "updates").entries.foldl (fun acc e => acc.insert e.1 e.2)
        ((u1.get "updates").entries.foldl (fun acc e => acc.insert e.1 e.2)
          (b0.get "updates")) := by
    rw [hget, LLIMMgr.mergeAgentUpdates_get, LLIMMgr.mergeAgentUpdates_get]
  refine ⟨?_, ?_, ?_, ?_, ?_, ?_, ?_⟩
  · intro a v hv
    rw [hupd]
    exact LLSD.foldl_insert_lookup_present _ _ a v hn2 hv
  · intro a v hnone hv
    rw [hupd, LLSD.foldl_insert_lookup_absent _ _ a hnone]
    exact LLSD.foldl_insert_lookup_present _ _ a v hn1 hv
  · intro a hnone2 hnone1
    rw [hupd, LLSD.foldl_insert_lookup_absent _ _ a hnone2,
      LLSD.foldl_insert_lookup_absent _ _ a hnone1, hbefore]
  · rw [e2 u1 h1, e1, LLIMMgr.mergeAgentUpdates_idem b0 "updates" _ hn1, IdMap.set_set]
  · intro j hj
    rw [e2 u2 h2]
    simp only [LLIMMgr.getPendingAgentListUpdates, IdMap.find_set_ne _ _ _ _ hj]
  · rw [LLIMMgr.clearPendingAgentListUpdates_eq]
    exact IdMap.find_erase_self _ _
  · rw [LLIMMgr.clearPendingAgentListUpdates_eq]
    simp only [LLIMMgr.getPendingAgentListUpdates, IdMap.find_erase_self]

theorem pending_updates_merge_witness :
    (rosterEnter.has "updates" = true ∧ (rosterEnter.get "updates").isMap = true ∧
        ¬ (rosterEnter.has "agent_updates" = true ∧
          (rosterEnter.get "agent_updates").isMap = true)) ∧
      (rosterLeave.has "updates" = true ∧ (rosterLeave.get "updates").isMap = true ∧
        ¬ (rosterLeave.has "agent_updates" = true ∧
          (rosterLeave.get "agent_updates").isMap = true)) ∧
      ((rosterEnter.get "updates").entries.map (fun e => e.1)).Nodup ∧
      ((rosterLeave.get "updates").entries.map (fun e => e.1)).Nodup ∧
      ((LLIMMgr.getPendingAgentListUpdates
          (LLIMMgr.addPendingAgentListUpdates
            (LLIMMgr.addPendingAgentListUpdates (MgrState.ofIM emptyState) invId rosterEnter)
            invId rosterLeave) invId).get "updates").lookup "b" = some (LLSD.string "LEAVE") ∧
      ((LLIMMgr.getPendingAgentListUpdates
          (LLIMMgr.addPendingAgentListUpdates
            (LLIMMgr.addPendingAgentListUpdates (MgrState.ofIM emptyState) invId rosterEnter)
            invId rosterLeave) invId).get "updates").lookup "a" = some (LLSD.string "ENTER") :=
  ⟨by decide, by decide, by decide, by decide,
    (pending_updates_merge (MgrState.ofIM emptyState) invId rosterEnter rosterLeave (by decide)
      (by decide) (by decide) (by decide)).1 "b" (LLSD.string "LEAVE") rfl,
    (pending_updates_merge (MgrState.ofIM emptyState) invId rosterEnter rosterLeave (by decide)
      (by decide) (by decide) (by decide)).2.1 "a" (LLSD.string "ENTER") rfl rfl⟩

/-! ### Message splitting -/

theorem toU32_of_lt (n : Nat) (h : n < 2 ^ 32) : toU32 n = n :=
  Nat.mod_eq_of_lt h

theorem LLIMModel.byteAt_some (text : List Nat) (i : Nat) (h : i ≤ text.length) :
    LLIMModel.byteAt text i = some (text.getD i 0) := by
  simp only [LLIMModel.byteAt, h, if_true]

theorem LLIMModel.byteAt_u32 (text : List Nat) (i : Nat) (h : i ≤ text.length)
    (hfit : text.length < 2 ^ 32) :
    LLIMModel.byteAt text (toU32 i) = some (text.getD i 0) := by
  rw [toU32_of_lt i (by omega)]
  exact LLIMModel.byteAt_some text i h

theorem LLIMModel.scanSpace_some (text : List Nat) (pos n : Nat) (h : pos + n ≤ text.length)
    (hfit : text.length < 2 ^ 32) :
    ∃ r, LLIMModel.scanSpace text pos n = some r ∧ r ≤ n := by
  induction n with
  | zero =>
    refine ⟨0, ?_, le_refl _⟩
    simp only [LLIMModel.scanSpace, LLIMModel.byteAt_u32 text pos (by omega) hfit,
      Option.map_some']
  | succ n ih =>
    obtain ⟨r, hr, hle⟩ := ih (by omega)
    simp only [LLIMModel.scanSpace, LLIMModel.byteAt_u32 text (pos + (n + 1)) h hfit]
    split_ifs
    · exact ⟨r, hr, by omega⟩
    · exact ⟨n + 1, rfl, le_refl _⟩

theorem LLIMModel.scanUtf8_some (text : List Nat) (pos n : Nat) (h : pos + n ≤ text.length)
    (hfit : text.length < 2 ^ 32) :
    ∃ r, LLIMModel.scanUtf8 text pos n = some r ∧ r ≤ n := by
  induction n with
  | zero =>
    refine ⟨0, ?_, le_refl _⟩
    simp only [LLIMModel.scanUtf8, LLIMModel.byteAt_u32 text pos (by omega) hfit,
      Option.map_some']
  | succ n ih =>
    obtain ⟨r, hr, hle⟩ := ih (by omega)
    simp only [LLIMModel.scanUtf8, LLIMModel.byteAt_u32 text (pos + (n + 1)) h hfit]
    split_ifs
    · exact ⟨r, hr, by omega⟩
    · exact ⟨n + 1, rfl, le_refl _⟩

theorem LLIMModel.nextSplit_rest (split : Nat) (text : List Nat) (pos : Nat)
    (hfit : text.length + split < 2 ^ 32) (hpos : pos ≤ text.length)
    (h : pos + split > text.length) :
    LLIMModel.nextSplit split text pos = some (text.length - pos) := by
  simp only [LLIMModel.nextSplit, toU32_of_lt (pos + split) (by omega),
    toU32_of_lt text.length (by omega), h, if_true]

theorem LLIMModel.nextSplit_space (split : Nat) (text : List Nat) (pos n1 : Nat)
    (hfit : text.length + split < 2 ^ 32)
    (h : ¬ pos + split > text.length) (h1 : LLIMModel.scanSpace text pos split = some n1)
    (hn1 : n1 ≠ 0) : LLIMModel.nextSplit split text pos = some n1 := by
  simp only [LLIMModel.nextSplit, toU32_of_lt (pos + split) (by omega),
    toU32_of_lt text.length (by omega), h, if_false, h1, hn1]

theorem LLIMModel.nextSplit_utf8 (split : Nat) (text : List Nat) (pos n2 : Nat)
    (hfit : text.length + split < 2 ^ 32)
    (h : ¬ pos + split > text.length) (h1 : LLIMModel.scanSpace text pos split = some 0)
    (h2 : LLIMModel.scanUtf8 text pos split = some n2) (hn2 : n2 ≠ 0) :
    LLIMModel.nextSplit split text pos = some n2 := by
  simp only [LLIMModel.nextSplit, toU32_of_lt (pos + split) (by omega),
    toU32_of_lt text.length (by omega), h, if_false, h1, if_true, h2, hn2]

theorem LLIMModel.nextSplit_some (split : Nat) (text : List Nat) (pos : Nat)
    (hsplit : 0 < split) (hfit : text.length + split < 2 ^ 32) (hpos : pos < text.length) :
    ∃ n, LLIMModel.nextSplit split text pos = some n ∧ 0 < n ∧ n ≤ split ∧
      pos + n ≤ text.length := by
  by_cases hrest : pos + split > text.length
  · rw [LLIMModel.nextSplit_rest split text pos hfit (by omega) hrest]
    exact ⟨_, rfl, by omega, by omega, by omega⟩
  · obtain ⟨n1, h1, hle1⟩ := LLIMModel.scanSpace_some text pos split (by omega) (by omega)
    obtain ⟨n2, h2, hle2⟩ := LLIMModel.scanUtf8_some text pos split (by omega) (by omega)
    by_cases hz1 : n1 = 0
    · subst hz1
      by_cases hz2 : n2 = 0
      · subst hz2
        refine ⟨split, ?_, by omega, by omega, by omega⟩
        simp only [LLIMModel.nextSplit, toU32_of_lt (pos + split) (by omega),
          toU32_of_lt text.length (by omega), hrest, if_false, h1, if_true, h2]
      · rw [LLIMModel.nextSplit_utf8 split text pos n2 hfit hrest h1 h2 hz2]
        exact ⟨_, rfl, by omega, by omega, by omega⟩
    · rw [LLIMModel.nextSplit_space split text pos n1 hfit hrest h1 hz1]
      exact ⟨_, rfl, by omega, by omega, by omega⟩

theorem LLIMModel.sendLoop_done (split : Nat) (text : List Nat) (fuel pos : Nat)
    (hfit : text.length < 2 ^ 32)
    (h : text.length ≤ pos) : LLIMModel.sendLoop split text fuel pos = some [] := by
  have hpos : ¬ pos < text.length := by omega
  cases fuel <;> simp only [LLIMModel.sendLoop, toU32_of_lt text.length hfit, hpos, if_false]

theorem LLIMModel.sendLoop_step (split : Nat) (text : List Nat) (fuel pos n : Nat)
    (hfit : text.length < 2 ^ 32)
    (hpos : pos < text.length) (hn : LLIMModel.nextSplit split text pos = some n)
    (hend : pos + n ≤ text.length) :
    LLIMModel.sendLoop split text (fuel + 1) pos =
      (LLIMModel.sendLoop split text fuel (pos + n)).map
        (fun rest => (text.drop pos).take n :: rest) := by
  simp only [LLIMModel.sendLoop, toU32_of_lt text.length hfit, hpos, if_true, hn,
    toU32_of_lt (pos + n) (by omega)]

theorem LLIMModel.sendLoop_some (split : Nat) (text : List Nat) (hsplit : 0 < split)
    (hfit : text.length + split < 2 ^ 32)
    (fuel pos : Nat) (hfuel : text.length - pos ≤ fuel) :
    ∃ chunks, LLIMModel.sendLoop split text fuel pos = some chunks ∧
      chunks.flatten = text.drop pos ∧
      (∀ c ∈ chunks, c ≠ [] ∧ c.length ≤ split) ∧
      (text.length ≤ pos → chunks = []) := by
  induction fuel generalizing pos with
  | zero =>
    refine ⟨[], ?_, ?_, fun c hc => absurd hc (List.not_mem_nil c), fun _ => rfl⟩
    · exact LLIMModel.sendLoop_done split text 0 pos (by omega) (by omega)
    · rw [List.drop_eq_nil_of_le (by omega)]
      rfl
  | succ fuel ih =>
    by_cases hpos : pos < text.length
    · obtain ⟨n, hn, h0, hle, hend⟩ := LLIMModel.nextSplit_some split text pos hsplit hfit hpos
      obtain ⟨rest, hrest, hjoin, hall, _⟩ := ih (pos + n) (by omega)
      refine ⟨(text.drop pos).take n :: rest, ?_, ?_, ?_, fun h => absurd h (by omega)⟩
      · rw [LLIMModel.sendLoop_step split text fuel pos n (by omega) hpos hn hend, hrest,
          Option.map_some']
      · rw [List.flatten_cons, hjoin, ← List.drop_drop, List.take_append_drop]
      · intro c hc
        rcases List.mem_cons.1 hc with hc | hc
        · subst hc
          have hlen : ((text.drop pos).take n).length = n := by
            rw [List.length_take, List.length_drop]
            omega
          refine ⟨fun h => ?_, by omega⟩
          rw [h] at hlen
          simp only [List.length_nil] at hlen
          omega
        · exact hall c hc
    · refine ⟨[], ?_, ?_, fun c hc => absurd hc (List.not_mem_nil c), fun _ => rfl⟩
      · exact LLIMModel.sendLoop_done split text _ pos (by omega) (by omega)
      · rw [List.drop_eq_nil_of_le (by omega)]
        rfl

theorem LLIMModel.scanSpace_none_found (text : List Nat) (pos n : Nat)
    (h : pos + n ≤ text.length) (hfit : text.length < 2 ^ 32)
    (hno : ∀ j, 0 < j → j ≤ n → text.getD (pos + j) 0 ≠ 32) :
    LLIMModel.scanSpace text pos n = some 0 := by
  induction n with
  | zero =>
    simp only [LLIMModel.scanSpace, LLIMModel.byteAt_u32 text pos (by omega) hfit,
      Option.map_some']
  | succ n ih =>
    simp only [LLIMModel.scanSpace, LLIMModel.byteAt_u32 text (pos + (n + 1)) h hfit]
    rw [if_pos (hno (n + 1) (by omega) (le_refl _))]
    exact ih (by omega) (fun j h1 h2 => hno j h1 (by omega))

theorem LLIMModel.scanSpace_found (text : List Nat) (pos n j : Nat)
    (h : pos + n ≤ text.length) (hfit : text.length < 2 ^ 32) (hj0 : 0 < j) (hjn : j ≤ n)
    (hsp : text.getD (pos + j) 0 = 32)
    (hlast : ∀ i, j < i → i ≤ n → text.getD (pos + i) 0 ≠ 32) :
    LLIMModel.scanSpace text pos n = some j := by
  induction n with
  | zero => omega
  | succ n ih =>
    simp only [LLIMModel.scanSpace, LLIMModel.byteAt_u32 text (pos + (n + 1)) h hfit]
    by_cases hjn1 : j = n + 1
    · subst hjn1
      simp only [hsp, ne_eq, not_true_eq_false, if_false]
    · rw [if_pos (hlast (n + 1) (by omega) (le_refl _))]
      exact ih (by omega) (by omega) (fun i h1 h2 => hlast i h1 (by omega))

theorem LLIMModel.scanUtf8_stop (text : List Nat) (pos n : Nat) (hn : 0 < n)
    (h : pos + n ≤ text.length) (hfit : text.length < 2 ^ 32)
    (hb : ¬ (128 ≤ text.getD (pos + n) 0 ∧ text.getD (pos + n) 0 < 192)) :
    LLIMModel.scanUtf8 text pos n = some n := by
  cases n with
  | zero => omega
  | succ n =>
    simp only [LLIMModel.scanUtf8, LLIMModel.byteAt_u32 text (pos + (n + 1)) h hfit, hb,
      if_false]

theorem LLIMModel.sendLoop_short (split : Nat) (text : List Nat) (fuel : Nat)
    (hfit : text.length + split < 2 ^ 32)
    (hne : text ≠ []) (hlen : text.length < split) :
    LLIMModel.sendLoop split text (fuel + 1) 0 = some [text] := by
  have hpos : 0 < text.length := List.length_pos.2 hne
  rw [LLIMModel.sendLoop_step split text fuel 0 _ (by omega) hpos
      (LLIMModel.nextSplit_rest split text 0 hfit (by omega) (by omega)) (by omega),
    LLIMModel.sendLoop_done split text fuel _ (by omega) (by omega), Option.map_some',
    List.drop_zero, Nat.sub_zero, List.take_length]

theorem LLIMModel.sendLoop_exact_whole (split : Nat) (text : List Nat) (fuel : Nat)
    (hfit : text.length + split < 2 ^ 32)
    (hsplit : 0 < split) (hlen : text.length = split)
    (hno : ∀ j, 0 < j → j < split → text.getD j 0 ≠ 32) :
    LLIMModel.sendLoop split text (fuel + 1) 0 = some [text] := by
  have hpos : 0 < text.length := by omega
  have hterm : text.getD split 0 = 0 := by
    rw [List.getD_eq_default]
    omega
  have h1 : LLIMModel.scanSpace text 0 split = some 0 := by
    apply LLIMModel.scanSpace_none_found text 0 split (by omega) (by omega)
    intro j hj0 hjn
    rw [Nat.zero_add]
    by_cases hjs : j = split
    · rw [hjs, hterm]
      decide
    · exact hno j hj0 (by omega)
  have h2 : LLIMModel.scanUtf8 text 0 split = some split := by
    apply LLIMModel.scanUtf8_stop text 0 split hsplit (by omega) (by omega)
    rw [Nat.zero_add, hterm]
    decide
  rw [LLIMModel.sendLoop_step split text fuel 0 split (by omega) hpos
      (LLIMModel.nextSplit_utf8 split text 0 split hfit (by omega) h1 h2 (by omega)) (by omega),
    LLIMModel.sendLoop_done split text fuel _ (by omega) (by omega), Option.map_some',
    List.drop_zero, ← hlen, List.take_length]

theorem LLIMModel.sendLoop_split_at_space (split : Nat) (text : List Nat) (fuel j : Nat)
    (hfit : text.length + split < 2 ^ 32)
    (hlen1 : split ≤ text.length) (hlen2 : text.length < j + split) (hj0 : 0 < j)
    (hjs : j ≤ split) (hsp : text.getD j 0 = 32)
    (hlast : ∀ i, j < i → i ≤ split → text.getD i 0 ≠ 32) :
    LLIMModel.sendLoop split text (fuel + 2) 0 = some [text.take j, text.drop j] := by
  have hpos : 0 < text.length := by omega
  have h1 : LLIMModel.scanSpace text 0 split = some j := by
    apply LLIMModel.scanSpace_found text 0 split j (by omega) (by omega) hj0 hjs
    · rw [Nat.zero_add]; exact hsp
    · intro i hi1 hi2
      rw [Nat.zero_add]
      exact hlast i hi1 hi2
  by_cases hjl : j < text.length
  · have hsecond : LLIMModel.sendLoop split text (fuel + 1) (0 + j) = some [text.drop j] := by
      rw [Nat.zero_add, LLIMModel.sendLoop_step split text fuel j _ (by omega) hjl
          (LLIMModel.nextSplit_rest split text j hfit (by omega) (by omega)) (by omega),
        LLIMModel.sendLoop_done split text fuel _ (by omega) (by omega), Option.map_some',
        List.take_of_length_le (by rw [List.length_drop])]
    rw [LLIMModel.sendLoop_step split text (fuel + 1) 0 j (by omega) hpos
        (LLIMModel.nextSplit_space split text 0 j hfit (by omega) h1 (by omega)) (by omega),
      hsecond, Option.map_some', List.drop_zero]
  · exfalso
    have hjeq : j = text.length := by omega
    rw [hjeq, List.getD_eq_default _ _ (le_refl _)] at hsp
    cases hsp

theorem LLIMModel.sendLoop_exact_split (split : Nat) (text : List Nat) (fuel j : Nat)
    (hfit : text.length + split < 2 ^ 32)
    (hlen : text.length = split) (hj0 : 0 < j) (hjs : j < split)
    (hsp : text.getD j 0 = 32)
    (hlast : ∀ i, j < i → i < split → text.getD i 0 ≠ 32) :
    LLIMModel.sendLoop split text (fuel + 2) 0 = some [text.take j, text.drop j] := by
  apply LLIMModel.sendLoop_split_at_space split text fuel j hfit (by omega) (by omega) hj0
    (by omega) hsp
  intro i hi1 hi2
  by_cases his : i = split
  · rw [his, List.getD_eq_default _ _ (by omega)]
    decide
  · exact hlast i hi1 (by omega)

theorem LLIMModel.sendLoop_split_no_space (split : Nat) (text : List Nat) (fuel : Nat)
    (hfit : text.length + split < 2 ^ 32) (hsplit : 0 < split)
    (hlen1 : split < text.length) (hlen2 : text.length < split + split)
    (hno : ∀ j, 0 < j → j ≤ split → text.getD j 0 ≠ 32)
    (hb : ¬ (128 ≤ text.getD split 0 ∧ text.getD split 0 < 192)) :
    LLIMModel.sendLoop split text (fuel + 2) 0 = some [text.take split, text.drop split] := by
  have hpos : 0 < text.length := by omega
  have h1 : LLIMModel.scanSpace text 0 split = some 0 := by
    apply LLIMModel.scanSpace_none_found text 0 split (by omega) (by omega)
    intro j hj0 hjn
    rw [Nat.zero_add]
    exact hno j hj0 hjn
  have h2 : LLIMModel.scanUtf8 text 0 split = some split := by
    apply LLIMModel.scanUtf8_stop text 0 split hsplit (by omega) (by omega)
    rw [Nat.zero_add]
    exact hb
  have hsecond : LLIMModel.sendLoop split text (fuel + 1) (0 + split) =
      some [text.drop split] := by
    rw [Nat.zero_add, LLIMModel.sendLoop_step split text fuel split _ (by omega) hlen1
        (LLIMModel.nextSplit_rest split text split hfit (by omega) (by omega)) (by omega),
      LLIMModel.sendLoop_done split text fuel _ (by omega) (by omega), Option.map_some',
      List.take_of_length_le (by rw [List.length_drop])]
  rw [LLIMModel.sendLoop_step split text (fuel + 1) 0 split (by omega) hpos
      (LLIMModel.nextSplit_utf8 split text 0 split hfit (by omega) h1 h2 (by omega)) (by omega),
    hsecond, Option.map_some', List.drop_zero]

theorem LLIMModel.getD_padded (a b x y i : Nat) :
    (List.replicate a x ++ y :: List.replicate b x).getD i 0 =
      if i < a then x else if i = a then y else if i < a + 1 + b then x else 0 := by
  rw [List.getD_eq_getElem?_getD]
  by_cases h1 : i < a
  · rw [List.getElem?_append_left (by simpa using h1)]
    simp [List.getElem?_replicate, h1]
  · rw [List.getElem?_append_right (by simpa using h1)]
    simp only [List.length_replicate, h1, if_false]
    by_cases h2 : i = a
    · subst h2
      simp
    · obtain ⟨k, hk⟩ : ∃ k, i - a = k + 1 := ⟨i - a - 1, by omega⟩
      rw [hk, List.getElem?_cons_succ, List.getElem?_replicate]
      simp only [h2, if_false]
      by_cases h3 : i < a + 1 + b
      · have hkb : k < b := by omega
        simp [hkb, h3]
      · have hkb : ¬ k < b := by omega
        simp [hkb, h3]

theorem LLIMModel.getD_replicate (a x i : Nat) :
    (List.replicate a x).getD i 0 = if i < a then x else 0 := by
  rw [List.getD_eq_getElem?_getD, List.getElem?_replicate]
  split_ifs <;> rfl

theorem LLIMModel.sendLoop_fuel (split : Nat) (text : List Nat) (hsplit : 0 < split)
    (hfit : text.length + split < 2 ^ 32)
    (fuel1 fuel2 pos : Nat) (h1 : text.length - pos ≤ fuel1) (h2 : text.length - pos ≤ fuel2) :
    LLIMModel.sendLoop split text fuel1 pos = LLIMModel.sendLoop split text fuel2 pos := by
  induction fuel1 generalizing fuel2 pos with
  | zero =>
    rw [LLIMModel.sendLoop_done split text 0 pos (by omega) (by omega),
      LLIMModel.sendLoop_done split text fuel2 pos (by omega) (by omega)]
  | succ fuel1 ih =>
    by_cases hpos : pos < text.length
    · obtain ⟨n, hn, h0, _, hend⟩ := LLIMModel.nextSplit_some split text pos hsplit hfit hpos
      cases fuel2 with
      | zero => omega
      | succ fuel2 =>
        rw [LLIMModel.sendLoop_step split text fuel1 pos n (by omega) hpos hn hend,
          LLIMModel.sendLoop_step split text fuel2 pos n (by omega) hpos hn hend,
          ih fuel2 (pos + n) (by omega) (by omega)]
    · rw [LLIMModel.sendLoop_done split text _ pos (by omega) (by omega),
        LLIMModel.sendLoop_done split text fuel2 pos (by omega) (by omega)]

theorem LLIMModel.sendLoop_total_zero (split : Nat) (text : List Nat) (fuel pos : Nat)
    (h : toU32 text.length = 0) : LLIMModel.sendLoop split text fuel pos = some [] := by
  cases fuel <;> simp only [LLIMModel.sendLoop, h, Nat.not_lt_zero, if_false]

theorem wrapText_length : wrapText.length = 4294967295 := by
  rw [wrapText, List.length_map, List.length_range]

theorem wrapText_getD (i : Nat) :
    wrapText.getD i 0 =
      if i < 4294967295 then (if i % 2 = 0 then 32 else 97) else 0 := by
  rw [List.getD_eq_getElem?_getD, wrapText, List.getElem?_map]
  by_cases h : i < 4294967295
  · rw [List.getElem?_range h, if_pos h]
    rfl
  · rw [List.getElem?_eq_none (by rw [List.length_range]; omega), if_neg h]
    rfl

theorem LLIMModel.scanSpace_succ_ne (text : List Nat) (pos n b : Nat)
    (hb : LLIMModel.byteAt text (toU32 (pos + (n + 1))) = some b) (hne : b ≠ 32) :
    LLIMModel.scanSpace text pos (n + 1) = LLIMModel.scanSpace text pos n := by
  simp only [LLIMModel.scanSpace, hb, hne, ne_eq, not_false_eq_true, if_true]

theorem LLIMModel.scanSpace_succ_eq (text : List Nat) (pos n : Nat)
    (hb : LLIMModel.byteAt text (toU32 (pos + (n + 1))) = some 32) :
    LLIMModel.scanSpace text pos (n + 1) = some (n + 1) := by
  simp only [LLIMModel.scanSpace, hb, ne_eq, not_true_eq_false, if_false]

theorem wrapText_nextSplit (pos : Nat) (heven : pos % 2 = 0) :
    LLIMModel.nextSplit 1023 wrapText pos = some 1022 := by
  have hlen := wrapText_length
  have h1 : LLIMModel.byteAt wrapText (toU32 (pos + (1022 + 1))) =
      some (if toU32 (pos + (1022 + 1)) < 4294967295 then 97 else 0) := by
    have hi : toU32 (pos + (1022 + 1)) ≤ wrapText.length := by
      rw [hlen]
      unfold toU32
      omega
    rw [LLIMModel.byteAt_some _ _ hi, wrapText_getD]
    have hodd : ¬ toU32 (pos + (1022 + 1)) % 2 = 0 := by
      unfold toU32
      omega
    simp only [hodd, if_false]
  have h2 : LLIMModel.byteAt wrapText (toU32 (pos + (1021 + 1))) = some 32 := by
    have hev : toU32 (pos + (1021 + 1)) % 2 = 0 := by
      unfold toU32
      omega
    have hlt : toU32 (pos + (1021 + 1)) < 4294967295 := by
      unfold toU32 at hev ⊢
      omega
    rw [LLIMModel.byteAt_some _ _ (by rw [hlen]; omega), wrapText_getD, if_pos hlt, if_pos hev]
  have hscan : LLIMModel.scanSpace wrapText pos 1023 = some 1022 := by
    rw [show (1023 : Nat) = 1022 + 1 from rfl,
      LLIMModel.scanSpace_succ_ne wrapText pos 1022 _ h1 (by split_ifs <;> decide),
      show (1022 : Nat) = 1021 + 1 from rfl, LLIMModel.scanSpace_succ_eq wrapText pos 1021 h2]
  have htest : ¬ toU32 (pos + 1023) > toU32 wrapText.length := by
    rw [hlen]
    unfold toU32
    omega
  simp only [LLIMModel.nextSplit, htest, if_false, hscan]
  rfl

theorem LLIMModel.sendLoop_zero_none (split : Nat) (text : List Nat) (pos : Nat)
    (hpos : pos < toU32 text.length) : LLIMModel.sendLoop split text 0 pos = none := by
  simp only [LLIMModel.sendLoop, hpos, if_true]

theorem LLIMModel.sendLoop_succ_none (split : Nat) (text : List Nat) (fuel pos n : Nat)
    (hpos : pos < toU32 text.length) (hn : LLIMModel.nextSplit split text pos = some n)
    (hrec : LLIMModel.sendLoop split text fuel (toU32 (pos + n)) = none) :
    LLIMModel.sendLoop split text (fuel + 1) pos = none := by
  simp only [LLIMModel.sendLoop, hpos, if_true, hn, hrec, Option.map_none']

theorem wrapText_sendLoop (fuel : Nat) :
    ∀ pos, pos % 2 = 0 → pos < 2 ^ 32 → LLIMModel.sendLoop 1023 wrapText fuel pos = none := by
  have hlt : ∀ pos, pos % 2 = 0 → pos < 2 ^ 32 → pos < toU32 wrapText.length := by
    intro pos heven hpos
    rw [wrapText_length]
    unfold toU32
    omega
  induction fuel with
  | zero =>
    intro pos heven hpos
    exact LLIMModel.sendLoop_zero_none 1023 wrapText pos (hlt pos heven hpos)
  | succ fuel ih =>
    intro pos heven hpos
    have h1 : toU32 (pos + 1022) % 2 = 0 := by
      unfold toU32
      omega
    have h2 : toU32 (pos + 1022) < 2 ^ 32 := by
      unfold toU32
      omega
    exact LLIMModel.sendLoop_succ_none 1023 wrapText fuel pos 1022 (hlt pos heven hpos)
      (wrapText_nextSplit pos heven) (ih _ h1 h2)

/-- C26 (as amended): the splitting of `LLIMModel::sendMessage` loses nothing
for every text whose length plus `MAX_MSG_BUF_SIZE - 1` is below 2^32, so that
no `U32` sum of the loop wraps: with enough rounds (as many as the text has
bytes) the loop ends, and the chunks handed to `deliverMessage`, concatenated
in delivery order, are the text byte for byte; more rounds give the same
chunks, and an empty text delivers no chunk. -/
theorem sendMessage_lossless (utf8_text : List Nat) (fuel : Nat)
    (hfit : utf8_text.length + (MAX_MSG_BUF_SIZE - 1) < 2 ^ 32)
    (hfuel : utf8_text.length ≤ fuel) :
    ∃ chunks, LLIMModel.sendMessageChunks fuel utf8_text = some chunks ∧
      chunks.flatten = utf8_text ∧
      (utf8_text = [] → chunks = []) ∧
      LLIMModel.sendMessageChunks utf8_text.length utf8_text = some chunks := by
  obtain ⟨chunks, h1, h2, _, h4⟩ := LLIMModel.sendLoop_some (MAX_MSG_BUF_SIZE - 1) utf8_text
    (by decide) hfit fuel 0 (by omega)
  refine ⟨chunks, h1, ?_, ?_, ?_⟩
  · rw [h2, List.drop_zero]
  · intro he
    apply h4
    rw [he]
    exact le_refl _
  · rw [← h1]
    exact LLIMModel.sendLoop_fuel (MAX_MSG_BUF_SIZE - 1) utf8_text (by decide) hfit _ _ 0
      (by omega) (by omega)

theorem sendMessage_lossless_witness :
    spaceText.length = 1201 ∧ MAX_MSG_BUF_SIZE - 1 < spaceText.length ∧
      spaceText.length + (MAX_MSG_BUF_SIZE - 1) < 2 ^ 32 ∧
      LLIMModel.sendMessageChunks 1201 spaceText =
        some [List.replicate 600 97, 32 :: List.replicate 600 97] ∧
      ∃ chunks, LLIMModel.sendMessageChunks 1201 spaceText = some chunks ∧
        chunks.flatten = spaceText := by
  have hlen : spaceText.length = 1201 := by
    rw [spaceText, List.length_append, List.length_cons, List.length_replicate]
  have hfit : spaceText.length + (MAX_MSG_BUF_SIZE - 1) < 2 ^ 32 := by
    rw [hlen]
    decide
  have hget : ∀ i, spaceText.getD i 0 =
      if i < 600 then 97 else if i = 600 then 32 else if i < 600 + 1 + 600 then 97 else 0 :=
    fun i => LLIMModel.getD_padded 600 600 97 32 i
  have hchunks := LLIMModel.sendLoop_split_at_space 1023 spaceText 1199 600
    (by rw [hlen]; decide) (by rw [hlen]; decide) (by rw [hlen]; decide) (by decide) (by decide)
    (by rw [hget]; rfl)
    (fun i h1 h2 => by
      rw [hget, if_neg (by omega), if_neg (by omega), if_pos (by omega)]
      decide)
  have htake : spaceText.take 600 = List.replicate 600 97 := by
    unfold spaceText
    rw [List.take_left' (List.length_replicate _ _)]
  have hdrop : spaceText.drop 600 = 32 :: List.replicate 600 97 := by
    unfold spaceText
    rw [List.drop_left' (List.length_replicate _ _)]
  rw [htake, hdrop] at hchunks
  obtain ⟨chunks, h1, h2, _⟩ := sendMessage_lossless spaceText 1201 hfit (by rw [hlen])
  refine ⟨hlen, ?_, hfit, hchunks, chunks, h1, h2⟩
  rw [hlen]
  decide

/-- C26 (counterexample to the claim as stated): the text of 2^32 letters is
not empty, and its length stored in the `U32` variable `total` is 0, so that
the loop does not run: however many rounds are allowed, no chunk is handed to
`deliverMessage`, and the concatenation of the chunks is not the text. -/
theorem sendMessage_huge_text_counterexample :
    hugeText.length = 4294967296 ∧
      (∀ fuel, LLIMModel.sendMessageChunks fuel hugeText = some []) ∧
      ([] : List (List Nat)).flatten ≠ hugeText := by
  have hlen : hugeText.length = 4294967296 := by
    rw [hugeText, List.length_replicate]
  refine ⟨hlen, fun fuel => ?_, fun h => ?_⟩
  · apply LLIMModel.sendLoop_total_zero
    rw [hlen]
    decide
  · have h2 := congrArg List.length h
    rw [hlen] at h2
    cases h2

/-- C27 (as amended): for every text whose length plus `MAX_MSG_BUF_SIZE - 1`
is below 2^32, so that no `U32` sum of the loop wraps, the splitting loop of
`LLIMModel::sendMessage` ends after at most as many rounds as the text has
bytes, without reading a byte beyond the terminating position of the string
(such a read gives no result in the model); every round cuts a chunk that is
not empty and at most `MAX_MSG_BUF_SIZE - 1` bytes long and moves the position
forward, never past the end of the text. -/
theorem sendMessage_terminates (utf8_text : List Nat) (fuel : Nat)
    (hfit : utf8_text.length + (MAX_MSG_BUF_SIZE - 1) < 2 ^ 32)
    (hfuel : utf8_text.length ≤ fuel) :
    (∃ chunks, LLIMModel.sendMessageChunks fuel utf8_text = some chunks ∧
        (∀ c ∈ chunks, c ≠ [] ∧ c.length ≤ MAX_MSG_BUF_SIZE - 1) ∧
        chunks.length ≤ utf8_text.length) ∧
      (∀ pos, pos < utf8_text.length →
        ∃ n, LLIMModel.nextSplit (MAX_MSG_BUF_SIZE - 1) utf8_text pos = some n ∧ 0 < n ∧
          n ≤ MAX_MSG_BUF_SIZE - 1 ∧ pos + n ≤ utf8_text.length) := by
  obtain ⟨chunks, h1, h2, h3, h4⟩ := LLIMModel.sendLoop_some (MAX_MSG_BUF_SIZE - 1) utf8_text
    (by decide) hfit fuel 0 (by omega)
  refine ⟨⟨chunks, h1, h3, ?_⟩, fun pos hpos =>
    LLIMModel.nextSplit_some (MAX_MSG_BUF_SIZE - 1) utf8_text pos (by decide) hfit hpos⟩
  have hlen : chunks.length ≤ chunks.flatten.length := by
    clear h1 h2 h4
    induction chunks with
    | nil => exact le_refl _
    | cons c rest ih =>
      have hc := (h3 c (List.mem_cons_self _ _)).1
      have hpos : 0 < c.length := List.length_pos.2 hc
      have hr := ih (fun d hd => h3 d (List.mem_cons_of_mem _ hd))
      simp only [List.flatten_cons, List.length_append, List.length_cons]
      omega
  rw [h2, List.drop_zero] at hlen
  exact hlen

theorem sendMessage_terminates_witness :
    plainText.length = 1500 ∧ MAX_MSG_BUF_SIZE - 1 < plainText.length ∧
      plainText.length + (MAX_MSG_BUF_SIZE - 1) < 2 ^ 32 ∧
      LLIMModel.sendMessageChunks 1500 plainText =
        some [List.replicate 1023 97, List.replicate 477 97] ∧
      ∃ chunks, LLIMModel.sendMessageChunks 1500 plainText = some chunks ∧
        (∀ c ∈ chunks, c ≠ [] ∧ c.length ≤ MAX_MSG_BUF_SIZE - 1) ∧
        chunks.length ≤ plainText.length := by
  have hlen : plainText.length = 1500 := by
    rw [plainText, List.length_replicate]
  have hfit : plainText.length + (MAX_MSG_BUF_SIZE - 1) < 2 ^ 32 := by
    rw [hlen]
    decide
  have hget : ∀ i, plainText.getD i 0 = if i < 1500 then 97 else 0 :=
    fun i => LLIMModel.getD_replicate 1500 97 i
  have hchunks := LLIMModel.sendLoop_split_no_space 1023 plainText 1498
    (by rw [hlen]; decide) (by decide) (by rw [hlen]; decide) (by rw [hlen]; decide)
    (fun j h1 h2 => by
      rw [hget, if_pos (by omega)]
      decide)
    (by rw [hget]; decide)
  have htake : plainText.take 1023 = List.replicate 1023 97 := by
    unfold plainText
    rw [List.take_replicate]
    rfl
  have hdrop : plainText.drop 1023 = List.replicate 477 97 := by
    unfold plainText
    rw [List.drop_replicate]
  rw [htake, hdrop] at hchunks
  obtain ⟨⟨chunks, h1, h2, h3⟩, _⟩ := sendMessage_terminates plainText 1500 hfit (by rw [hlen])
  refine ⟨hlen, ?_, hfit, hchunks, chunks, h1, h2, h3⟩
  rw [hlen]
  decide

/-- C27 (counterexample to the claim as stated): the text of 2^32 - 1 bytes
with a space at every even index and a letter at every odd one. From every even
position every read of a round is inside the string, the round cuts 1022
bytes, and the `U32` sum that is the next position is again even and below the
length of the text, also where it wraps around 2^32; so the loop that starts
at position 0 does not end, however many rounds are allowed. -/
theorem sendMessage_wrap_counterexample :
    wrapText.length = 4294967295 ∧
      (∀ pos, pos % 2 = 0 → pos < 2 ^ 32 →
        LLIMModel.nextSplit (MAX_MSG_BUF_SIZE - 1) wrapText pos = some 1022 ∧
          toU32 (pos + 1022) % 2 = 0 ∧ toU32 (pos + 1022) < wrapText.length) ∧
      toU32 (4294966274 + 1022) = 0 ∧
      (∀ fuel, LLIMModel.sendMessageChunks fuel wrapText = none) := by
  refine ⟨wrapText_length, fun pos heven hpos => ⟨wrapText_nextSplit pos heven, ?_, ?_⟩,
    by decide, fun fuel => wrapText_sendLoop fuel 0 (by decide) (by decide)⟩
  · unfold toU32
    omega
  · rw [wrapText_length]
    unfold toU32
    omega

/-- C28 (as amended): a non-empty text of fewer than `MAX_MSG_BUF_SIZE - 1`
bytes is delivered as one chunk, the whole text. A text of exactly
`MAX_MSG_BUF_SIZE - 1` bytes is delivered as one chunk when no byte after its
first is a space; when it holds a space after its first byte it is delivered
as two chunks, cut in front of its last space. -/
theorem sendMessage_short_text (utf8_text : List Nat) (fuel : Nat) :
    (utf8_text ≠ [] → utf8_text.length < MAX_MSG_BUF_SIZE - 1 →
        LLIMModel.sendMessageChunks (fuel + 1) utf8_text = some [utf8_text]) ∧
      (utf8_text.length = MAX_MSG_BUF_SIZE - 1 →
        (∀ j, 0 < j → j < MAX_MSG_BUF_SIZE - 1 → utf8_text.getD j 0 ≠ 32) →
        LLIMModel.sendMessageChunks (fuel + 1) utf8_text = some [utf8_text]) ∧
      (utf8_text.length = MAX_MSG_BUF_SIZE - 1 →
        ∀ j, 0 < j → j < MAX_MSG_BUF_SIZE - 1 → utf8_text.getD j 0 = 32 →
          (∀ i, j < i → i < MAX_MSG_BUF_SIZE - 1 → utf8_text.getD i 0 ≠ 32) →
          LLIMModel.sendMessageChunks (fuel + 2) utf8_text =
            some [utf8_text.take j, utf8_text.drop j]) := by
  have hM : MAX_MSG_BUF_SIZE - 1 = 1023 := rfl
  exact ⟨fun hne hlen => LLIMModel.sendLoop_short _ utf8_text fuel (by omega) hne hlen,
    fun hlen hno => LLIMModel.sendLoop_exact_whole _ utf8_text fuel (by omega) (by decide) hlen
      hno,
    fun hlen j hj0 hjs hsp hlast =>
      LLIMModel.sendLoop_exact_split _ utf8_text fuel j (by omega) hlen hj0 hjs hsp hlast⟩

theorem sendMessage_short_text_witness :
    [104, 105] ≠ [] ∧ [104, 105].length < MAX_MSG_BUF_SIZE - 1 ∧
      LLIMModel.sendMessageChunks 2 [104, 105] = some [[104, 105]] :=
  ⟨by decide, by decide,
    (sendMessage_short_text [104, 105] 1).1 (by decide) (by decide)⟩

/-- C28 (counterexample to the claim as stated): the text of 1023 bytes, that is
`MAX_MSG_BUF_SIZE - 1`, made of 511 letters, a space and 511 letters, is not
empty and not longer than `MAX_MSG_BUF_SIZE - 1` bytes, and it is delivered as
two chunks: the 511 letters in front of the space, and the space with the
letters after it. -/
theorem sendMessage_exact_length_counterexample :
    longText ≠ [] ∧ longText.length = 1023 ∧ longText.length ≤ MAX_MSG_BUF_SIZE - 1 ∧
      LLIMModel.sendMessageChunks 1023 longText =
        some [List.replicate 511 97, 32 :: List.replicate 511 97] := by
  have hlen : longText.length = 1023 := by
    rw [longText, List.length_append, List.length_cons, List.length_replicate]
  have hget : ∀ i, longText.getD i 0 =
      if i < 511 then 97 else if i = 511 then 32 else if i < 511 + 1 + 511 then 97 else 0 :=
    fun i => LLIMModel.getD_padded 511 511 97 32 i
  have hchunks := LLIMModel.sendLoop_exact_split (MAX_MSG_BUF_SIZE - 1) longText 1021 511
    (by rw [hlen]; decide) hlen
    (by decide) (by decide) (by rw [hget]; rfl)
    (fun i h1 h2 => by
      rw [hget, if_neg (by omega), if_neg (by omega)]
      split_ifs <;> decide)
  have htake : longText.take 511 = List.replicate 511 97 := by
    unfold longText
    rw [List.take_left' (List.length_replicate _ _)]
  have hdrop : longText.drop 511 = 32 :: List.replicate 511 97 := by
    unfold longText
    rw [List.drop_left' (List.length_replicate _ _)]
  refine ⟨?_, hlen, ?_, ?_⟩
  · intro h
    rw [h] at hlen
    cases hlen
  · rw [hlen]
    decide
  · rw [htake, hdrop] at hchunks
    exact hchunks
